import Mathlib

/-!
# x0: Flow virtual machine and HTTP cluster

A shallow embedding of

* `lib/flow/vm/Runner.cpp` (the bytecode interpreter `Runner::run`),
* `src/xzero/http/client/HttpHealthMonitor.cc`,
* `src/xzero/http/client/HttpClusterMember.cc`,
* `src/xzero/http/client/HttpCluster.cc`,
* `3rdparty/libbase/include/base/SuffixTree.h`,
* `src/xzero/http/http2/Generator.cc`,
* `src/xzero/http/hpack/StaticTable.cc`,
* `plugins/director/HealthMonitor.cpp` (the state machine of the monitor),
* `src/x0/response_parser.hpp`,

followed by the properties established about them.

Conventions.  A C++ object becomes a structure, a member function becomes a
function that takes the object and returns the updated object, together with
the calls it makes to the outside (callbacks, listeners) in the order in which
it makes them.  Register words are natural numbers reduced modulo `2^64`;
signed arithmetic on them wraps around (two's complement).  An operation for
which C++ defines no result (division by zero, a shift by 64 or more, reading
or writing past the end of a vector) is an explicit outcome of the model,
never a made-up value.  An `assert` of the source is an argument of the
function that carries the asserted fact.  Classes whose source file is not
among the sources are either parameters of the model or are modelled from the
specification, which their doc comment then says.
-/

set_option autoImplicit false

/-! ## Part I — definitions -/

namespace FlowVM

/-- The opcodes, in the order of the jump table `ops[]` of `Runner::run`. -/
inductive Opcode
  -- misc
  | NOP
  -- control
  | EXIT | JMP | JN | JZ
  -- debug
  | NTICKS | NDUMPN
  -- copy
  | MOV
  -- array
  | ITCONST | STCONST | PTCONST | CTCONST
  -- numerical
  | IMOV | NCONST | NNEG | NADD | NSUB | NMUL | NDIV | NREM | NSHL | NSHR | NPOW
  | NAND | NOR | NXOR | NCMPZ | NCMPEQ | NCMPNE | NCMPLE | NCMPGE | NCMPLT | NCMPGT
  -- numerical (reg, imm)
  | NIADD | NISUB | NIMUL | NIDIV | NIREM | NISHL | NISHR | NIPOW | NIAND | NIOR | NIXOR
  | NICMPEQ | NICMPNE | NICMPLE | NICMPGE | NICMPLT | NICMPGT
  -- boolean op
  | BNOT | BAND | BOR | BXOR
  -- string op
  | SCONST | SADD | SADDMULTI | SSUBSTR | SCMPEQ | SCMPNE | SCMPLE | SCMPGE | SCMPLT | SCMPGT
  | SCMPBEG | SCMPEND | SCONTAINS | SLEN | SISEMPTY | SPRINT
  | SMATCHEQ | SMATCHBEG | SMATCHEND | SMATCHR
  -- ipaddr
  | PCONST | PCMPEQ | PCMPNE | PINCIDR
  -- cidr
  | CCONST
  -- regex
  | SREGMATCH | SREGGROUP
  -- conversion
  | I2S | P2S | C2S | R2S | S2I | SURLENC | SURLDEC
  -- invokation
  | CALL | HANDLER
  deriving DecidableEq, Repr

/-- A decoded instruction word: `opcode(i)`, `operandA(i)`, `operandB(i)`,
`operandC(i)`.  The packing of the word is fixed by `Instruction.h`, which is
not among the sources; the interpreter only ever uses the four decoded
fields.  Operands are unsigned. -/
structure Instr where
  opc : Opcode
  A : Nat
  B : Nat
  C : Nat
  deriving DecidableEq, Repr

/-- The number of values of a `Register` (`uint64_t`). -/
def wordSize : Nat := 2 ^ 64

/-- `toNumber(R)`: the register word read as a signed 64-bit `FlowNumber`. -/
def toNumber (w : Nat) : Int :=
  if w % wordSize < 2 ^ 63 then ((w % wordSize : Nat) : Int)
  else ((w % wordSize : Nat) : Int) - (wordSize : Int)

/-- `static_cast<Register>(n)`: a signed number stored back into a register
word (two's complement). -/
def toRegister (n : Int) : Nat := (n % (wordSize : Int)).toNat

/-- A C++ `bool` stored into a register. -/
def boolWord (b : Bool) : Nat := if b then 1 else 0

/-- A byte buffer (`FlowString`). -/
abbrev FlowString := List UInt8

/-- The mutable part of a `Runner`: the register file `data_[]` and the string
arena `stringGarbage_`. -/
structure Runner where
  data : List Nat
  stringGarbage : List FlowString
  deriving DecidableEq, Repr

/-- `Runner::Runner`: the arena receives the empty string, the registers are
zeroed (`memset`). -/
def Runner.create (registerCount : Nat) : Runner :=
  { data := List.replicate registerCount 0, stringGarbage := [[]] }

/-- The parts of a `Program` the interpreter consults.  Everything that lives
behind a header which is not among the sources is a field here:

* `integers` is the pool read by `constants().getInteger(B)`;
* `powl` is the C library function of that name followed by the cast to
  `Register`;
* `foreignOp` gives the effect on the runner of the opcodes that work on
  strings, addresses, networks, regular expressions and constant arrays
  through pointers kept in registers (`none`: no defined effect);
* `matchTable` is `program_->match(B)->evaluate(...)`, the offset to go on at;
* `nativeFunction` and `nativeHandler` are the callbacks behind `CALL` and
  `HANDLER`, given `argc`, the index of `argv[0]` in the register file and
  the runner (`none`: no such callback). -/
structure Program where
  integers : List Nat
  powl : Int → Int → Option Nat
  foreignOp : Instr → Runner → Option Runner
  matchTable : Nat → Nat → Runner → Option Nat
  nativeFunction : Nat → Nat → Nat → Runner → Option Runner
  nativeHandler : Nat → Nat → Nat → Runner → Option Runner

/-- A handler: its register count and its code. -/
structure Handler where
  registerCount : Nat
  code : List Instr

/-- `data_[a] = v` (no defined effect outside the register file). -/
def Runner.write (r : Runner) (a v : Nat) : Option Runner :=
  if a < r.data.length then some { r with data := r.data.set a (v % wordSize) } else none

/-- `data_[a]`. -/
def Runner.read (r : Runner) (a : Nat) : Option Nat := r.data[a]?

/-- `x / y` on `int64_t`: not defined for `y = 0`, nor for the one quotient
that does not fit. -/
def ndiv (x y : Int) : Option Int :=
  if y = 0 then none
  else if x = -(2 ^ 63) ∧ y = -1 then none
  else some (Int.tdiv x y)

/-- `x % y` on `int64_t`: defined exactly when `x / y` is. -/
def nrem (x y : Int) : Option Int :=
  if y = 0 then none
  else if x = -(2 ^ 63) ∧ y = -1 then none
  else some (Int.tmod x y)

/-- `x << y` on `int64_t`: defined for a shift count in `[0, 64)`. -/
def nshl (x y : Int) : Option Int :=
  if 0 ≤ y ∧ y < 64 then some (x * 2 ^ y.toNat) else none

/-- `x >> y` on `int64_t` (arithmetic): defined for a shift count in
`[0, 64)`. -/
def nshr (x y : Int) : Option Int :=
  if 0 ≤ y ∧ y < 64 then some (Int.fdiv x (2 ^ y.toNat)) else none

/-- An instruction `data_[A] = f(toNumber(B), toNumber(C))`. -/
def regRegOp (r : Runner) (i : Instr) (f : Int → Int → Option Int) : Option Runner :=
  match r.read i.B, r.read i.C with
  | some b, some c =>
    match f (toNumber b) (toNumber c) with
    | some v => r.write i.A (toRegister v)
    | none => none
  | _, _ => none

/-- An instruction `data_[A] = f(toNumber(B), C)` with the operand `C` itself
as second argument. -/
def regImmOp (r : Runner) (i : Instr) (f : Int → Int → Option Int) : Option Runner :=
  match r.read i.B with
  | some b =>
    match f (toNumber b) (i.C : Int) with
    | some v => r.write i.A (toRegister v)
    | none => none
  | none => none

/-- An instruction `data_[A] = f(data_[B], data_[C])` on the raw words. -/
def rawRegOp (r : Runner) (i : Instr) (f : Nat → Nat → Nat) : Option Runner :=
  match r.read i.B, r.read i.C with
  | some b, some c => r.write i.A (f b c)
  | _, _ => none

/-- An instruction `data_[A] = f(data_[B], C)` on the raw words. -/
def rawImmOp (r : Runner) (i : Instr) (f : Nat → Nat → Nat) : Option Runner :=
  match r.read i.B with
  | some b => r.write i.A (f b i.C)
  | none => none

/-- `NDUMPN`: prints `data_[A] .. data_[A+B-1]`; the registers are only
read. -/
def dumpRegisters (r : Runner) (a n : Nat) : Option Runner :=
  if (List.range n).all (fun k => decide (a + k < r.data.length)) then some r else none

/-- The body of every instruction that ends in `next`: its effect on the
runner, `none` when C++ defines none.  `ticks` is the tick counter after the
increment done on entering the instruction.  The instructions that do not end
in `next` (`EXIT`, the branches, the match instructions, `HANDLER`) are
executed by `step` and do not reach this function; the last line is for the
instructions on strings, addresses, networks, regular expressions and
constant arrays. -/
def execData (p : Program) (i : Instr) (ticks : Nat) (r : Runner) : Option Runner :=
  match i.opc with
  | .NOP => some r
  | .NTICKS => r.write i.A ticks
  | .NDUMPN => dumpRegisters r i.A i.B
  | .MOV =>
    match r.read i.B with
    | some b => r.write i.A b
    | none => none
  | .IMOV => r.write i.A i.B
  | .NCONST =>
    match p.integers[i.B]? with
    | some n => r.write i.A n
    | none => none
  | .NNEG =>
    match r.read i.B with
    | some b => r.write i.A (toRegister (-(toNumber b)))
    | none => none
  | .NADD => regRegOp r i (fun x y => some (x + y))
  | .NSUB => regRegOp r i (fun x y => some (x - y))
  | .NMUL => regRegOp r i (fun x y => some (x * y))
  | .NDIV => regRegOp r i ndiv
  | .NREM => regRegOp r i nrem
  | .NSHL => regRegOp r i nshl
  | .NSHR => regRegOp r i nshr
  | .NPOW =>
    match r.read i.B, r.read i.C with
    | some b, some c =>
      match p.powl (toNumber b) (toNumber c) with
      | some v => r.write i.A v
      | none => none
    | _, _ => none
  | .NAND => rawRegOp r i Nat.land
  | .NOR => rawRegOp r i Nat.lor
  | .NXOR => rawRegOp r i Nat.xor
  | .NCMPZ =>
    match r.read i.B with
    | some b => r.write i.A (boolWord (decide (toNumber b = 0)))
    | none => none
  | .NCMPEQ => regRegOp r i (fun x y => some (boolWord (decide (x = y))))
  | .NCMPNE => regRegOp r i (fun x y => some (boolWord (decide (x ≠ y))))
  | .NCMPLE => regRegOp r i (fun x y => some (boolWord (decide (x ≤ y))))
  | .NCMPGE => regRegOp r i (fun x y => some (boolWord (decide (x ≥ y))))
  | .NCMPLT => regRegOp r i (fun x y => some (boolWord (decide (x < y))))
  | .NCMPGT => regRegOp r i (fun x y => some (boolWord (decide (x > y))))
  | .NIADD => regImmOp r i (fun x y => some (x + y))
  | .NISUB => regImmOp r i (fun x y => some (x - y))
  | .NIMUL => regImmOp r i (fun x y => some (x * y))
  | .NIDIV => regImmOp r i ndiv
  | .NIREM => regImmOp r i nrem
  | .NISHL => regImmOp r i nshl
  | .NISHR => regImmOp r i nshr
  | .NIPOW =>
    match r.read i.B with
    | some b =>
      match p.powl (toNumber b) (i.C : Int) with
      | some v => r.write i.A v
      | none => none
    | none => none
  | .NIAND => rawImmOp r i Nat.land
  | .NIOR => rawImmOp r i Nat.lor
  | .NIXOR => rawImmOp r i Nat.xor
  | .NICMPEQ => regImmOp r i (fun x y => some (boolWord (decide (x = y))))
  | .NICMPNE => regImmOp r i (fun x y => some (boolWord (decide (x ≠ y))))
  | .NICMPLE => regImmOp r i (fun x y => some (boolWord (decide (x ≤ y))))
  | .NICMPGE => regImmOp r i (fun x y => some (boolWord (decide (x ≥ y))))
  | .NICMPLT => regImmOp r i (fun x y => some (boolWord (decide (x < y))))
  | .NICMPGT => regImmOp r i (fun x y => some (boolWord (decide (x > y))))
  | .BNOT =>
    match r.read i.B with
    | some b => r.write i.A (boolWord (decide (toNumber b = 0)))
    | none => none
  | .BAND => regRegOp r i (fun x y => some (boolWord (decide (x ≠ 0) && decide (y ≠ 0))))
  | .BOR => regRegOp r i (fun x y => some (boolWord (decide (x ≠ 0) || decide (y ≠ 0))))
  | .BXOR => rawRegOp r i Nat.xor
  | .SADDMULTI => some r
  | .SURLENC => some r
  | .SURLDEC => some r
  | .CALL => p.nativeFunction i.A i.B i.C r
  | _ => p.foreignOp i r

/-- The interpreter between two instructions: the program counter (an offset
into the handler's code), the tick counter and the runner. -/
structure VM where
  pc : Nat
  ticks : Nat
  runner : Runner

/-- What executing one instruction leads to. -/
inductive StepResult
  /-- Control goes on at the program counter of the new state. -/
  | next (s : VM)
  /-- The function `run` returns this value. -/
  | ret (b : Bool)
  /-- C++ defines no behaviour (a division by zero, an instruction or register
  fetched outside its vector, ...). -/
  | undefined

/-- `pc = code.data() + target; goto *ops[OP]`. -/
def jump (ticks target : Nat) (r : Runner) : StepResult :=
  .next { pc := target, ticks := ticks, runner := r }

/-- One instruction of `Runner::run`, fetched at `pc`. -/
def step (p : Program) (h : Handler) (s : VM) : StepResult :=
  match h.code[s.pc]? with
  | none => .undefined
  | some i =>
    let ticks := (s.ticks + 1) % wordSize
    match i.opc with
    | .EXIT => .ret (decide (i.A ≠ 0))
    | .JMP => jump ticks i.A s.runner
    | .JN =>
      match s.runner.read i.A with
      | some v => if v ≠ 0 then jump ticks i.B s.runner else jump ticks (s.pc + 1) s.runner
      | none => .undefined
    | .JZ =>
      match s.runner.read i.A with
      | some v => if v = 0 then jump ticks i.B s.runner else jump ticks (s.pc + 1) s.runner
      | none => .undefined
    | .SMATCHEQ | .SMATCHBEG | .SMATCHEND | .SMATCHR =>
      match s.runner.read i.A with
      | some v =>
        match p.matchTable i.B v s.runner with
        | some target => jump ticks target s.runner
        | none => .undefined
      | none => .undefined
    | .HANDLER =>
      match p.nativeHandler i.A i.B i.C s.runner with
      | some r =>
        match r.read i.C with
        | some handled => if handled ≠ 0 then .ret true else jump ticks (s.pc + 1) r
        | none => .undefined
      | none => .undefined
    | _ =>
      match execData p i ticks s.runner with
      | some r => jump ticks (s.pc + 1) r
      | none => .undefined

/-- How a run ends, or that it has not ended yet. -/
inductive Outcome
  | returned (b : Bool)
  | undefined
  | running
  deriving DecidableEq, Repr

/-- At most `fuel` instructions of `Runner::run` from the state `s`. -/
def runFrom (p : Program) (h : Handler) : Nat → VM → Outcome
  | 0, _ => .running
  | fuel + 1, s =>
    match step p h s with
    | .next s' => runFrom p h fuel s'
    | .ret b => .returned b
    | .undefined => .undefined

/-- The state in which `Runner::run` starts on the register file `r`. -/
def VM.start (r : Runner) : VM := { pc := 0, ticks := 0, runner := r }

/-- `Runner::run` on a freshly created runner, cut off after `fuel`
instructions. -/
def run (p : Program) (h : Handler) (fuel : Nat) : Outcome :=
  runFrom p h fuel (VM.start (Runner.create h.registerCount))

/-- A program without constants and without native callbacks. -/
def Program.bare : Program :=
  { integers := []
    powl := fun _ _ => none
    foreignOp := fun _ _ => none
    matchTable := fun _ _ _ => none
    nativeFunction := fun _ _ _ _ => none
    nativeHandler := fun _ _ _ _ => none }

/-- Whether the branch of instruction `i`, placed at offset `k`, goes to a later
offset.  Instructions other than `JMP`, `JN`, `JZ` have no operand that is a
branch target. -/
def Instr.forwardAt (i : Instr) (k : Nat) : Bool :=
  match i.opc with
  | .JMP => decide (k < i.A)
  | .JN => decide (k < i.B)
  | .JZ => decide (k < i.B)
  | _ => true

/-- Whether every instruction of `code`, the first one placed at offset `k`,
branches forward. -/
def forwardFrom : Nat → List Instr → Bool
  | _, [] => true
  | k, i :: rest => i.forwardAt k && forwardFrom (k + 1) rest

/-- Whether every `JMP`, `JN` and `JZ` of the handler goes to a later offset. -/
def Handler.forwardOnly (h : Handler) : Bool := forwardFrom 0 h.code

/-- Whether an opcode is one of the four match instructions. -/
def Opcode.isMatch : Opcode → Bool
  | .SMATCHEQ => true
  | .SMATCHBEG => true
  | .SMATCHEND => true
  | .SMATCHR => true
  | _ => false

/-- Every offset a match table of the program can return to a match
instruction of the handler lies behind that instruction. -/
def matchForward (p : Program) (h : Handler) : Prop :=
  ∀ (k : Nat) (i : Instr), h.code[k]? = some i → i.opc.isMatch = true →
    ∀ (v : Nat) (r : Runner) (t : Nat), p.matchTable i.B v r = some t → k < t

/-- The instruction divides by zero in the register file `r`: `NDIV`/`NREM`
with `r[C] = 0`, or `NIDIV`/`NIREM` with the operand `C = 0`. -/
def divisorIsZero (i : Instr) (r : Runner) : Prop :=
  ((i.opc = .NDIV ∨ i.opc = .NREM) ∧ ∃ c, r.read i.C = some c ∧ toNumber c = 0) ∨
  ((i.opc = .NIDIV ∨ i.opc = .NIREM) ∧ i.C = 0)

/-- The instruction branches, in the register file `r`, to an offset that is
not an offset of the code: a `JMP`, a `JN` on a non-zero register or a `JZ` on
a zero register. -/
def branchesOutside (h : Handler) (i : Instr) (r : Runner) : Prop :=
  (i.opc = .JMP ∧ h.code.length ≤ i.A) ∨
  (i.opc = .JN ∧ (∃ v, r.read i.A = some v ∧ v ≠ 0) ∧ h.code.length ≤ i.B) ∨
  (i.opc = .JZ ∧ r.read i.A = some 0 ∧ h.code.length ≤ i.B)

/-- A handler with three registers that divides `r1 = 7` by `r2 = 0`:
`IMOV r1, 7; NDIV r0, r1, r2; EXIT 1`. -/
def divideByZero : Handler :=
  { registerCount := 3
    code := [⟨.IMOV, 1, 7, 0⟩, ⟨.NDIV, 0, 1, 2⟩, ⟨.EXIT, 1, 0, 0⟩] }

/-- A handler whose only instruction jumps to itself: `JMP 0`. -/
def jumpToSelf : Handler := { registerCount := 1, code := [⟨.JMP, 0, 0, 0⟩] }

/-- A handler whose only instruction jumps past the end of its code:
`JMP 5`. -/
def jumpOutside : Handler := { registerCount := 1, code := [⟨.JMP, 5, 0, 0⟩] }

/-- A handler that branches forward only:
`IMOV r0, 1; JN r0, 3; EXIT 0; SMATCHEQ r0, 0; EXIT 0; EXIT 1`. -/
def branchForward : Handler :=
  { registerCount := 1
    code := [⟨.IMOV, 0, 1, 0⟩, ⟨.JN, 0, 3, 0⟩, ⟨.EXIT, 0, 0, 0⟩, ⟨.SMATCHEQ, 0, 0, 0⟩,
             ⟨.EXIT, 0, 0, 0⟩, ⟨.EXIT, 1, 0, 0⟩] }

/-- A program whose match tables all send every input to offset 5. -/
def Program.matchToFive : Program :=
  { Program.bare with matchTable := fun _ _ _ => some 5 }

end FlowVM

namespace xzero

/-- A `Counter`, or another tally of events: `++c`.  The declarations of the
tallies are not among the sources; they are taken to be unsigned 64-bit
numbers, and the `2^64` events it takes to overflow one are not modelled. -/
def Counter.incr (c : Nat) : Nat := c + 1

/-- A `Counter`: `--c`, which wraps around at zero as unsigned arithmetic
does. -/
def Counter.decr (c : Nat) : Nat := if c = 0 then 2 ^ 64 - 1 else c - 1

/-- `HttpHealthMonitor::State`. -/
inductive HttpHealthMonitor.State
  | Undefined
  | Offline
  | Online
  deriving DecidableEq, Repr

/-- What a member function does besides updating its object, in the order in
which it does it. -/
inductive Effect
  /-- The monitor called `onStateChange_(this, oldState)`. -/
  | stateChanged (oldState : HttpHealthMonitor.State)
  /-- The monitor armed its timer (`recheck`). -/
  | recheck
  /-- The member handed the request to `HttpClient::sendAsync`. -/
  | sendAsync (request : Nat)
  /-- The member called `onProcessingFailed_(cr)`. -/
  | processingFailed (request : Nat)
  deriving DecidableEq, Repr

/-- The state of an `HttpHealthMonitor` that its state machine reads and
writes.  `hasStateChangeCallback` tells whether `onStateChange_` is set. -/
structure HttpHealthMonitor where
  successThreshold : Nat
  hasStateChangeCallback : Bool
  state : HttpHealthMonitor.State
  totalFailCount : Nat
  consecutiveSuccessCount : Nat
  deriving DecidableEq, Repr

namespace HttpHealthMonitor

/-- The constructor: state `Undefined`, both counters zero. -/
def create (successThreshold : Nat) (hasStateChangeCallback : Bool) : HttpHealthMonitor :=
  { successThreshold := successThreshold
    hasStateChangeCallback := hasStateChangeCallback
    state := .Undefined
    totalFailCount := 0
    consecutiveSuccessCount := 0 }

/-- `isOnline()`. -/
def isOnline (m : HttpHealthMonitor) : Bool := decide (m.state = .Online)

/-- `setState(value)`.  The `assert(value != State::Undefined)` of the source
is the argument `_h`. -/
def setState (m : HttpHealthMonitor) (value : State) (_h : value ≠ .Undefined) :
    HttpHealthMonitor × List Effect :=
  if m.state = value then (m, [])
  else
    let oldState := m.state
    ({ m with state := value },
      if m.hasStateChangeCallback then [Effect.stateChanged oldState] else [])

/-- `logSuccess()`. -/
def logSuccess (m : HttpHealthMonitor) : HttpHealthMonitor × List Effect :=
  let m1 := { m with consecutiveSuccessCount := Counter.incr m.consecutiveSuccessCount }
  if m1.consecutiveSuccessCount ≥ m1.successThreshold then
    let (m2, effects) := m1.setState .Online (by decide)
    (m2, effects ++ [Effect.recheck])
  else (m1, [Effect.recheck])

/-- `logFailure()`. -/
def logFailure (m : HttpHealthMonitor) : HttpHealthMonitor × List Effect :=
  let m1 := { m with totalFailCount := Counter.incr m.totalFailCount
                     consecutiveSuccessCount := 0 }
  let (m2, effects) := m1.setState .Offline (by decide)
  (m2, effects ++ [Effect.recheck])

/-- What can happen to a monitor: a probe that succeeded, a probe that failed,
or the forced `setState(State::Offline)` of a member whose dispatch failed. -/
inductive Event
  | success
  | failure
  | forceOffline
  deriving DecidableEq, Repr

/-- One event: the monitor after it and the effects. -/
def handle (m : HttpHealthMonitor) : Event → HttpHealthMonitor × List Effect
  | .success => m.logSuccess
  | .failure => m.logFailure
  | .forceOffline => m.setState .Offline (by decide)

/-- The monitor after one event. -/
def apply (m : HttpHealthMonitor) (e : Event) : HttpHealthMonitor := (m.handle e).1

/-- The monitor after a sequence of events, oldest first. -/
def applyAll (m : HttpHealthMonitor) (events : List Event) : HttpHealthMonitor :=
  events.foldl apply m

/-- The number of probe successes at the end of `events` (oldest first) that no
other event follows. -/
def trailingSuccesses (events : List Event) : Nat :=
  (events.reverse.takeWhile (fun e => decide (e = Event.success))).length

end HttpHealthMonitor

/-- `HttpClusterSchedulerStatus`, in the order of the table `ss[]` of
`HttpCluster::dequeueTo`. -/
inductive HttpClusterSchedulerStatus
  | Unavailable
  | Success
  | Overloaded
  deriving DecidableEq, Repr

/-- What a response listener is told. -/
inductive ListenerEvent
  | messageBegin (status : Nat) (reason : String)
  | messageHeader (name : String) (value : String)
  | messageHeaderEnd
  | messageContent (body : String)
  | messageEnd
  deriving DecidableEq, Repr

/-- The fields of an `HttpClusterRequest` that the cluster and its members
use.  `id` tells requests apart; `bucket` and `backend` are the names of the
bucket and of the member the request points to; `listener` is what
`responseListener` has been told so far, oldest first. -/
structure HttpClusterRequest where
  id : Nat
  bucket : Option String
  backend : Option String
  tryCount : Nat
  tokens : Nat
  listener : List ListenerEvent
  deriving DecidableEq, Repr

/-- A request as it is constructed: no bucket, no member, no try, no token. -/
def HttpClusterRequest.create (id : Nat) : HttpClusterRequest :=
  { id := id, bucket := none, backend := none, tryCount := 0, tokens := 0, listener := [] }

/-- The response an `HttpClient` holds when its future succeeds. -/
structure HttpResponse where
  status : Nat
  reason : String
  headers : List (String × String)
  body : String
  deriving DecidableEq, Repr

/-- The state of an `HttpClusterMember`.  `hasProcessingFailedCallback` tells
whether `onProcessingFailed_` is set. -/
structure HttpClusterMember where
  name : String
  capacity : Nat
  enabled : Bool
  load : Nat
  hasProcessingFailedCallback : Bool
  healthMonitor : HttpHealthMonitor
  deriving DecidableEq, Repr

namespace HttpClusterMember

/-- What `tryProcess` returns: the status, the member, the request and the
effects. -/
structure Processed where
  status : HttpClusterSchedulerStatus
  member : HttpClusterMember
  cr : HttpClusterRequest
  effects : List Effect
  deriving DecidableEq, Repr

/-- `process(cr)`: starts the asynchronous exchange and returns `true`. -/
def process (_m : HttpClusterMember) (cr : HttpClusterRequest) : Bool × List Effect :=
  (true, [Effect.sendAsync cr.id])

/-- `tryProcess(cr)`. -/
def tryProcess (m : HttpClusterMember) (cr : HttpClusterRequest) : Processed :=
  if !m.enabled then
    { status := .Unavailable, member := m, cr := cr, effects := [] }
  else if !m.healthMonitor.isOnline then
    { status := .Unavailable, member := m, cr := cr, effects := [] }
  else if m.capacity ≠ 0 ∧ m.load ≥ m.capacity then
    { status := .Overloaded, member := m, cr := cr, effects := [] }
  else
    let m1 := { m with load := Counter.incr m.load }
    let cr1 := { cr with backend := some m.name }
    let (ok, sent) := m1.process cr1
    if !ok then
      let m2 := { m1 with load := Counter.decr m1.load }
      let cr2 := { cr1 with backend := none }
      let (monitor, changed) := m2.healthMonitor.setState .Offline (by decide)
      { status := .Unavailable, member := { m2 with healthMonitor := monitor }, cr := cr2,
        effects := sent ++ changed }
    else
      { status := .Success, member := m1, cr := cr1, effects := sent }

/-- `onFailure(cr, status)`. -/
def onFailure (m : HttpClusterMember) (cr : HttpClusterRequest) :
    HttpClusterMember × HttpClusterRequest × List Effect :=
  let m1 := { m with load := Counter.decr m.load }
  let (monitor, changed) := m1.healthMonitor.setState .Offline (by decide)
  let m2 := { m1 with healthMonitor := monitor }
  let cr1 := { cr with backend := none }
  (m2, cr1,
    changed ++ (if m.hasProcessingFailedCallback then [Effect.processingFailed cr.id] else []))

/-- `iequals(a, b)`: equality of two names without regard to the case of
letters. -/
def iequals (a b : String) : Bool := a.toLower == b.toLower

/-- The list `connectionHeaderFields` of `onResponseReceived`. -/
def connectionHeaderFields : List String :=
  ["Connection", "Content-Length", "Close", "Keep-Alive", "TE", "Trailer",
   "Transfer-Encoding", "Upgrade"]

/-- The lambda `isConnectionHeader` of `onResponseReceived`. -/
def isConnectionHeader (name : String) : Bool :=
  connectionHeaderFields.any (fun test => iequals name test)

/-- `onResponseReceived(cr, client)`: the response is passed on to the
listener of the request; the member itself is not written to. -/
def onResponseReceived (m : HttpClusterMember) (cr : HttpClusterRequest)
    (client : HttpResponse) : HttpClusterMember × HttpClusterRequest :=
  let headers := (client.headers.filter (fun f => !isConnectionHeader f.1)).map
    (fun f => ListenerEvent.messageHeader f.1 f.2)
  (m, { cr with listener := cr.listener ++
          [ListenerEvent.messageBegin client.status client.reason] ++ headers ++
          [ListenerEvent.messageHeaderEnd, ListenerEvent.messageContent client.body,
           ListenerEvent.messageEnd] })

/-- Modelled from the spec: `setEnabled(value)`, which is defined in
`HttpClusterMember.h`, not among the sources; it sets the administrative
`enabled` flag of the member and nothing else. -/
def setEnabled (m : HttpClusterMember) (value : Bool) : HttpClusterMember :=
  { m with enabled := value }

/-- What happens to one member: a request is offered to it, a request it has
accepted completes, by a failure or by a response, its monitor sees an event,
or its `enabled` flag is set. -/
inductive Event
  | tryProcess (cr : HttpClusterRequest)
  | onFailure (cr : HttpClusterRequest)
  | onResponseReceived (cr : HttpClusterRequest) (client : HttpResponse)
  | monitor (e : HttpHealthMonitor.Event)
  | setEnabled (value : Bool)
  deriving DecidableEq, Repr

/-- A member together with the identifiers of the requests it has accepted and
that have not completed. -/
structure Tracked where
  member : HttpClusterMember
  inFlight : List Nat
  deriving DecidableEq, Repr

/-- One event on a tracked member; `none` when the event is the completion of
a request that is not in flight on this member. -/
def Tracked.step (t : Tracked) : Event → Option Tracked
  | .tryProcess cr =>
    let r := t.member.tryProcess cr
    if r.status = .Success then some { member := r.member, inFlight := cr.id :: t.inFlight }
    else some { member := r.member, inFlight := t.inFlight }
  | .onFailure cr =>
    if cr.id ∈ t.inFlight then
      some { member := (t.member.onFailure cr).1, inFlight := t.inFlight.erase cr.id }
    else none
  | .onResponseReceived cr client =>
    if cr.id ∈ t.inFlight then
      some { member := (t.member.onResponseReceived cr client).1,
             inFlight := t.inFlight.erase cr.id }
    else none
  | .monitor e =>
    some { t with member := { t.member with healthMonitor := t.member.healthMonitor.apply e } }
  | .setEnabled value => some { t with member := t.member.setEnabled value }

/-- A sequence of events on a tracked member, oldest first. -/
def Tracked.run (t : Tracked) : List Event → Option Tracked
  | [] => some t
  | e :: rest =>
    match t.step e with
    | some t' => t'.run rest
    | none => none

end HttpClusterMember

/-- Modelled from the spec: a node of the token shaper (`TokenShaper.h` is not
among the sources).  `rate` is the reserved share, `ceil` the most the node may
hand out, `actualRate` the tokens it has handed out, `queue` its FIFO of
waiting requests. -/
structure Bucket where
  name : String
  rate : Nat
  ceil : Nat
  actualRate : Nat
  queue : List HttpClusterRequest
  deriving DecidableEq, Repr

namespace Bucket

/-- Modelled from the spec: `get(n)` succeeds, handing out `n` tokens, if that
does not take the node above its `ceil`; otherwise it fails and changes
nothing. -/
def get (b : Bucket) (n : Nat) : Bool × Bucket :=
  if b.actualRate + n ≤ b.ceil then (true, { b with actualRate := b.actualRate + n })
  else (false, b)

/-- Modelled from the spec: `put(n)` returns `n` tokens. -/
def put (b : Bucket) (n : Nat) : Bucket := { b with actualRate := b.actualRate - n }

/-- Modelled from the spec: `enqueue(cr)` appends to the FIFO. -/
def enqueue (b : Bucket) (cr : HttpClusterRequest) : Bucket :=
  { b with queue := b.queue ++ [cr] }

/-- Modelled from the spec: `dequeue()` pops the oldest waiting request. -/
def dequeue (b : Bucket) : Option (HttpClusterRequest × Bucket) :=
  match b.queue with
  | [] => none
  | cr :: rest => some (cr, { b with queue := rest })

/-- `queued().current()`: the number of waiting requests. -/
def queuedCurrent (b : Bucket) : Nat := b.queue.length

end Bucket

/-- Modelled from the spec: the token shaper as the cluster uses it, its size
and its root node. -/
structure TokenShaper where
  size : Nat
  rootNode : Bucket
  deriving DecidableEq, Repr

/-- Modelled from the spec: `resize(n)` reconfigures the size of the root
node. -/
def TokenShaper.resize (t : TokenShaper) (n : Nat) : TokenShaper :=
  { size := n, rootNode := { t.rootNode with rate := n, ceil := n } }

/-- The state of an `HttpCluster`.  `retryAfter` is a `Duration` in
microseconds.  `posted` holds the work handed to `cr->post(...)` by
`dequeueTo` that has not run yet: the member it is for and the request. -/
structure HttpCluster where
  name : String
  enabled : Bool
  stickyOfflineMode : Bool
  enqueueOnUnavailable : Bool
  queueLimit : Nat
  retryAfter : Nat
  maxRetryCount : Nat
  shaper : TokenShaper
  members : List HttpClusterMember
  dropped : Nat
  queued : Nat
  posted : List (Nat × HttpClusterRequest)
  deriving DecidableEq, Repr

/-- What a cluster scheduler returns: the status and the members and the
request as it leaves them. -/
structure Scheduled where
  status : HttpClusterSchedulerStatus
  members : List HttpClusterMember
  cr : HttpClusterRequest
  deriving DecidableEq, Repr

/-- A cluster scheduler (`clusterScheduler()->schedule(cr)`); the schedulers
themselves are not among the sources. -/
abbrev HttpClusterScheduler := List HttpClusterMember → HttpClusterRequest → Scheduled

/-- Modelled from the spec: a scheduler with the three-state contract that
offers the request to the members in their stable order and stops at the
first one that accepts it; if none accepts, the result is `Unavailable` when
every member was unavailable and `Overloaded` otherwise. -/
def HttpClusterScheduler.inOrder : HttpClusterScheduler
  | [], cr => { status := .Unavailable, members := [], cr := cr }
  | m :: rest, cr =>
    let r := m.tryProcess cr
    if r.status = .Success then
      { status := .Success, members := r.member :: rest, cr := r.cr }
    else
      let s := HttpClusterScheduler.inOrder rest cr
      { status :=
          if s.status = .Success then .Success
          else if r.status = .Unavailable ∧ s.status = .Unavailable then .Unavailable
          else .Overloaded
        members := r.member :: s.members
        cr := s.cr }

namespace HttpCluster

/-- The constructor with all its arguments: an empty shaper, no members. -/
def create (name : String) (enabled stickyOfflineMode enqueueOnUnavailable : Bool)
    (queueLimit retryAfter maxRetryCount : Nat) : HttpCluster :=
  { name := name
    enabled := enabled
    stickyOfflineMode := stickyOfflineMode
    enqueueOnUnavailable := enqueueOnUnavailable
    queueLimit := queueLimit
    retryAfter := retryAfter
    maxRetryCount := maxRetryCount
    shaper := { size := 0, rootNode := { name := "", rate := 0, ceil := 0, actualRate := 0,
                                         queue := [] } }
    members := []
    dropped := 0
    queued := 0
    posted := [] }

/-- `addMember(name, ipaddr, port, capacity, enabled)`: a member with a fresh
monitor (success threshold 3) whose state-change callback is
`onBackendStateChanged`; see `memberOnFailure` for its processing-failed
callback. -/
def addMember (c : HttpCluster) (name : String) (capacity : Nat) (enabled : Bool) :
    HttpCluster :=
  { c with members := c.members ++
      [{ name := name, capacity := capacity, enabled := enabled, load := 0,
         hasProcessingFailedCallback := true,
         healthMonitor := HttpHealthMonitor.create 3 true }] }

/-- `HttpStatus::ServiceUnavailable`. -/
def ServiceUnavailable : Nat := 503

/-- `HttpStatus::GatewayTimeout`. -/
def GatewayTimeout : Nat := 504

/-- `serviceUnavailable(cr, status)`. -/
def serviceUnavailable (c : HttpCluster) (cr : HttpClusterRequest)
    (status : Nat) : HttpCluster × HttpClusterRequest :=
  let bucketHeader :=
    match cr.bucket with
    | some b => [ListenerEvent.messageHeader "Cluster-Bucket" b]
    | none => []
  let retryHeader :=
    if c.retryAfter ≠ 0 then
      [ListenerEvent.messageHeader "Retry-After" (toString (c.retryAfter / 1000000))]
    else []
  ({ c with dropped := Counter.incr c.dropped },
   { cr with listener := cr.listener ++
       [ListenerEvent.messageBegin status "Service Unavailable"] ++ bucketHeader ++
       retryHeader ++ [ListenerEvent.messageHeaderEnd, ListenerEvent.messageEnd] })

/-- A cluster, the bucket a request points to and the request, as a member
function of the cluster leaves them.  `done` is the `bool` a function
returns. -/
structure Result where
  done : Bool
  cluster : HttpCluster
  bucket : Bucket
  cr : HttpClusterRequest
  deriving DecidableEq, Repr

/-- `tryEnqueue(cr)`, `bucket` being `*cr->bucket`. -/
def tryEnqueue (c : HttpCluster) (bucket : Bucket) (cr : HttpClusterRequest) : Result :=
  if bucket.queuedCurrent < c.queueLimit then
    let cr1 := { cr with backend := none }
    { done := true, cluster := { c with queued := Counter.incr c.queued },
      bucket := bucket.enqueue cr1, cr := cr1 }
  else
    let (c1, cr1) := c.serviceUnavailable cr ServiceUnavailable
    { done := false, cluster := c1, bucket := bucket, cr := cr1 }

/-- `verifyTryCount(cr)`. -/
def verifyTryCount (c : HttpCluster) (cr : HttpClusterRequest) :
    Bool × HttpCluster × HttpClusterRequest :=
  if cr.tryCount ≤ c.maxRetryCount then (true, c, cr)
  else
    let (c1, cr1) := c.serviceUnavailable cr ServiceUnavailable
    (false, c1, cr1)

/-- `schedule(cr, bucket)`.  In the result `done` tells whether the scheduler
returned `Success`. -/
def schedule (sch : HttpClusterScheduler) (c : HttpCluster) (cr : HttpClusterRequest)
    (bucket : Bucket) : Result :=
  let cr0 := { cr with bucket := some bucket.name }
  if !c.enabled then
    let (c1, cr1) := c.serviceUnavailable cr0 ServiceUnavailable
    { done := false, cluster := c1, bucket := bucket, cr := cr1 }
  else
    let (got, bucket1) := bucket.get 1
    if got then
      let s := sch c.members cr0
      let c1 := { c with members := s.members }
      if s.status = .Success then
        { done := true, cluster := c1, bucket := bucket1, cr := s.cr }
      else
        let bucket2 := bucket1.put 1
        let cr2 := { s.cr with tokens := 0 }
        if s.status = .Unavailable ∧ !c.enqueueOnUnavailable then
          let (c3, cr3) := c1.serviceUnavailable cr2 ServiceUnavailable
          { done := false, cluster := c3, bucket := bucket2, cr := cr3 }
        else
          { c1.tryEnqueue bucket2 cr2 with done := false }
    else if bucket.ceil > 0 ∨ c.enqueueOnUnavailable then
      { c.tryEnqueue bucket cr0 with done := false }
    else
      let (c1, cr1) := c.serviceUnavailable cr0 ServiceUnavailable
      { done := false, cluster := c1, bucket := bucket, cr := cr1 }

/-- `reschedule(cr)`, `bucket` being `*cr->bucket`.  In the result `done`
tells whether the request was handed to the scheduler. -/
def reschedule (sch : HttpClusterScheduler) (c : HttpCluster) (cr : HttpClusterRequest)
    (bucket : Bucket) : Result :=
  let (ok, c1, cr1) := c.verifyTryCount cr
  if ok then
    let s := sch c1.members cr1
    let c2 := { c1 with members := s.members }
    if s.status ≠ .Success then
      { c2.tryEnqueue bucket s.cr with done := true }
    else
      { done := true, cluster := c2, bucket := bucket, cr := s.cr }
  else
    { done := false, cluster := c1, bucket := bucket, cr := cr1 }

/-- `dequeue()`. -/
def dequeue (c : HttpCluster) : Option HttpClusterRequest × HttpCluster :=
  match c.shaper.rootNode.dequeue with
  | some (cr, root) =>
    (some cr, { c with shaper := { c.shaper with rootNode := root }
                       queued := Counter.decr c.queued })
  | none => (none, c)

/-- `dequeueTo(backend)`, the member being given by its position: the oldest
waiting request, if there is one, is taken from the queue and the work on it
is posted. -/
def dequeueTo (c : HttpCluster) (backend : Nat) : HttpCluster :=
  match c.dequeue with
  | (some cr, c1) => { c1 with posted := c1.posted ++ [(backend, cr)] }
  | (none, c1) => c1

/-- `shaper()->resize(shaper()->size() + n)` on `size_t`. -/
def growShaper (c : HttpCluster) (n : Nat) : HttpCluster :=
  { c with shaper := c.shaper.resize ((c.shaper.size + n) % 2 ^ 64) }

/-- `shaper()->resize(shaper()->size() - n)` on `size_t`. -/
def shrinkShaper (c : HttpCluster) (n : Nat) : HttpCluster :=
  { c with shaper := c.shaper.resize ((c.shaper.size + 2 ^ 64 - n % 2 ^ 64) % 2 ^ 64) }

/-- `onBackendStateChanged(backend, healthMonitor, oldState)`, the member
being given by its position in `members_`. -/
def onBackendStateChanged (c : HttpCluster) (backend : Nat)
    (oldState : HttpHealthMonitor.State) : HttpCluster :=
  match c.members[backend]? with
  | none => c
  | some b =>
    if b.healthMonitor.isOnline then
      if !b.enabled then c
      else
        let c1 := c.growShaper b.capacity
        if !c1.stickyOfflineMode then c1.dequeueTo backend
        else { c1 with members := c1.members.set backend (b.setEnabled false) }
    else if b.enabled ∧ oldState = .Online then c.shrinkShaper b.capacity
    else c

/-- The callbacks a member of the cluster has installed, run for the effects
of one of its functions: a state change of its monitor goes to
`onBackendStateChanged`. -/
def notifyStateChanges (c : HttpCluster) (backend : Nat) : List Effect → HttpCluster
  | [] => c
  | Effect.stateChanged oldState :: rest =>
    (c.onBackendStateChanged backend oldState).notifyStateChanges backend rest
  | _ :: rest => c.notifyStateChanges backend rest

/-- An event on the monitor of the member at position `backend`, with the
callback it triggers. -/
def monitorEvent (c : HttpCluster) (backend : Nat) (e : HttpHealthMonitor.Event) :
    HttpCluster :=
  match c.members[backend]? with
  | none => c
  | some b =>
    let (monitor, effects) := b.healthMonitor.handle e
    let c1 := { c with members := c.members.set backend { b with healthMonitor := monitor } }
    c1.notifyStateChanges backend effects

/-- A sequence of monitor events, each with the position of its member, oldest
first. -/
def monitorEvents (c : HttpCluster) (events : List (Nat × HttpHealthMonitor.Event)) :
    HttpCluster :=
  events.foldl (fun c e => c.monitorEvent e.1 e.2) c

/-- The sum of the capacities of the members that are enabled and online. -/
def onlineCapacity (c : HttpCluster) : Nat :=
  ((c.members.filter (fun m => m.enabled && m.healthMonitor.isOnline)).map
    (fun m => m.capacity)).sum

/-- What a member adds to the sum of the capacities of the enabled and online
members. -/
def contrib (m : HttpClusterMember) : Nat :=
  if m.enabled && m.healthMonitor.isOnline then m.capacity else 0

/-- The cluster is not in sticky-offline mode, every member's monitor reports
its state changes to the cluster, and the shaper size is the sum of the
capacities of the enabled and online members (as a `size_t`). -/
def sizeInvariant (c : HttpCluster) : Prop :=
  c.stickyOfflineMode = false ∧
  (∀ m ∈ c.members, m.healthMonitor.hasStateChangeCallback = true) ∧
  c.shaper.size = c.onlineCapacity % 2 ^ 64

/-- Modelled from the spec: the processing-failed callback of a member of the
cluster is `reschedule` ("on client failure ... reschedule"); the code that
installs it is not among the sources.  A failed dispatch of `cr` on the
member at position `backend` is then `HttpClusterMember::onFailure` with the
callbacks it triggers, the state change of the monitor first and `reschedule`
after it.  `bucket` is `*cr->bucket`. -/
def memberOnFailure (sch : HttpClusterScheduler) (c : HttpCluster) (backend : Nat)
    (cr : HttpClusterRequest) (bucket : Bucket) : Result :=
  match c.members[backend]? with
  | none => { done := false, cluster := c, bucket := bucket, cr := cr }
  | some b =>
    let (b1, cr1, effects) := b.onFailure cr
    let c1 := { c with members := c.members.set backend b1 }
    let c2 := c1.notifyStateChanges backend effects
    if Effect.processingFailed cr.id ∈ effects then c2.reschedule sch cr1 bucket
    else { done := false, cluster := c2, bucket := bucket, cr := cr1 }

end HttpCluster

end xzero

namespace xzero

/-- The probe state machine in the words of the specification: "a success sets
state to Online only when consecutive successes ≥ threshold; any failure sets
state to Offline and resets the consecutive-success counter", each failure
being counted. -/
def HttpHealthMonitor.specProbe (m : HttpHealthMonitor) (success : Bool) : HttpHealthMonitor :=
  if success then
    { m with consecutiveSuccessCount := m.consecutiveSuccessCount + 1
             state := if m.consecutiveSuccessCount + 1 ≥ m.successThreshold then .Online
                      else m.state }
  else
    { m with totalFailCount := m.totalFailCount + 1
             consecutiveSuccessCount := 0
             state := .Offline }

/-- Two probe successes, the forced `setState(Offline)` of a failed dispatch,
one more probe success. -/
def HttpHealthMonitor.recovery : List HttpHealthMonitor.Event :=
  [.success, .success, .forceOffline, .success]

/-- The member of the happy-path scenario: enabled, capacity 10, online,
idle. -/
def HttpClusterMember.happy : HttpClusterMember :=
  { name := "m", capacity := 10, enabled := true, load := 0,
    hasProcessingFailedCallback := true,
    healthMonitor := { successThreshold := 3, hasStateChangeCallback := true,
                       state := .Online, totalFailCount := 0,
                       consecutiveSuccessCount := 3 } }

/-- The response of the happy-path scenario: `200 OK` with body `ok`. -/
def HttpResponse.ok : HttpResponse :=
  { status := 200, reason := "OK", headers := [("Content-Length", "2")], body := "ok" }

/-- A scheduler that returns the given status and attaches the request to no
member. -/
def HttpClusterScheduler.always (status : HttpClusterSchedulerStatus) : HttpClusterScheduler :=
  fun members cr => { status := status, members := members, cr := cr }

/-- The answer of the scheduler inside `schedule(cr, bucket)`. -/
def HttpCluster.answer (sch : HttpClusterScheduler) (c : HttpCluster)
    (cr : HttpClusterRequest) (bucket : Bucket) : Scheduled :=
  sch c.members { cr with bucket := some bucket.name }

/-- The cluster and the request inside `schedule(cr, bucket)` after the
scheduler has answered and `cr->tokens = 0` has been executed. -/
def HttpCluster.tokenReturned (sch : HttpClusterScheduler) (c : HttpCluster)
    (cr : HttpClusterRequest) (bucket : Bucket) : HttpCluster × HttpClusterRequest :=
  ({ c with members := (c.answer sch cr bucket).members },
   { (c.answer sch cr bucket).cr with tokens := 0 })

/-- A bucket `b` with one token to hand out and nothing queued. -/
def Bucket.single : Bucket :=
  { name := "b", rate := 1, ceil := 1, actualRate := 0, queue := [] }

/-- An enabled cluster that does not enqueue on unavailability: queue limit
10, no retry-after, `maxRetryCount = 3`. -/
def HttpCluster.strict : HttpCluster := HttpCluster.create "c" true false false 10 0 3

/-- A cluster in sticky-offline mode with one enabled member of capacity 10,
as `addMember` leaves it. -/
def HttpCluster.sticky : HttpCluster :=
  (HttpCluster.create "c" true true true 1000 30000000 3).addMember "a" 10 true

/-- Three probe successes on the member at position `backend`. -/
def HttpCluster.threeSuccesses (backend : Nat) : List (Nat × HttpHealthMonitor.Event) :=
  [(backend, .success), (backend, .success), (backend, .success)]

/-- A cluster with `maxRetryCount = 2` and four enabled members of capacity 1,
each brought online by three successful probes. -/
def HttpCluster.fourOnline : HttpCluster :=
  ((((HttpCluster.create "c" true false true 1000 0 2).addMember "a" 1 true).addMember
    "b" 1 true).addMember "c" 1 true).addMember "d" 1 true |>.monitorEvents
    (HttpCluster.threeSuccesses 0 ++ HttpCluster.threeSuccesses 1 ++
     HttpCluster.threeSuccesses 2 ++ HttpCluster.threeSuccesses 3)

/-- A request is scheduled on `fourOnline` through the bucket `b` and its
dispatch fails `failures` times, each time on the member it was handed to
(the members are taken in their order). -/
def HttpCluster.failedDispatches : Nat → HttpCluster.Result
  | 0 => HttpCluster.fourOnline.schedule HttpClusterScheduler.inOrder
      (HttpClusterRequest.create 1) Bucket.single
  | failures + 1 =>
    let r := HttpCluster.failedDispatches failures
    r.cluster.memberOnFailure HttpClusterScheduler.inOrder failures r.cr r.bucket

end xzero

namespace FlowVM

/-- The code `NCONST r0, 10; NCONST r1, 20; NADD r2, r0, r1; EXIT r2`. -/
def sumThenExit : List Instr :=
  [⟨.NCONST, 0, 10, 0⟩, ⟨.NCONST, 1, 20, 0⟩, ⟨.NADD, 2, 0, 1⟩, ⟨.EXIT, 2, 0, 0⟩]

/-- The code `NCONST r0, 0; EXIT r0`. -/
def zeroThenExit : List Instr := [⟨.NCONST, 0, 0, 0⟩, ⟨.EXIT, 0, 0, 0⟩]

/-- A program whose integer pool has the 21 entries `0, 1, ..., 20`, so that
the constants numbered 0, 10 and 20 exist. -/
def Program.withIntegers : Program := { Program.bare with integers := List.range 21 }

end FlowVM

namespace xzero

namespace HttpCluster

/-- `schedule(cr)`, which is `schedule(cr, rootBucket())`: the root node is
the bucket, and what `schedule` does to it stays in the shaper. -/
def scheduleRoot (sch : HttpClusterScheduler) (c : HttpCluster) (cr : HttpClusterRequest) :
    HttpCluster × HttpClusterRequest :=
  let r := c.schedule sch cr c.shaper.rootNode
  ({ r.cluster with shaper := { r.cluster.shaper with rootNode := r.bucket } }, r.cr)

/-- The lambda that `dequeueTo(backend)` posts for the request `cr` it took
from the queue, the member being given by its position and `bucket` being
`*cr->bucket`.  In the result `done` is what `reschedule` reports, or the
value of `verifyTryCount`. -/
def dequeueToPosted (sch : HttpClusterScheduler) (c : HttpCluster) (backend : Nat)
    (cr : HttpClusterRequest) (bucket : Bucket) : Result :=
  match c.members[backend]? with
  | none => { done := false, cluster := c, bucket := bucket, cr := cr }
  | some b =>
    let cr1 := { cr with tokens := 1 }
    let r := b.tryProcess cr1
    let c1 := { c with members := c.members.set backend r.member }
    let c2 := c1.notifyStateChanges backend r.effects
    if r.status ≠ .Success then
      let cr2 := { r.cr with tokens := 0 }
      c2.reschedule sch cr2 bucket
    else
      let (ok, c3, cr3) := c2.verifyTryCount r.cr
      { done := ok, cluster := c3, bucket := bucket, cr := cr3 }

/-- The oldest work posted by `dequeueTo` is run.  Its request came out of the
queue of the root node, which `cr->bucket` therefore points to; what is done
to that queue stays in the shaper. -/
def runPosted (sch : HttpClusterScheduler) (c : HttpCluster) :
    Option (HttpCluster × HttpClusterRequest) :=
  match c.posted with
  | [] => none
  | (backend, cr) :: rest =>
    let r := dequeueToPosted sch { c with posted := rest } backend cr c.shaper.rootNode
    some ({ r.cluster with
              shaper := { r.cluster.shaper with
                            rootNode := { r.cluster.shaper.rootNode with
                                            queue := r.bucket.queue } } }, r.cr)

/-- `onTimeout(cr)`, the part that runs at once: the queued counter is
decremented (the serving of the request is posted, see `onTimeoutPosted`). -/
def onTimeout (c : HttpCluster) (_cr : HttpClusterRequest) : HttpCluster :=
  { c with queued := Counter.decr c.queued }

/-- The lambda that `onTimeout(cr)` posts:
`serviceUnavailable(cr, HttpStatus::GatewayTimeout)`. -/
def onTimeoutPosted (c : HttpCluster) (cr : HttpClusterRequest) :
    HttpCluster × HttpClusterRequest :=
  c.serviceUnavailable cr GatewayTimeout

/-- The events of a rejection in the words of the specification: message-begin
with the status, a `Cluster-Bucket` header naming the bucket if there is one,
a `Retry-After` header with the whole seconds of `retryAfter` if
`retryAfter > 0`, header-end, message-end. -/
def rejection (status : Nat) (bucket : Option String) (retryAfter : Nat) :
    List ListenerEvent :=
  [ListenerEvent.messageBegin status "Service Unavailable"] ++
  (bucket.toList.map (fun b => ListenerEvent.messageHeader "Cluster-Bucket" b)) ++
  (if 0 < retryAfter then
     [ListenerEvent.messageHeader "Retry-After" (toString (retryAfter / 1000000))]
   else []) ++
  [ListenerEvent.messageHeaderEnd, ListenerEvent.messageEnd]

/-- A disabled cluster: queue limit 10, retry-after 30 s. -/
def disabled : HttpCluster := HttpCluster.create "c" false false true 10 30000000 3

/-- An enabled cluster that enqueues on unavailability, with `maxRetryCount =
2`, a retry-after of 30 s and one enabled member of capacity 10 whose monitor
has not seen a probe yet. -/
def oneMember : HttpCluster :=
  (HttpCluster.create "c" true false true 10 30000000 2).addMember "a" 10 true

/-- A request that comes with `tryCount = 3`. -/
def tried : HttpClusterRequest := { HttpClusterRequest.create 1 with tryCount := 3 }

/-- The request `tried` is scheduled on `oneMember` while the member is not
online, and is queued. -/
def queuedTried : HttpCluster × HttpClusterRequest :=
  oneMember.scheduleRoot HttpClusterScheduler.inOrder tried

/-- After `queuedTried`, three successful probes bring the member online;
`onBackendStateChanged` takes the request out of the queue and posts it to
the member. -/
def postedTried : HttpCluster := queuedTried.1.monitorEvents (threeSuccesses 0)

end HttpCluster

/-- Whether an effect is a call of the processing-failed callback. -/
def Effect.isProcessingFailed : Effect → Bool
  | .processingFailed _ => true
  | _ => false

/-- A bucket `b` that can hand out nothing and has one request waiting. -/
def Bucket.busy : Bucket :=
  { name := "b", rate := 0, ceil := 0, actualRate := 0,
    queue := [HttpClusterRequest.create 7] }

end xzero

namespace FlowVM

/-! ### Native callbacks, copies, strings -/

/-- A program with native callbacks: every native function stores 1 in
`argv[0]`, the native handler number `id` stores `id` in `argv[0]` (so
handler 0 does not handle the request and every other one does). -/
def Program.natives : Program :=
  { Program.bare with
      nativeFunction := fun _ _ argv r => r.write argv 1
      nativeHandler := fun id _ argv r => r.write argv id }

/-- A handler with one register: `CALL 0, 1, r0; HANDLER 0, 1, r0;
HANDLER 1, 1, r0; EXIT 0`. -/
def callThenHandler : Handler :=
  { registerCount := 1
    code := [⟨.CALL, 0, 1, 0⟩, ⟨.HANDLER, 0, 1, 0⟩, ⟨.HANDLER, 1, 1, 0⟩, ⟨.EXIT, 0, 0, 0⟩] }

/-- A handler with three registers: `IMOV r1, 7; MOV r0, r1; NADD r2, r0, r1;
EXIT 1`. -/
def copyThenAdd : Handler :=
  { registerCount := 3
    code := [⟨.IMOV, 1, 7, 0⟩, ⟨.MOV, 0, 1, 0⟩, ⟨.NADD, 2, 0, 1⟩, ⟨.EXIT, 1, 0, 0⟩] }

/-- Every register of the runner holds a `Register`, a 64-bit word. -/
def Runner.wordsOnly (r : Runner) : Bool := r.data.all (fun v => decide (v < wordSize))

/-- Whether the opcode is one whose instruction, in `Runner::run`, assigns to
no register but `data_[A]` and calls no native code.  The opcodes left out
are `CALL` and `HANDLER`, whose callbacks receive `argv` and the runner, and
the opcodes on strings, addresses, networks, regular expressions and constant
arrays, which `execData` leaves to `Program.foreignOp`. -/
def Opcode.assignsOnlyA : Opcode → Bool
  | .NOP | .EXIT | .JMP | .JN | .JZ => true
  | .SMATCHEQ | .SMATCHBEG | .SMATCHEND | .SMATCHR => true
  | .MOV | .IMOV | .NCONST | .NTICKS | .NDUMPN => true
  | .NNEG | .NADD | .NSUB | .NMUL | .NDIV | .NREM | .NSHL | .NSHR | .NPOW => true
  | .NAND | .NOR | .NXOR | .NCMPZ | .NCMPEQ | .NCMPNE | .NCMPLE | .NCMPGE | .NCMPLT
  | .NCMPGT => true
  | .NIADD | .NISUB | .NIMUL | .NIDIV | .NIREM | .NISHL | .NISHR | .NIPOW => true
  | .NIAND | .NIOR | .NIXOR | .NICMPEQ | .NICMPNE | .NICMPLE | .NICMPGE | .NICMPLT
  | .NICMPGT => true
  | .BNOT | .BAND | .BOR | .BXOR => true
  | .SADDMULTI | .SURLENC | .SURLDEC => true
  | _ => false

/-- Where the strings live that registers point to.  A register that holds a
string holds a `FlowString*`; the addresses are those of the process:

* `arenaAddr k` is the address of the `k`-th element of `stringGarbage_` (a
  `std::list`, whose elements do not move when one is appended);
* `arenaIndex a` is the index of the arena element at address `a`, if `a` is
  the address of one;
* `constant a` is the string at an address outside the arena (the constant
  pool of the program, the arguments of the request). -/
structure StringSpace where
  arenaAddr : Nat → Nat
  arenaIndex : Nat → Option Nat
  constant : Nat → Option FlowString

/-- The `k`-th arena element has an address that fits a register and that is
the address of no other string. -/
def StringSpace.valid (sp : StringSpace) (k : Nat) : Prop :=
  sp.arenaAddr k < wordSize ∧ sp.arenaIndex (sp.arenaAddr k) = some k

/-- `*(FlowString*) a`: the string at the address `a` (`none`: no string lives
there). -/
def Runner.deref (sp : StringSpace) (r : Runner) (a : Nat) : Option FlowString :=
  match sp.arenaIndex a with
  | some k => r.stringGarbage[k]?
  | none => sp.constant a

/-- `toString(R)`, which is `*(FlowString*) data_[R]`. -/
def Runner.toString (sp : StringSpace) (r : Runner) (reg : Nat) : Option FlowString :=
  match r.read reg with
  | some a => r.deref sp a
  | none => none

/-- `catString(a, b)`: a buffer that receives `a`, then `b`, is appended to
the arena; the result is the address of `stringGarbage_.back()`. -/
def Runner.catString (sp : StringSpace) (r : Runner) (a b : FlowString) : Runner × Nat :=
  ({ r with stringGarbage := r.stringGarbage ++ [a ++ b] }, sp.arenaAddr r.stringGarbage.length)

/-- The instruction `SADD`: `data_[A] = (Register) catString(toString(B),
toString(C))`. -/
def execSADD (sp : StringSpace) (i : Instr) (r : Runner) : Option Runner :=
  match r.toString sp i.B, r.toString sp i.C with
  | some a, some b => (r.catString sp a b).1.write i.A (r.catString sp a b).2
  | _, _ => none

/-- A string space whose arena elements lie 16 bytes apart from address 4096
on, with no strings elsewhere. -/
def StringSpace.spaced : StringSpace :=
  { arenaAddr := fun k => 4096 + 16 * k
    arenaIndex := fun a =>
      if 4096 ≤ a ∧ (a - 4096) % 16 = 0 then some ((a - 4096) / 16) else none
    constant := fun _ => none }

/-- A runner with three registers whose arena holds the empty string, `ab`
and `cd`; `r1` points to `ab`, `r2` to `cd`. -/
def Runner.abcd : Runner :=
  { data := [0, 4112, 4128], stringGarbage := [[], [97, 98], [99, 100]] }

end FlowVM

namespace xzero

namespace HttpHealthMonitor

/-- The previous state a call of the state-change callback was given. -/
def stateChange : Effect → Option State
  | .stateChanged oldState => some oldState
  | _ => none

/-- The effects of a sequence of events (oldest first) on a monitor, in the
order in which they happen. -/
def effectsOf (m : HttpHealthMonitor) : List Event → List Effect
  | [] => []
  | e :: rest => (m.handle e).2 ++ effectsOf (m.apply e) rest

/-- The state transitions of a monitor during a sequence of events (oldest
first): for every event that leaves the monitor in another state than it
found it in, the state before. -/
def transitions (m : HttpHealthMonitor) : List Event → List State
  | [] => []
  | e :: rest =>
    (if (m.apply e).state = m.state then [] else [m.state]) ++ transitions (m.apply e) rest

end HttpHealthMonitor

/-- The names, in the words of the specification, of the headers that are
not relayed. -/
def connectionLevelHeaders : List String :=
  ["Connection", "Content-Length", "Transfer-Encoding", "Keep-Alive", "TE", "Trailer",
   "Upgrade", "Close"]

namespace HttpCluster

/-- `findMember(name)`: the first member of that name, or `nullptr`. -/
def findMember (c : HttpCluster) (name : String) : Option HttpClusterMember :=
  c.members.find? (fun m => m.name == name)

/-- `removeMember(name)`: the first member of that name, if there is one, is
deleted and erased from `members_`. -/
def removeMember (c : HttpCluster) (name : String) : HttpCluster :=
  { c with members := c.members.eraseP (fun m => m.name == name) }

/-- A call that changes the membership of a cluster. -/
inductive MemberCall
  | addMember (name : String) (capacity : Nat) (enabled : Bool)
  | removeMember (name : String)
  deriving DecidableEq, Repr

/-- The cluster after one membership call. -/
def call (c : HttpCluster) : MemberCall → HttpCluster
  | .addMember name capacity enabled => c.addMember name capacity enabled
  | .removeMember name => c.removeMember name

/-- The cluster after a sequence of membership calls, oldest first. -/
def calls (c : HttpCluster) (l : List MemberCall) : HttpCluster := l.foldl call c

/-- Whether every `addMember` of the sequence is given a name that no member
has at the time of the call. -/
def addsFresh : HttpCluster → List MemberCall → Bool
  | _, [] => true
  | c, .addMember name capacity enabled :: rest =>
    (c.findMember name).isNone && addsFresh (c.addMember name capacity enabled) rest
  | c, .removeMember name :: rest => addsFresh (c.removeMember name) rest

/-- The names of the members, in the order of `members_`. -/
def memberNames (c : HttpCluster) : List String := c.members.map (fun m => m.name)

/-- An enabled cluster without members. -/
def empty : HttpCluster := HttpCluster.create "c" true false true 10 30000000 3

end HttpCluster

end xzero

namespace base

namespace SuffixTree

/-- `SuffixTree<K, V>::Node` with `V` a number (an instruction offset): its
value (0 as long as none is assigned, as `value()` gives) and its children by
element.  The fields `parent` and `element` say where in the tree the node
is; here the node is known by the path that leads to it. -/
inductive Node (α : Type) where
  | mk (value : Nat) (children : α → Option (Node α)) : Node α

variable {α : Type}

/-- The field `value`. -/
def Node.value : Node α → Nat
  | .mk v _ => v

/-- The field `children`, as `children.find(e)` reads it. -/
def Node.children : Node α → α → Option (Node α)
  | .mk _ c => c

/-- `Node(p, e)`, and `Node()`, the root of an empty tree: no value, no
children. -/
def Node.leaf : Node α := .mk 0 (fun _ => none)

/-- `acquire(elem, n)`: the child of `n` for `elem`, a new one if `n` has
none (`insertFrom` links it to `n`). -/
def acquire (elem : α) (n : Node α) : Node α :=
  match n.children elem with
  | some c => c
  | none => Node.leaf

/-- The loop of `insert` from the node `n` on, along the elements still to
go, followed by `level->value = value`; the result is `n` after it. -/
def insertFrom [DecidableEq α] : List α → Nat → Node α → Node α
  | [], value, n => .mk value n.children
  | e :: rest, value, n =>
    .mk n.value (Function.update n.children e (some (insertFrom rest value (acquire e n))))

/-- `insert(key, value)` on the tree with root `t`: the key is walked from
its last element to its first. -/
def insert [DecidableEq α] (t : Node α) (key : List α) (value : Nat) : Node α :=
  insertFrom key.reverse value t

/-- The first loop of `lookup`, from the node `n` on: down the tree along the
elements still to go, until one has no child.  `path` holds the nodes passed
that have a parent, the last one first; its head is `level` when the loop
ends. -/
def descend : List α → Node α → List (Node α) → List (Node α)
  | [], _, path => path
  | e :: rest, n, path =>
    match n.children e with
    | none => path
    | some c => descend rest c (c :: path)

/-- The second loop of `lookup`: up the tree from `level`, as long as the
node has a parent, to the first node with a value. -/
def ascend : List (Node α) → Option Nat
  | [] => none
  | n :: up => if n.value ≠ 0 then some n.value else ascend up

/-- `lookup(key, &value)` on the tree with root `t`: what it returns and what
`value` holds afterwards. -/
def lookup (t : Node α) (key : List α) (value : Nat) : Bool × Nat :=
  match ascend (descend key.reverse t []) with
  | some v => (true, v)
  | none => (false, value)

/-- The tree after a sequence of `insert(pattern, target)`, oldest first, on
an empty tree. -/
def build [DecidableEq α] (inserts : List (List α × Nat)) : Node α :=
  inserts.foldl (fun t i => insert t i.1 i.2) Node.leaf

/-- What `ascend (descend key n [])` finds, computed on the way down: the
value of the deepest node with a value on the path of `key` below `n`. -/
def look : List α → Node α → Option Nat
  | [], _ => none
  | e :: rest, n =>
    match n.children e with
    | none => none
    | some c =>
      match look rest c with
      | some v => some v
      | none => if c.value ≠ 0 then some c.value else none

/-- The value of the node that the path `w` leads to from `n`; 0 if there is
no such node. -/
def valueAt : Node α → List α → Nat
  | n, [] => n.value
  | n, e :: rest =>
    match n.children e with
    | none => 0
    | some c => valueAt c rest

/-- The lookup in the words of the specification: the target of the first
pattern, in the order of the inserts, that is a suffix of the input. -/
def firstInserted [DecidableEq α] (inserts : List (List α × Nat)) (key : List α) :
    Option Nat :=
  (inserts.find? (fun i => i.1.isSuffixOf key)).map (fun i => i.2)

/-- The patterns `b` (target 1) and `ab` (target 2), inserted in this
order. -/
def bThenAb : List (List Char × Nat) := [("b".toList, 1), ("ab".toList, 2)]

end SuffixTree

end base

namespace xzero

namespace http2

/-- `FrameHeaderSize`. -/
def FrameHeaderSize : Nat := 9

/-- `FrameType`.  Its enumerators are declared in a header that is not among
the sources; see `Generator.frameTypeCode`. -/
inductive FrameType
  | Data | Headers | Priority | ResetStream | Settings | PushPromise | Ping | GoAway
  | WindowUpdate | Continuation
  deriving DecidableEq, Repr

/-- The codes that RFC 7540 (section 6) gives the frame types. -/
def FrameType.rfc7540 : FrameType → Nat
  | .Data => 0 | .Headers => 1 | .Priority => 2 | .ResetStream => 3 | .Settings => 4
  | .PushPromise => 5 | .Ping => 6 | .GoAway => 7 | .WindowUpdate => 8 | .Continuation => 9

/-- The `width` low bytes of `value`, the most significant first. -/
def bigEndian : Nat → Nat → List Nat
  | 0, _ => []
  | width + 1, value => (value / 256 ^ width) % 256 :: bigEndian width value

/-- A `Generator` and the `DataChain` it writes to.  `sink` holds the bytes
written so far, oldest first.  `frameTypeCode` is `(unsigned) frameType`, the
numbering of the enumeration `FrameType`. -/
structure Generator where
  sink : List Nat
  maxFrameSize : Nat
  frameTypeCode : FrameType → Nat

namespace Generator

/-- `Generator(sink, maxFrameSize, ...)`, with its
`assert(maxFrameSize_ > FrameHeaderSize + 1)`. -/
def create (sink : List Nat) (maxFrameSize : Nat) (frameTypeCode : FrameType → Nat)
    (_h : maxFrameSize > FrameHeaderSize + 1) : Generator :=
  { sink := sink, maxFrameSize := maxFrameSize, frameTypeCode := frameTypeCode }

/-- `setMaxFrameSize(value)`. -/
def setMaxFrameSize (g : Generator) (value : Nat) : Generator :=
  { g with maxFrameSize := max value 16384 }

/-- `sink_->write(buf)`: the bytes of the buffer are appended. -/
def write (g : Generator) (buf : List Nat) : Generator := { g with sink := g.sink ++ buf }

/-- `write8(value)`: `DataChain::write8` appends a byte, the low one of the
`unsigned` value. -/
def write8 (g : Generator) (value : Nat) : Generator :=
  g.write (bigEndian 1 (value % 2 ^ 32))

/-- `write16(value)`: `DataChain::write16` appends two bytes.  `DataChain.cc`
is not among the sources; the bytes of a number are taken to be appended the
most significant first, which is the byte order of HTTP/2. -/
def write16 (g : Generator) (value : Nat) : Generator :=
  g.write (bigEndian 2 (value % 2 ^ 32))

/-- `write24(value)`: `DataChain::write24` appends three bytes. -/
def write24 (g : Generator) (value : Nat) : Generator :=
  g.write (bigEndian 3 (value % 2 ^ 32))

/-- `write32(value)`: `DataChain::write32` appends four bytes. -/
def write32 (g : Generator) (value : Nat) : Generator :=
  g.write (bigEndian 4 (value % 2 ^ 32))

/-- `write64(value)`: eight bytes. -/
def write64 (g : Generator) (value : Nat) : Generator :=
  g.write (bigEndian 8 (value % 2 ^ 64))

/-- `generateFrameHeader(frameType, frameFlags, streamID, payloadSize)`.
`streamID` is a `uint32_t`; `& ~(1 << 31)` clears its bit 31. -/
def generateFrameHeader (g : Generator) (frameType : FrameType)
    (frameFlags streamID payloadSize : Nat) : Generator :=
  (((g.write24 payloadSize).write8 (g.frameTypeCode frameType)).write8 frameFlags).write32
    (streamID % 2 ^ 32 &&& 0x7fffffff)

/-- The flag `END_STREAM` of `generateData`. -/
def END_STREAM : Nat := 1

/-- The flag `ACK` of `generateSettingsAck` and `generatePingAck`. -/
def ACK : Nat := 1

/-- The loop of `generateData(sid, data, last)`, entered with `offset`; `none`
if it has not ended after `fuel` frames. -/
def generateDataFrom (sid : Nat) (data : List Nat) (last : Bool) :
    Nat → Generator → Nat → Option Generator
  | 0, _, _ => none
  | fuel + 1, g, offset =>
    let remainingDataSize := data.length - offset
    let payloadSize := min remainingDataSize g.maxFrameSize
    let flags := if !last && decide (payloadSize < remainingDataSize) then 0 else END_STREAM
    let g1 := (g.generateFrameHeader .Data flags sid payloadSize).write
      ((data.drop offset).take payloadSize)
    if offset + payloadSize = data.length then some g1
    else generateDataFrom sid data last fuel g1 (offset + payloadSize)

/-- `generateData(sid, data, last)`, with its `assert(sid != 0)`, cut off
after `fuel` frames. -/
def generateData (g : Generator) (sid : Nat) (data : List Nat) (last : Bool)
    (_h : sid ≠ 0) (fuel : Nat) : Option Generator :=
  generateDataFrom sid data last fuel g 0

/-- `generatePriority(sid, exclusive, dependantStreamID, weight)`, with its
two assertions.  `| (1 << 31)` sets bit 31 of the `uint32_t`. -/
def generatePriority (g : Generator) (sid : Nat) (exclusive : Bool)
    (dependantStreamID weight : Nat) (_hw : 1 ≤ weight ∧ weight ≤ 256) (_hs : sid ≠ 0) :
    Generator :=
  (((g.generateFrameHeader .Priority 0 sid 5).write32
      (dependantStreamID % 2 ^ 32 ||| (if exclusive then 2 ^ 31 else 0))).write8 (weight - 1))

/-- `generateResetStream(sid, errorCode)`. -/
def generateResetStream (g : Generator) (sid errorCode : Nat) : Generator :=
  (g.generateFrameHeader .ResetStream 0 sid 4).write32 (errorCode % 2 ^ 32)

/-- `generateSettings(settings)`: the header, then identifier and value of
every setting. -/
def generateSettings (g : Generator) (settings : List (Nat × Nat)) : Generator :=
  settings.foldl (fun s param => (s.write16 param.1).write32 param.2)
    (g.generateFrameHeader .Settings 0 0 (settings.length * 6))

/-- `generateSettingsAck()`. -/
def generateSettingsAck (g : Generator) : Generator :=
  g.generateFrameHeader .Settings ACK 0 0

/-- `generatePushPromise(sid, psid, info)`: the header block fragment is the
empty buffer (its encoding is a `TODO` of the source). -/
def generatePushPromise (g : Generator) (sid psid : Nat) : Generator :=
  ((g.generateFrameHeader .PushPromise 0 sid (4 + 0)).write32
    (psid % 2 ^ 32 &&& 0x7fffffff)).write []

/-- `generatePing(uint64_t payload)`. -/
def generatePingWord (g : Generator) (payload : Nat) : Generator :=
  (g.generateFrameHeader .Ping 0 0 8).write64 payload

/-- `generatePing(const BufferRef& payload)`, with its
`assert(payload.size() == 4)`. -/
def generatePing (g : Generator) (payload : List Nat) (_h : payload.length = 4) : Generator :=
  (g.generateFrameHeader .Ping 0 0 8).write payload

/-- `generatePingAck(payload)`, with its `assert(payload.size() == 4)`. -/
def generatePingAck (g : Generator) (payload : List Nat) (_h : payload.length = 4) :
    Generator :=
  (g.generateFrameHeader .Ping ACK 0 8).write payload

/-- `a - b` on `size_t`. -/
def sizeSub (a b : Nat) : Nat := (a % 2 ^ 64 + 2 ^ 64 - b % 2 ^ 64) % 2 ^ 64

/-- `generateGoAway(lastStreamID, errorCode, debugData)`, with its
`assert(lastStreamID != 0)`. -/
def generateGoAway (g : Generator) (lastStreamID errorCode : Nat) (debugData : List Nat)
    (_h : lastStreamID ≠ 0) : Generator :=
  let debugDataSize := min (sizeSub g.maxFrameSize 8) debugData.length
  (((g.generateFrameHeader .GoAway 0 lastStreamID (debugDataSize + 8)).write32
      (lastStreamID % 2 ^ 32 &&& 0x7fffffff)).write32 (errorCode % 2 ^ 32)).write
    (debugData.take debugDataSize)

/-- `generateWindowUpdate(sid, size)`, with its assertion. -/
def generateWindowUpdate (g : Generator) (sid size : Nat)
    (_h : 1 ≤ size ∧ size ≤ 0x7fffffff) : Generator :=
  (g.generateFrameHeader .WindowUpdate 0 sid 4).write32 (size &&& 0x7fffffff)

/-- The bytes that `after` has in its sink behind those of `before`. -/
def written (before after : Generator) : List Nat := after.sink.drop before.sink.length

/-- A generator with an empty sink, the initial maximum frame size and the
frame type codes of RFC 7540. -/
def fresh : Generator := create [] 16384 FrameType.rfc7540 (by decide)

end Generator

/-- The length field of a frame: its first three bytes, read as `bigEndian`
writes them. -/
def lengthField (frame : List Nat) : Nat :=
  match frame with
  | a :: b :: c :: _ => a * 65536 + b * 256 + c
  | _ => 0

/-- The payload of a frame: what follows the `FrameHeaderSize` bytes of its
header. -/
def payloadOf (frame : List Nat) : List Nat := frame.drop FrameHeaderSize

end http2

end xzero

namespace xzero

namespace hpack

/-- `std::string::compare` on the characters of two strings: negative, zero or
positive as the first is less than, equal to or greater than the second, the
characters being compared by their codes and a proper prefix being less. -/
def compareChars : List Char → List Char → Int
  | [], [] => 0
  | [], _ :: _ => -1
  | _ :: _, [] => 1
  | a :: as, b :: bs =>
    if a.toNat < b.toNat then -1
    else if b.toNat < a.toNat then 1
    else compareChars as bs

/-- The lambda `compare` of `StaticTable::find`. -/
def compare (a b : String) : Int := compareChars a.toList b.toList

/-- `TableEntry`: a header name and a header value. -/
abbrev TableEntry := String × String

/-- `StaticTable::SortedEntry`. -/
structure SortedEntry where
  index : Nat
  name : String
  value : String
  deriving DecidableEq, Repr

namespace StaticTable

/-- `StaticTable::entries_`. -/
def entries_ : List TableEntry :=
  [ (":authority", ""),
    (":method", "GET"),
    (":method", "POST"),
    (":path", "/"),
    (":path", "/index.html"),
    (":scheme", "http"),
    (":scheme", "https"),
    (":status", "200"),
    (":status", "204"),
    (":status", "206"),
    (":status", "304"),
    (":status", "400"),
    (":status", "404"),
    (":status", "500"),
    ("accept-charset", ""),
    ("accept-encoding", "gzip, deflate"),
    ("accept-language", ""),
    ("accept-ranges", ""),
    ("accept", ""),
    ("access-control-allow-origin", ""),
    ("age", ""),
    ("allow", ""),
    ("authorization", ""),
    ("cache-control", ""),
    ("content-disposition", ""),
    ("content-encoding", ""),
    ("content-language", ""),
    ("content-length", ""),
    ("content-location", ""),
    ("content-range", ""),
    ("content-type", ""),
    ("cookie", ""),
    ("date", ""),
    ("etag", ""),
    ("expect", ""),
    ("expires", ""),
    ("from", ""),
    ("host", ""),
    ("if-match", ""),
    ("if-modified-since", ""),
    ("if-none-match", ""),
    ("if-range", ""),
    ("if-unmodified-since", ""),
    ("last-modified", ""),
    ("link", ""),
    ("location", ""),
    ("max-forwards", ""),
    ("proxy-authenticate", ""),
    ("proxy-authorization", ""),
    ("range", ""),
    ("referer", ""),
    ("refresh", ""),
    ("retry-after", ""),
    ("server", ""),
    ("set-cookie", ""),
    ("strict-transport-security", ""),
    ("transfer-encoding", ""),
    ("user-agent", ""),
    ("vary", ""),
    ("via", ""),
    ("www-authenticate", "") ]

/-- `StaticTable::sortedEntries_`. -/
def sortedEntries_ : List SortedEntry :=
  [ ⟨0, ":authority", ""⟩,
    ⟨1, ":method", "GET"⟩,
    ⟨2, ":method", "POST"⟩,
    ⟨3, ":path", "/"⟩,
    ⟨4, ":path", "/index.html"⟩,
    ⟨5, ":scheme", "http"⟩,
    ⟨6, ":scheme", "https"⟩,
    ⟨7, ":status", "200"⟩,
    ⟨8, ":status", "204"⟩,
    ⟨9, ":status", "206"⟩,
    ⟨10, ":status", "304"⟩,
    ⟨11, ":status", "400"⟩,
    ⟨12, ":status", "404"⟩,
    ⟨13, ":status", "500"⟩,
    ⟨18, "accept", ""⟩,
    ⟨14, "accept-charset", ""⟩,
    ⟨15, "accept-encoding", "gzip, deflate"⟩,
    ⟨16, "accept-language", ""⟩,
    ⟨17, "accept-ranges", ""⟩,
    ⟨19, "access-control-allow-origin", ""⟩,
    ⟨20, "age", ""⟩,
    ⟨21, "allow", ""⟩,
    ⟨22, "authorization", ""⟩,
    ⟨23, "cache-control", ""⟩,
    ⟨24, "content-disposition", ""⟩,
    ⟨25, "content-encoding", ""⟩,
    ⟨26, "content-language", ""⟩,
    ⟨27, "content-length", ""⟩,
    ⟨28, "content-location", ""⟩,
    ⟨29, "content-range", ""⟩,
    ⟨30, "content-type", ""⟩,
    ⟨31, "cookie", ""⟩,
    ⟨32, "date", ""⟩,
    ⟨33, "etag", ""⟩,
    ⟨34, "expect", ""⟩,
    ⟨35, "expires", ""⟩,
    ⟨36, "from", ""⟩,
    ⟨37, "host", ""⟩,
    ⟨38, "if-match", ""⟩,
    ⟨39, "if-modified-since", ""⟩,
    ⟨40, "if-none-match", ""⟩,
    ⟨41, "if-range", ""⟩,
    ⟨42, "if-unmodified-since", ""⟩,
    ⟨43, "last-modified", ""⟩,
    ⟨44, "link", ""⟩,
    ⟨45, "location", ""⟩,
    ⟨46, "max-forwards", ""⟩,
    ⟨47, "proxy-authenticate", ""⟩,
    ⟨48, "proxy-authorization", ""⟩,
    ⟨49, "range", ""⟩,
    ⟨50, "referer", ""⟩,
    ⟨51, "refresh", ""⟩,
    ⟨52, "retry-after", ""⟩,
    ⟨53, "server", ""⟩,
    ⟨54, "set-cookie", ""⟩,
    ⟨55, "strict-transport-security", ""⟩,
    ⟨56, "transfer-encoding", ""⟩,
    ⟨57, "user-agent", ""⟩,
    ⟨58, "vary", ""⟩,
    ⟨59, "via", ""⟩,
    ⟨60, "www-authenticate", ""⟩ ]

/-- `StaticTable::length()`. -/
def length : Nat := entries_.length

/-- What `find` leaves behind: its return value and the two outputs `*index`
and `*nameValueMatch`. -/
structure Found where
  result : Bool
  index : Nat
  nameValueMatch : Bool
  deriving DecidableEq, Repr

/-- The number of values of a `size_t`. -/
def sizeRange : Nat := 2 ^ 64

/-- The `while (r - l >= 2)` loop of `find`, cut off after `fuel` rounds.  The
result is either what `find` returns from inside the loop or the bounds `l`
and `r` the loop ends with; `none` if an element is read outside
`sortedEntries_` or the rounds are used up.  The arithmetic is that of
`size_t`. -/
def findLoop (name value : String) : Nat → Nat → Nat → Option (Found ⊕ (Nat × Nat))
  | 0, _, _ => none
  | fuel + 1, l, r =>
    if (r + sizeRange - l) % sizeRange ≥ 2 then
      let m := ((l + r) % sizeRange) / 2
      match sortedEntries_[m]? with
      | none => none
      | some e =>
        let cmp := compare name e.name
        if cmp < 0 then findLoop name value fuel l ((m + sizeRange - 1) % sizeRange)
        else if cmp > 0 then findLoop name value fuel ((m + 1) % sizeRange) r
        else
          let cmp := compare value e.value
          if cmp < 0 then findLoop name value fuel l ((m + sizeRange - 1) % sizeRange)
          else if cmp > 0 then findLoop name value fuel ((m + 1) % sizeRange) r
          else some (.inl { result := true, index := e.index, nameValueMatch := true })
    else some (.inr (l, r))

/-- The part of `find` behind the loop: the entries at `l` and at `r` are
looked at.  `index` and `nameValueMatch` are what the two outputs hold when
`find` is called. -/
def findEnds (name value : String) (l r : Nat) (index : Nat) (nameValueMatch : Bool) :
    Option Found :=
  match sortedEntries_[l]? with
  | none => none
  | some el =>
    let foundLeftName := decide (compare name el.name = 0)
    let index1 := if foundLeftName then el.index else index
    if foundLeftName && decide (compare value el.value = 0) then
      some { result := true, index := index1, nameValueMatch := true }
    else
      match sortedEntries_[r]? with
      | none => none
      | some er =>
        let foundRightName := decide (compare name er.name = 0)
        let index2 := if foundRightName then er.index else index1
        if foundRightName && decide (compare value er.value = 0) then
          some { result := true, index := index2, nameValueMatch := true }
        else
          some { result := foundLeftName || foundRightName, index := index2,
                 nameValueMatch := nameValueMatch }

/-- `StaticTable::find(name, value, &index, &nameValueMatch)`; `index` and
`nameValueMatch` are what the two outputs hold before the call. -/
def find (name value : String) (index : Nat) (nameValueMatch : Bool) : Option Found :=
  match findLoop name value sortedEntries_.length 0 (sortedEntries_.length - 1) with
  | none => none
  | some (.inl found) => some found
  | some (.inr (l, r)) => findEnds name value l r index nameValueMatch

/-- `StaticTable::at(index)`; its `assert(index < length())` is the bound. -/
def «at» (index : Nat) (h : index < length) : TableEntry := entries_.get ⟨index, h⟩

/-- The order of `find`: `a` comes before `b` if its name compares less, or
the names compare equal and its value compares less. -/
def before (a b : SortedEntry) : Bool :=
  decide (compare a.name b.name < 0) ||
    (decide (compare a.name b.name = 0) && decide (compare a.value b.value < 0))

/-- Whether each entry comes before the one that follows it. -/
def increasing : List SortedEntry → Bool
  | [] => true
  | [_] => true
  | a :: b :: rest => before a b && increasing (b :: rest)

/-- Whether some entry of the static table has the name. -/
def hasName (name : String) : Bool := entries_.any (fun e => e.1 == name)

end StaticTable

end hpack

end xzero

namespace xzero

namespace http2

/-- The nine bytes of a frame header in the words of the frame layout: the
length in 24 bits, the type in 8, the flags in 8, a reserved bit that is zero
and the stream identifier in 31 bits. -/
def frameHeaderBytes (typeCode flags streamID payloadSize : Nat) : List Nat :=
  bigEndian 3 payloadSize ++ [typeCode % 256, flags % 256] ++ bigEndian 4 (streamID % 2 ^ 31)

/-- The number that four bytes stand for, the most significant first. -/
def word32 : List Nat → Nat
  | [a, b, c, d] => a * 16777216 + b * 65536 + c * 256 + d
  | _ => 0

/-- The stream identifier field of a frame: bytes 5 to 8 of its header. -/
def streamField (frame : List Nat) : Nat := word32 ((frame.drop 5).take 4)

/-- The flags field of a frame: byte 4 of its header. -/
def flagsField (frame : List Nat) : Nat := (frame.drop 4).headD 0

/-- The DATA frames that carry the payloads given, in the order given, as
`generateData` writes them: each is a header (with the length of its payload)
followed by the payload; the final frame has the flags `END_STREAM`, every
frame before it the flags `END_STREAM` if `last` is set and 0 if not. -/
def dataFrames (typeCode sid : Nat) (last : Bool) : List (List Nat) → List Nat
  | [] => []
  | [p] => frameHeaderBytes typeCode Generator.END_STREAM sid p.length ++ p
  | p :: q :: rest =>
    frameHeaderBytes typeCode (if last then Generator.END_STREAM else 0) sid p.length ++ p ++
      dataFrames typeCode sid last (q :: rest)

/-- A generator with an empty sink and the least maximum frame size that the
constructor admits, 11. -/
def Generator.narrow : Generator := Generator.create [] 11 FrameType.rfc7540 (by decide)

end http2

end xzero

namespace director

/-- `HealthMonitor::State` of the director plugin. -/
inductive HealthMonitor.State
  | Undefined
  | Offline
  | Online
  deriving DecidableEq, Repr

/-- What the plugin's monitor does besides updating itself. -/
inductive Effect
  /-- The call `onStateChange_(this)`. -/
  | stateChanged
  /-- The post of `HealthMonitor::start` to the worker. -/
  | start
  deriving DecidableEq, Repr

/-- The state of the director plugin's `HealthMonitor` that its state machine
reads and writes.  `hasStateChangeCallback` tells whether `onStateChange_`
is set.  The counters are taken to be unbounded, as those of
`HttpHealthMonitor` are. -/
structure HealthMonitor where
  successThreshold : Nat
  hasStateChangeCallback : Bool
  state_ : HealthMonitor.State
  failCount_ : Nat
  successCount_ : Nat
  deriving DecidableEq, Repr

namespace HealthMonitor

/-- The constructor, followed by an assignment to the public field
`successThreshold` (which the constructor sets to 2). -/
def create (successThreshold : Nat) (hasStateChangeCallback : Bool) : HealthMonitor :=
  { successThreshold := successThreshold
    hasStateChangeCallback := hasStateChangeCallback
    state_ := .Undefined
    failCount_ := 0
    successCount_ := 0 }

/-- `setState(value)`, with its assertion as the argument `_h`. -/
def setState (m : HealthMonitor) (value : State) (_h : value ≠ .Undefined) :
    HealthMonitor × List Effect :=
  if m.state_ = value then (m, [])
  else
    ({ m with state_ := value },
      (if m.hasStateChangeCallback then [Effect.stateChanged] else []) ++
      (if value = .Offline then [Effect.start] else []))

/-- `logSuccess()`. -/
def logSuccess (m : HealthMonitor) : HealthMonitor × List Effect :=
  let m1 := { m with successCount_ := m.successCount_ + 1 }
  if m1.successCount_ ≥ m1.successThreshold then m1.setState .Online (by decide)
  else (m1, [])

/-- `logFailure()`. -/
def logFailure (m : HealthMonitor) : HealthMonitor × List Effect :=
  let m1 := { m with failCount_ := m.failCount_ + 1, successCount_ := 0 }
  m1.setState .Offline (by decide)

/-- The monitor after one probe, successful or not. -/
def probe (m : HealthMonitor) (success : Bool) : HealthMonitor :=
  if success then m.logSuccess.1 else m.logFailure.1

/-- The monitor after a sequence of probes, oldest first. -/
def probes (m : HealthMonitor) (results : List Bool) : HealthMonitor :=
  results.foldl probe m

/-- The state of `HttpHealthMonitor` of the same name. -/
def State.toHttp : State → xzero.HttpHealthMonitor.State
  | .Undefined => .Undefined
  | .Offline => .Offline
  | .Online => .Online

end HealthMonitor

end director

namespace xzero

namespace HttpHealthMonitor

/-- The monitor after one probe, successful or not. -/
def probe (m : HttpHealthMonitor) (success : Bool) : HttpHealthMonitor :=
  if success then m.logSuccess.1 else m.logFailure.1

/-- The monitor after a sequence of probes, oldest first. -/
def probes (m : HttpHealthMonitor) (results : List Bool) : HttpHealthMonitor :=
  results.foldl probe m

end HttpHealthMonitor

end xzero

namespace director

/-- The plugin's monitor and the cluster's agree: same state, same count of
consecutive successes, same count of failures, same threshold. -/
def HealthMonitor.agrees (a : HealthMonitor) (b : xzero.HttpHealthMonitor) : Prop :=
  a.state_.toHttp = b.state ∧ a.successCount_ = b.consecutiveSuccessCount ∧
  a.failCount_ = b.totalFailCount ∧ a.successThreshold = b.successThreshold

end director

namespace x0

/-- `response_parser::state_type`. -/
inductive state_type
  | parsing_status_line_begin
  | parsing_status_protocol
  | parsing_status_ws1
  | parsing_status_code
  | parsing_status_ws2
  | parsing_status_text
  | parsing_status_lf
  | parsing_header_name_begin
  | parsing_header_name
  | parsing_header_value_ws_left
  | parsing_header_value
  | expecting_lf1
  | expecting_cr2
  | expecting_lf2
  | processing_content
  | parsing_end
  deriving DecidableEq, Repr

/-- A call of one of the four callbacks of a `response_parser`, with the bytes
of the buffers it is given. -/
inductive Callback
  | on_status (protocol code text : List Nat)
  | on_header (name value : List Nat)
  | on_content (chunk : List Nat)
  | on_complete
  deriving DecidableEq, Repr

/-- The bytes of a string of ASCII characters. -/
def bytes (s : String) : List Nat := s.toList.map Char.toNat

/-- `buf.ref(offset, size)`: the bytes of the buffer from `offset` on, `size`
of them. -/
def ref (buf : List Nat) (offset size : Nat) : List Nat := (buf.drop offset).take size

/-- `std::isspace` in the C locale: space, tab, line feed, vertical tab, form
feed, carriage return. -/
def isspace (c : Nat) : Bool := decide (c = 32) || (decide (9 ≤ c) && decide (c ≤ 13))

/-- A letter in lower case. -/
def tolower (c : Nat) : Nat := if 65 ≤ c ∧ c ≤ 90 then c + 32 else c

/-- `iequals(a, b)`: equality of two buffers without regard to the case of
letters (`buffer_ref.hpp` is not among the sources). -/
def iequals (a b : List Nat) : Bool := a.map tolower == b.map tolower

/-- The number that a sequence of decimal digits stands for, read up to the
first byte that is not a digit, continuing from `acc`. -/
def digits : List Nat → Nat → Nat
  | [], acc => acc
  | c :: rest, acc => if 48 ≤ c ∧ c ≤ 57 then digits rest (acc * 10 + (c - 48)) else acc

/-- `value.as<int>()`: `buffer_ref.hpp` is not among the sources; the value is
taken to be read as a decimal number, with a sign if there is one, up to the
first byte that is not a digit. -/
def asInt (value : List Nat) : Int :=
  match value with
  | 45 :: rest => -((digits rest 0 : Nat) : Int)
  | _ => ((digits value 0 : Nat) : Int)

/-- The class `response_parser`: the members that `parse` reads and writes.  The
four `has_on_...` fields tell whether the callback of that name is set.
`filter_chain_` is left out: it is private, empty on construction, and
nothing in the class adds a filter to it. -/
structure ResponseParser where
  state_ : state_type
  protocol_offset_ : Nat
  protocol_size_ : Nat
  name_offset_ : Nat
  name_size_ : Nat
  value_offset_ : Nat
  value_size_ : Nat
  content_length_ : Int
  chunked_ : Bool
  has_on_status : Bool
  has_on_header : Bool
  has_on_content : Bool
  has_on_complete : Bool
  deriving DecidableEq, Repr

namespace ResponseParser

/-- `response_parser(state)` with the state `ALL`, followed by the assignment
of the four callbacks. -/
def create : ResponseParser :=
  { state_ := .parsing_status_line_begin
    protocol_offset_ := 0, protocol_size_ := 0
    name_offset_ := 0, name_size_ := 0
    value_offset_ := 0, value_size_ := 0
    content_length_ := -1
    chunked_ := false
    has_on_status := true, has_on_header := true, has_on_content := true,
    has_on_complete := true }

/-- `set_status(protocol, code, text)`. -/
def set_status (p : ResponseParser) (buf : List Nat) : List Callback :=
  if p.has_on_status then
    [Callback.on_status (ref buf p.protocol_offset_ p.protocol_size_)
      (ref buf p.name_offset_ p.name_size_) (ref buf p.value_offset_ p.value_size_)]
  else []

/-- `assign_header(name, value)` with `name = buf.ref(name_offset_,
name_size_)` and `value = buf.ref(value_offset_, value_size_)`. -/
def assign_header (p : ResponseParser) (buf : List Nat) : ResponseParser × List Callback :=
  let name := ref buf p.name_offset_ p.name_size_
  let value := ref buf p.value_offset_ p.value_size_
  let p1 :=
    if iequals name (bytes "Content-Length") then { p with content_length_ := asInt value }
    else if iequals name (bytes "Transfer-Encoding") && (value == bytes "chunked") then
      { p with chunked_ := true }
    else p
  (p1, if p.has_on_header then [Callback.on_header name value] else [])

/-- `process_content(chunk)`: the parser after it and the callbacks it makes
(it returns `chunk.size()`).  The result is `none` for chunked content, whose
decoder (`chunked_decoder.hpp`) is not among the sources.  An empty filter
chain passes its input on. -/
def process_content (p : ResponseParser) (chunk : List Nat) :
    Option (ResponseParser × List Callback) :=
  if p.chunked_ then none
  else if p.content_length_ > 0 then
    let c := if chunk.length > p.content_length_.toNat then chunk.take p.content_length_.toNat
             else chunk
    let p1 := { p with content_length_ := p.content_length_ - (c.length : Int) }
    let content := if p.has_on_content then [Callback.on_content c] else []
    if p1.content_length_ = 0 then
      if p.has_on_complete then
        some ({ p1 with state_ := .parsing_status_line_begin }, content ++ [Callback.on_complete])
      else some ({ p1 with state_ := .parsing_end }, content)
    else some (p1, content)
  else some (p, if p.has_on_content then [Callback.on_content chunk] else [])

/-- What one round of the `while` loop of `parse` does with the byte `c` at
`offset`, in a state other than `processing_content` and `parsing_end`: the
parser after it and the callbacks made. -/
def parseByte (p : ResponseParser) (buf : List Nat) (offset c : Nat) :
    ResponseParser × List Callback :=
  match p.state_ with
  | .parsing_status_line_begin =>
    ({ p with state_ := .parsing_status_protocol, protocol_offset_ := offset,
              protocol_size_ := 1 }, [])
  | .parsing_status_protocol =>
    if c = 32 then ({ p with state_ := .parsing_status_ws1 }, [])
    else ({ p with protocol_size_ := p.protocol_size_ + 1 }, [])
  | .parsing_status_ws1 =>
    if c ≠ 32 then
      ({ p with state_ := .parsing_status_code, name_offset_ := offset, name_size_ := 1 }, [])
    else (p, [])
  | .parsing_status_code =>
    if c = 32 then ({ p with state_ := .parsing_status_ws2 }, [])
    else if c = 13 then ({ p with state_ := .parsing_status_lf }, [])
    else if c = 10 then
      ({ p with state_ := .parsing_header_name_begin }, p.set_status buf)
    else ({ p with name_size_ := p.name_size_ + 1 }, [])
  | .parsing_status_ws2 =>
    if c ≠ 32 then
      ({ p with state_ := .parsing_status_text, value_offset_ := offset, value_size_ := 1 }, [])
    else (p, [])
  | .parsing_status_text =>
    if c = 13 then ({ p with state_ := .parsing_status_lf }, [])
    else if c = 10 then
      ({ p with state_ := .parsing_header_name_begin }, p.set_status buf)
    else ({ p with value_size_ := p.value_size_ + 1 }, [])
  | .parsing_status_lf =>
    if c ≠ 10 then
      ({ p with state_ := .parsing_status_text, value_size_ := p.value_size_ + 1 }, [])
    else ({ p with state_ := .parsing_header_name_begin }, p.set_status buf)
  | .parsing_header_name_begin =>
    ({ p with state_ := .parsing_header_name, name_offset_ := offset, name_size_ := 1 }, [])
  | .parsing_header_name =>
    if c = 58 then ({ p with state_ := .parsing_header_value_ws_left }, [])
    else if c = 10 then ({ p with state_ := .processing_content }, [])
    else ({ p with name_size_ := p.name_size_ + 1 }, [])
  | .parsing_header_value_ws_left =>
    if !isspace c then
      ({ p with state_ := .parsing_header_value, value_offset_ := offset, value_size_ := 1 }, [])
    else (p, [])
  | .parsing_header_value =>
    if c = 13 then ({ p with state_ := .expecting_lf1 }, [])
    else if c = 10 then
      let (p1, calls) := p.assign_header buf
      ({ p1 with state_ := .expecting_cr2 }, calls)
    else ({ p with value_size_ := p.value_size_ + 1 }, [])
  | .expecting_lf1 =>
    if c = 10 then
      let (p1, calls) := p.assign_header buf
      ({ p1 with state_ := .expecting_cr2 }, calls)
    else ({ p with value_size_ := p.value_size_ + 1 }, [])
  | .expecting_cr2 =>
    if c = 13 then ({ p with state_ := .expecting_lf2 }, [])
    else if c = 10 then ({ p with state_ := .processing_content }, [])
    else ({ p with state_ := .parsing_header_name, name_offset_ := offset, name_size_ := 1 }, [])
  | .expecting_lf2 =>
    if c = 10 then ({ p with state_ := .processing_content }, [])
    else ({ p with state_ := .parsing_header_name, name_offset_ := offset, name_size_ := 1 }, [])
  | .processing_content => (p, [])
  | .parsing_end => (p, [])

/-- What `parse` leaves behind: the parser, the callbacks made in their order,
and the value returned. -/
structure Parsed where
  parser : ResponseParser
  calls : List Callback
  result : Nat
  deriving DecidableEq, Repr

/-- The `while (first != last)` loop of `parse` on a chunk of `size` bytes,
with `count` bytes from `offset` on still to go; `none` if a byte is read
outside the buffer or the content is chunked. -/
def parseLoop (buf : List Nat) (size : Nat) :
    Nat → Nat → ResponseParser → List Callback → Option Parsed
  | 0, _, p, calls => some { parser := p, calls := calls, result := size }
  | count + 1, offset, p, calls =>
    match p.state_ with
    | .processing_content =>
      match p.process_content (ref buf offset (count + 1)) with
      | some (p1, more) => some { parser := p1, calls := calls ++ more, result := size }
      | none => none
    | .parsing_end => some { parser := p, calls := calls, result := 0 }
    | _ =>
      match buf[offset]? with
      | some c =>
        parseLoop buf size count (offset + 1) (p.parseByte buf offset c).1
          (calls ++ (p.parseByte buf offset c).2)
      | none => none

/-- `parse(chunk)` for the chunk `buf.ref(offset, size)` of the buffer
`buf`. -/
def parse (p : ResponseParser) (buf : List Nat) (offset size : Nat) : Option Parsed :=
  if p.state_ = .processing_content then
    match p.process_content (ref buf offset size) with
    | some (p1, calls) => some { parser := p1, calls := calls, result := size }
    | none => none
  else parseLoop buf size size offset p []

/-- The chunks of one buffer, given by their sizes, are passed to `parse` in
order, the first one starting at `offset`: the parser after the last one and
all callbacks made. -/
def parseChunks (buf : List Nat) : List Nat → Nat → ResponseParser → List Callback →
    Option (ResponseParser × List Callback)
  | [], _, p, calls => some (p, calls)
  | size :: rest, offset, p, calls =>
    match p.parse buf offset size with
    | some r => parseChunks buf rest (offset + size) r.parser (calls ++ r.calls)
    | none => none

/-- The content handed to `on_content`, in order. -/
def contentOf : List Callback → List Nat
  | [] => []
  | .on_content c :: rest => c ++ contentOf rest
  | _ :: rest => contentOf rest

/-- The number of calls of `on_complete`. -/
def completions (calls : List Callback) : Nat := calls.count Callback.on_complete

end ResponseParser

/-- A response with an empty header `X` before its `Content-Length: 3` and the
body `abc`. -/
def emptyHeaderResponse : List Nat :=
  bytes "HTTP/1.1 200 OK\r\nX:\r\nContent-Length: 3\r\n\r\nabc"

/-- A response with an empty header `X` behind its `Content-Length: 3`, and
the body `abc`. -/
def emptyLastHeaderResponse : List Nat :=
  bytes "HTTP/1.1 200 OK\r\nContent-Length: 3\r\nX:\r\n\r\nabc"

/-- The response `emptyHeaderResponse` without its header `X`. -/
def plainResponse : List Nat :=
  bytes "HTTP/1.1 200 OK\r\nContent-Length: 3\r\n\r\nabc"

end x0

namespace FlowVM

/-- A handler with two registers: `SURLENC r0, r1; EXIT 1`. -/
def urlencThenExit : Handler :=
  { registerCount := 2, code := [⟨.SURLENC, 0, 1, 0⟩, ⟨.EXIT, 1, 0, 0⟩] }

end FlowVM

/-! ## Part II — properties -/

namespace FlowVM

/-! ### Division by zero -/

theorem ndiv_zero (x : Int) : ndiv x 0 = none := by simp [ndiv]

theorem nrem_zero (x : Int) : nrem x 0 = none := by simp [nrem]

theorem regRegOp_zero (r : Runner) (i : Instr) (f : Int → Int → Option Int)
    (hf : ∀ x, f x 0 = none) (c : Nat) (hc : r.read i.C = some c) (hz : toNumber c = 0) :
    regRegOp r i f = none := by
  unfold regRegOp
  cases hb : r.read i.B with
  | none => simp
  | some b => simp [hc, hz, hf]

theorem regImmOp_zero (r : Runner) (i : Instr) (f : Int → Int → Option Int)
    (hf : ∀ x, f x 0 = none) (hc : i.C = 0) :
    regImmOp r i f = none := by
  unfold regImmOp
  cases hb : r.read i.B with
  | none => simp
  | some b => simp [hc, hf]

theorem step_divisorIsZero (p : Program) (h : Handler) (s : VM) (i : Instr)
    (hfetch : h.code[s.pc]? = some i) (hz : divisorIsZero i s.runner) :
    step p h s = StepResult.undefined := by
  rcases hz with ⟨hop, c, hc, hz⟩ | ⟨hop, hc⟩
  · rcases hop with hop | hop
    · simp [step, hfetch, hop, execData, regRegOp_zero _ _ _ ndiv_zero c hc hz]
    · simp [step, hfetch, hop, execData, regRegOp_zero _ _ _ nrem_zero c hc hz]
  · rcases hop with hop | hop
    · simp [step, hfetch, hop, execData, regImmOp_zero _ _ _ ndiv_zero hc]
    · simp [step, hfetch, hop, execData, regImmOp_zero _ _ _ nrem_zero hc]

theorem runFrom_undefined_of_step (p : Program) (h : Handler) (s : VM) (fuel : Nat)
    (hs : step p h s = StepResult.undefined) :
    runFrom p h (fuel + 1) s = Outcome.undefined := by
  simp [runFrom, hs]

/-- C1, as stated, fails: the handler `IMOV r1, 7; NDIV r0, r1, r2; EXIT 1`,
run on zeroed registers, divides by `r2 = 0`; the run has no defined
behaviour from the second instruction on and, whatever the number of
instructions allowed, does not end with result `false`. -/
theorem division_by_zero_not_reported :
    run Program.bare divideByZero 2 = Outcome.undefined ∧
    ¬ ∃ fuel, run Program.bare divideByZero fuel = Outcome.returned false := by
  refine ⟨by decide, ?_⟩
  rintro ⟨fuel, hfuel⟩
  match fuel, hfuel with
  | 0, hfuel => exact absurd hfuel (by decide)
  | 1, hfuel => exact absurd hfuel (by decide)
  | n + 2, hfuel =>
    have : run Program.bare divideByZero (n + 2) = Outcome.undefined := rfl
    rw [this] at hfuel
    exact absurd hfuel (by decide)

/-- C1, amended: for every register file in which the divisor is zero,
executing `NDIV A,B,C` or `NREM A,B,C` with `r[C] = 0` (or `NIDIV`/`NIREM`
with the operand `C = 0`) has no defined behaviour: the interpreter divides
without looking at the divisor, so the instruction yields no next state (the
run does not continue and nothing is stored in `r[A]`), and the run from this
instruction on has no defined result, in particular not the result `false`
with a recorded fault. -/
theorem division_by_zero_undefined (p : Program) (h : Handler) (s : VM) (i : Instr)
    (hfetch : h.code[s.pc]? = some i) (hz : divisorIsZero i s.runner) :
    step p h s = StepResult.undefined ∧
    ∀ fuel, runFrom p h (fuel + 1) s = Outcome.undefined :=
  ⟨step_divisorIsZero p h s i hfetch hz,
   fun fuel => runFrom_undefined_of_step p h s fuel (step_divisorIsZero p h s i hfetch hz)⟩

/-- The amended C1 at `NDIV r0, r1, r2` of `divideByZero`, reached with
`r1 = 7` and `r2 = 0`. -/
theorem division_by_zero_undefined_witness :
    step Program.bare divideByZero
        { pc := 1, ticks := 1, runner := { data := [0, 7, 0], stringGarbage := [[]] } } =
      StepResult.undefined ∧
    ∀ fuel, runFrom Program.bare divideByZero (fuel + 1)
        { pc := 1, ticks := 1, runner := { data := [0, 7, 0], stringGarbage := [[]] } } =
      Outcome.undefined :=
  division_by_zero_undefined Program.bare divideByZero
    { pc := 1, ticks := 1, runner := { data := [0, 7, 0], stringGarbage := [[]] } }
    ⟨.NDIV, 0, 1, 2⟩ (by decide)
    (Or.inl ⟨Or.inl rfl, 0, by decide, by decide⟩)

/-! ### Termination -/

theorem forwardFrom_get (code : List Instr) :
    ∀ (k j : Nat) (i : Instr), forwardFrom k code = true → code[j]? = some i →
      i.forwardAt (k + j) = true := by
  induction code with
  | nil => intro k j i _ hj; simp at hj
  | cons a rest ih =>
    intro k j i hf hj
    simp only [forwardFrom, Bool.and_eq_true] at hf
    cases j with
    | zero =>
      simp at hj
      subst hj
      simpa using hf.1
    | succ j =>
      simp at hj
      have := ih (k + 1) j i hf.2 hj
      have e : k + (j + 1) = k + 1 + j := by omega
      rw [e]; exact this

theorem jump_next (t target : Nat) (r : Runner) (s' : VM)
    (hs : jump t target r = StepResult.next s') : s'.pc = target := by
  simp only [jump, StepResult.next.injEq] at hs
  rw [← hs]

theorem step_next_pc (p : Program) (h : Handler) (s s' : VM)
    (hf : h.forwardOnly = true) (hm : matchForward p h)
    (hs : step p h s = StepResult.next s') : s.pc < s'.pc := by
  unfold step at hs
  cases hfetch : h.code[s.pc]? with
  | none => simp [hfetch] at hs
  | some i =>
    have hfw := forwardFrom_get h.code 0 s.pc i hf hfetch
    have hmt := hm s.pc i hfetch
    simp only [hfetch] at hs
    simp only [Nat.zero_add, Instr.forwardAt] at hfw
    cases hop : i.opc <;>
      simp only [hop, Opcode.isMatch, forall_const, decide_eq_true_eq] at hs hfw hmt <;>
      (repeat' split at hs) <;>
      first
      | (exact absurd hs (by simp))
      | (have e := jump_next _ _ _ _ hs; omega)
      | (have e := jump_next _ _ _ _ hs; rw [e]; exact hmt _ _ _ (by assumption))

theorem step_fetch_none (p : Program) (h : Handler) (s : VM)
    (hpc : h.code.length ≤ s.pc) : step p h s = StepResult.undefined := by
  have : h.code[s.pc]? = none := List.getElem?_eq_none hpc
  simp [step, this]

theorem runFrom_forward (p : Program) (h : Handler)
    (hf : h.forwardOnly = true) (hm : matchForward p h) :
    ∀ (n : Nat) (s : VM), h.code.length - s.pc ≤ n →
      runFrom p h (n + 1) s ≠ Outcome.running := by
  intro n
  induction n with
  | zero =>
    intro s hn
    have hpc : h.code.length ≤ s.pc := by omega
    simp [runFrom, step_fetch_none p h s hpc]
  | succ n ih =>
    intro s hn
    rw [runFrom]
    cases hs : step p h s with
    | next s' =>
      have hlt := step_next_pc p h s s' hf hm hs
      exact ih s' (by omega)
    | ret b => simp
    | undefined => simp

theorem runFrom_jmp_self (p : Program) (h : Handler) (s : VM) (i : Instr)
    (hfetch : h.code[s.pc]? = some i) (hop : i.opc = Opcode.JMP) (hA : i.A = s.pc) :
    ∀ (fuel : Nat) (t : Nat), runFrom p h fuel { s with ticks := t } = Outcome.running := by
  intro fuel
  induction fuel with
  | zero => intro t; rfl
  | succ n ih =>
    intro t
    simp only [runFrom, step, hfetch, hop, jump, hA]
    exact ih _

/-- C3, as stated, fails: the handler `JMP 0`, run on zeroed registers, has not
ended after any number of instructions. -/
theorem run_can_diverge :
    ¬ ∃ fuel, run Program.bare jumpToSelf fuel ≠ Outcome.running := by
  rintro ⟨fuel, hfuel⟩
  exact hfuel (runFrom_jmp_self Program.bare jumpToSelf (VM.start (Runner.create 1))
    ⟨.JMP, 0, 0, 0⟩ rfl rfl rfl fuel 0)

theorem step_ret_origin (p : Program) (h : Handler) (s : VM) (b : Bool)
    (hs : step p h s = StepResult.ret b) :
    ∃ i, h.code[s.pc]? = some i ∧
      ((i.opc = Opcode.EXIT ∧ b = decide (i.A ≠ 0)) ∨ (i.opc = Opcode.HANDLER ∧ b = true)) := by
  unfold step at hs
  cases hfetch : h.code[s.pc]? with
  | none => simp [hfetch] at hs
  | some i =>
    refine ⟨i, rfl, ?_⟩
    simp only [hfetch] at hs
    cases hop : i.opc <;> simp only [hop] at hs <;> (repeat' split at hs) <;>
      first
      | (left; simp only [StepResult.ret.injEq] at hs; exact ⟨rfl, hs.symm⟩)
      | (right; simp only [StepResult.ret.injEq] at hs; exact ⟨rfl, hs.symm⟩)
      | (simp [jump] at hs)

/-- C3, amended: for every program and every handler all of whose branches go
forward (the target of each `JMP`, `JN`, `JZ` and every offset a match table
can return lie behind the branching instruction), `run()` started on a
zero-initialised register file ends after at most `|code| + 1` instructions:
it returns or it reaches an operation without defined behaviour; there is no
`VMError`.  For every program, an instruction that makes `run()` return is an
`EXIT` (the result being `A != 0`) or a `HANDLER` (the result being `true`). -/
theorem run_forward_terminates (p : Program) (h : Handler)
    (hf : h.forwardOnly = true) (hm : matchForward p h) :
    ((∃ b, run p h (h.code.length + 1) = Outcome.returned b) ∨
      run p h (h.code.length + 1) = Outcome.undefined) ∧
    ∀ (s : VM) (b : Bool), step p h s = StepResult.ret b →
      ∃ i, h.code[s.pc]? = some i ∧
        ((i.opc = Opcode.EXIT ∧ b = decide (i.A ≠ 0)) ∨ (i.opc = Opcode.HANDLER ∧ b = true)) := by
  refine ⟨?_, step_ret_origin p h⟩
  have hne := runFrom_forward p h hf hm h.code.length
    (VM.start (Runner.create h.registerCount)) (by simp)
  unfold run
  cases hr : runFrom p h (h.code.length + 1) (VM.start (Runner.create h.registerCount)) with
  | returned b => exact Or.inl ⟨b, rfl⟩
  | undefined => exact Or.inr rfl
  | running => exact absurd hr hne

theorem matchForward_branchForward : matchForward Program.matchToFive branchForward := by
  intro k i hk hmatch v r t ht
  have ht5 : t = 5 := by
    simp only [Program.matchToFive, Option.some.injEq] at ht
    exact ht.symm
  subst ht5
  match k, hk with
  | 0, _ => omega
  | 1, _ => omega
  | 2, _ => omega
  | 3, _ => omega
  | 4, _ => omega
  | 5, hk =>
    have hi : i = ⟨.EXIT, 1, 0, 0⟩ := by
      simpa [branchForward] using hk.symm
    subst hi
    exact absurd hmatch (by decide)
  | n + 6, hk => simp [branchForward] at hk

/-- The amended C3 at `IMOV r0, 1; JN r0, 3; EXIT 0; SMATCHEQ r0, 0; EXIT 0;
EXIT 1` with a match table that answers 5: the run returns `true`. -/
theorem run_forward_terminates_witness :
    (branchForward.forwardOnly = true ∧ matchForward Program.matchToFive branchForward) ∧
    ((∃ b, run Program.matchToFive branchForward (branchForward.code.length + 1) =
        Outcome.returned b) ∨
      run Program.matchToFive branchForward (branchForward.code.length + 1) =
        Outcome.undefined) ∧
    run Program.matchToFive branchForward (branchForward.code.length + 1) =
      Outcome.returned true :=
  ⟨⟨by decide, matchForward_branchForward⟩,
   (run_forward_terminates Program.matchToFive branchForward (by decide)
      matchForward_branchForward).1, by decide⟩

/-! ### Branches out of the code -/

theorem step_branchesOutside (p : Program) (h : Handler) (s : VM) (i : Instr)
    (hfetch : h.code[s.pc]? = some i) (hb : branchesOutside h i s.runner) :
    ∃ s', step p h s = StepResult.next s' ∧ h.code.length ≤ s'.pc ∧
      s'.runner = s.runner := by
  rcases hb with ⟨hop, hA⟩ | ⟨hop, ⟨v, hv, hne⟩, hB⟩ | ⟨hop, hv, hB⟩
  · exact ⟨{ pc := i.A, ticks := (s.ticks + 1) % wordSize, runner := s.runner },
      by simp [step, hfetch, hop, jump], hA, rfl⟩
  · exact ⟨{ pc := i.B, ticks := (s.ticks + 1) % wordSize, runner := s.runner },
      by simp [step, hfetch, hop, jump, hv, hne], hB, rfl⟩
  · exact ⟨{ pc := i.B, ticks := (s.ticks + 1) % wordSize, runner := s.runner },
      by simp [step, hfetch, hop, jump, hv], hB, rfl⟩

/-- C10, as stated, fails: the handler `JMP 5`, whose code has one instruction,
has no defined behaviour after the jump and, whatever the number of
instructions allowed, does not end with result `false`. -/
theorem bad_branch_not_reported :
    run Program.bare jumpOutside 2 = Outcome.undefined ∧
    ¬ ∃ fuel, run Program.bare jumpOutside fuel = Outcome.returned false := by
  refine ⟨by decide, ?_⟩
  rintro ⟨fuel, hfuel⟩
  match fuel, hfuel with
  | 0, hfuel => exact absurd hfuel (by decide)
  | 1, hfuel => exact absurd hfuel (by decide)
  | n + 2, hfuel =>
    have : run Program.bare jumpOutside (n + 2) = Outcome.undefined := rfl
    rw [this] at hfuel
    exact absurd hfuel (by decide)

/-- C10, amended: for every program, a `JMP`, or a taken `JN` or `JZ`, whose
target is not a valid instruction offset of the handler's code is executed
without a range check: the program counter is set to the target, the register
file is left as it is, and the fetch of the next instruction, outside the
code, has no defined behaviour; the run has no defined result, in particular
not the result `false` with a recorded fault. -/
theorem branch_outside_undefined (p : Program) (h : Handler) (s : VM) (i : Instr)
    (hfetch : h.code[s.pc]? = some i) (hb : branchesOutside h i s.runner) :
    (∃ s', step p h s = StepResult.next s' ∧ h.code.length ≤ s'.pc ∧
      s'.runner = s.runner ∧ step p h s' = StepResult.undefined) ∧
    ∀ fuel, runFrom p h (fuel + 2) s = Outcome.undefined := by
  obtain ⟨s', hs, hpc, hr⟩ := step_branchesOutside p h s i hfetch hb
  have hu := step_fetch_none p h s' hpc
  refine ⟨⟨s', hs, hpc, hr, hu⟩, fun fuel => ?_⟩
  rw [runFrom, hs]
  exact runFrom_undefined_of_step p h s' fuel hu

/-- The amended C10 at the `JMP 5` of `jumpOutside`. -/
theorem branch_outside_undefined_witness :
    (∃ s', step Program.bare jumpOutside (VM.start (Runner.create 1)) = StepResult.next s' ∧
      jumpOutside.code.length ≤ s'.pc ∧ s'.runner = (VM.start (Runner.create 1)).runner ∧
      step Program.bare jumpOutside s' = StepResult.undefined) ∧
    ∀ fuel, runFrom Program.bare jumpOutside (fuel + 2) (VM.start (Runner.create 1)) =
      Outcome.undefined :=
  branch_outside_undefined Program.bare jumpOutside (VM.start (Runner.create 1))
    ⟨.JMP, 5, 0, 0⟩ (by decide) (Or.inl ⟨rfl, by decide⟩)

end FlowVM

namespace xzero

/-! ### The health monitor -/

namespace HttpHealthMonitor

theorem setState_state (m : HttpHealthMonitor) (v : State) (h : v ≠ State.Undefined) :
    (m.setState v h).1.state = v := by
  unfold setState
  split
  · assumption
  · rfl

theorem setState_counters (m : HttpHealthMonitor) (v : State) (h : v ≠ State.Undefined) :
    (m.setState v h).1.consecutiveSuccessCount = m.consecutiveSuccessCount ∧
    (m.setState v h).1.totalFailCount = m.totalFailCount ∧
    (m.setState v h).1.successThreshold = m.successThreshold ∧
    (m.setState v h).1.hasStateChangeCallback = m.hasStateChangeCallback := by
  unfold setState
  split <;> simp

theorem logFailure_eq (m : HttpHealthMonitor) :
    m.logFailure.1 =
      ({ m with totalFailCount := m.totalFailCount + 1
                consecutiveSuccessCount := 0 }.setState State.Offline (by decide)).1 := rfl

theorem logSuccess_eq (m : HttpHealthMonitor) :
    m.logSuccess.1 =
      if m.consecutiveSuccessCount + 1 ≥ m.successThreshold then
        ({ m with consecutiveSuccessCount := m.consecutiveSuccessCount + 1 }.setState
          State.Online (by decide)).1
      else { m with consecutiveSuccessCount := m.consecutiveSuccessCount + 1 } := by
  unfold logSuccess
  simp only [Counter.incr]
  split <;> rfl

theorem setState_eq_with (m : HttpHealthMonitor) (v : State) (h : v ≠ State.Undefined) :
    (m.setState v h).1 = { m with state := v } := by
  unfold setState
  split
  · rename_i he
    cases m
    simp only at he
    simp [he]
  · rfl

/-- C9: the probe transitions of `HttpHealthMonitor` are those of the
specified state machine (`specProbe`): `logFailure` always leaves the state
`Offline` with `consecutiveSuccessCount = 0` and `totalFailCount` increased by
one; `logSuccess` increases `consecutiveSuccessCount` by one (leaving
`totalFailCount` alone) and sets the state to `Online` if and only if the new
count is at least `successThreshold`, leaving the state unchanged otherwise;
no transition, probe or forced, sets the state to `Undefined`. -/
theorem probe_transitions (m : HttpHealthMonitor) :
    (m.logFailure.1 = m.specProbe false ∧ m.logSuccess.1 = m.specProbe true) ∧
    (m.logFailure.1.state = State.Offline ∧
      m.logFailure.1.consecutiveSuccessCount = 0 ∧
      m.logFailure.1.totalFailCount = m.totalFailCount + 1) ∧
    (m.logSuccess.1.consecutiveSuccessCount = m.consecutiveSuccessCount + 1 ∧
      m.logSuccess.1.totalFailCount = m.totalFailCount ∧
      (m.logSuccess.1.state =
        if m.consecutiveSuccessCount + 1 ≥ m.successThreshold then State.Online
        else m.state)) ∧
    (∀ e : Event, (m.apply e).state = State.Undefined → m.state = State.Undefined) := by
  have hF := logFailure_eq m
  have hS := logSuccess_eq m
  refine ⟨⟨?_, ?_⟩, ⟨?_, ?_, ?_⟩, ⟨?_, ?_, ?_⟩, ?_⟩
  · rw [hF, setState_eq_with]; simp [specProbe]
  · rw [hS]; unfold specProbe; split
    · rw [setState_eq_with]; simp
    · simp
  · rw [hF]; exact setState_state _ _ _
  · rw [hF]; exact (setState_counters _ _ _).1
  · rw [hF]; exact (setState_counters _ _ _).2.1
  · rw [hS]; split
    · exact (setState_counters _ _ _).1
    · rfl
  · rw [hS]; split
    · exact (setState_counters _ _ _).2.1
    · rfl
  · rw [hS]; split
    · exact setState_state _ _ _
    · rfl
  · intro e
    cases e with
    | success =>
      show m.logSuccess.1.state = State.Undefined → _
      rw [hS]; split
      · rw [setState_state]; intro h; exact absurd h (by decide)
      · exact id
    | failure =>
      show m.logFailure.1.state = State.Undefined → _
      rw [hF, setState_state]; intro h; exact absurd h (by decide)
    | forceOffline =>
      show (m.setState State.Offline (by decide)).1.state = State.Undefined → _
      rw [setState_state]; intro h; exact absurd h (by decide)

/-- C8 fails on the code.  With `successThreshold = 2`: after two probe
successes the monitor is `Online` with a count of 2; the forced
`setState(Offline)` of a failed dispatch makes it `Offline` and leaves the
count at 2; the next single probe success makes it `Online` again, although
only one success has been recorded since it went `Offline`. -/
theorem forced_offline_keeps_count :
    ((HttpHealthMonitor.create 2 true).applyAll (recovery.take 3)).state = State.Offline ∧
    ((HttpHealthMonitor.create 2 true).applyAll (recovery.take 3)).consecutiveSuccessCount
      = 2 ∧
    trailingSuccesses recovery = 1 ∧
    ((HttpHealthMonitor.create 2 true).applyAll recovery).state = State.Online := by
  decide

end HttpHealthMonitor

/-! ### The load of a member -/

namespace HttpClusterMember

theorem tryProcess_cases (m : HttpClusterMember) (cr : HttpClusterRequest) :
    ((m.tryProcess cr).status = HttpClusterSchedulerStatus.Success ∧
      (m.capacity = 0 ∨ m.load < m.capacity) ∧
      (m.tryProcess cr).member = { m with load := m.load + 1 }) ∨
    ((m.tryProcess cr).status ≠ HttpClusterSchedulerStatus.Success ∧
      (m.tryProcess cr).member = m) := by
  unfold tryProcess
  by_cases h1 : m.enabled = true
  · by_cases h2 : m.healthMonitor.isOnline = true
    · by_cases h3 : m.capacity ≠ 0 ∧ m.load ≥ m.capacity
      · right; simp [h1, h2, h3]
      · left
        simp only [h1, h2, h3, process, Counter.incr]
        simp
        by_cases h4 : m.capacity = 0
        · exact Or.inl h4
        · right
          simp only [not_and, not_le] at h3
          exact h3 h4
    · right; simp [h1, h2]
  · right; simp [h1]

theorem onFailure_member (m : HttpClusterMember) (cr : HttpClusterRequest) :
    (m.onFailure cr).1.load = Counter.decr m.load ∧
    (m.onFailure cr).1.capacity = m.capacity := by
  simp [onFailure]

theorem Tracked.step_invariant (t t' : Tracked) (e : Event) (hs : t.step e = some t')
    (hlen : t.inFlight.length ≤ t.member.load)
    (hcap : 0 < t.member.capacity → t.member.load ≤ t.member.capacity) :
    t'.member.capacity = t.member.capacity ∧
    t'.inFlight.length ≤ t'.member.load ∧
    (0 < t'.member.capacity → t'.member.load ≤ t'.member.capacity) := by
  cases e with
  | tryProcess cr =>
    simp only [Tracked.step] at hs
    rcases tryProcess_cases t.member cr with ⟨hst, hlt, hm⟩ | ⟨hst, hm⟩
    · simp only [hst, if_true, Option.some.injEq] at hs
      subst hs
      simp only [hm, List.length_cons]
      refine ⟨trivial, by omega, fun hpos => ?_⟩
      rcases hlt with h0 | hlt
      · omega
      · omega
    · simp only [hst, if_false, Option.some.injEq] at hs
      subst hs
      simp only [hm]
      exact ⟨trivial, hlen, hcap⟩
  | onFailure cr =>
    simp only [Tracked.step] at hs
    split at hs
    · rename_i hmem
      simp only [Option.some.injEq] at hs
      subst hs
      have hpos : 0 < t.inFlight.length := List.length_pos_of_mem hmem
      have hl : (t.member.onFailure cr).1.load = t.member.load - 1 := by
        rw [(onFailure_member _ _).1, Counter.decr]
        have : t.member.load ≠ 0 := by omega
        simp [this]
      have hc := (onFailure_member t.member cr).2
      have he : (t.inFlight.erase cr.id).length = t.inFlight.length - 1 :=
        List.length_erase_of_mem hmem
      simp only [hl, hc, he]
      refine ⟨trivial, by omega, fun h => ?_⟩
      have := hcap h
      omega
    · simp at hs
  | onResponseReceived cr client =>
    simp only [Tracked.step] at hs
    split at hs
    · rename_i hmem
      simp only [Option.some.injEq] at hs
      subst hs
      have he : (t.inFlight.erase cr.id).length = t.inFlight.length - 1 :=
        List.length_erase_of_mem hmem
      simp only [onResponseReceived, he]
      exact ⟨trivial, by omega, hcap⟩
    · simp at hs
  | monitor ev =>
    simp only [Tracked.step, Option.some.injEq] at hs
    subst hs
    exact ⟨rfl, hlen, hcap⟩
  | setEnabled v =>
    simp only [Tracked.step, Option.some.injEq] at hs
    subst hs
    exact ⟨rfl, hlen, hcap⟩

theorem Tracked.run_invariant (events : List Event) :
    ∀ (t t' : Tracked), t.run events = some t' →
      t.inFlight.length ≤ t.member.load →
      (0 < t.member.capacity → t.member.load ≤ t.member.capacity) →
      t'.member.capacity = t.member.capacity ∧
      (0 < t'.member.capacity → t'.member.load ≤ t'.member.capacity) := by
  induction events with
  | nil =>
    intro t t' hr _ hcap
    simp only [Tracked.run, Option.some.injEq] at hr
    subst hr
    exact ⟨rfl, hcap⟩
  | cons e rest ih =>
    intro t t' hr hlen hcap
    simp only [Tracked.run] at hr
    cases hs : t.step e with
    | none => simp [hs] at hr
    | some t1 =>
      simp only [hs] at hr
      obtain ⟨hc1, hlen1, hcap1⟩ := Tracked.step_invariant t t1 e hs hlen hcap
      obtain ⟨hc2, hcap2⟩ := ih t1 t' hr hlen1 hcap1
      exact ⟨hc2.trans hc1, hcap2⟩

/-- C5 fails on the code: `onResponseReceived` leaves the member as it is, so
the load that `tryProcess` has incremented is not decremented when the
response arrives.  In the happy-path scenario (member enabled, capacity 10,
online, load 0) the request is admitted, the load becomes 1, and after the
response `200 OK` it is still 1. -/
theorem response_keeps_load :
    (∀ (m : HttpClusterMember) (cr : HttpClusterRequest) (client : HttpResponse),
      (m.onResponseReceived cr client).1 = m) ∧
    happy.load = 0 ∧
    (happy.tryProcess (HttpClusterRequest.create 1)).status =
      HttpClusterSchedulerStatus.Success ∧
    (happy.tryProcess (HttpClusterRequest.create 1)).member.load = 1 ∧
    ((happy.tryProcess (HttpClusterRequest.create 1)).member.onResponseReceived
      (happy.tryProcess (HttpClusterRequest.create 1)).cr HttpResponse.ok).1.load = 1 := by
  refine ⟨fun _ _ _ => rfl, by decide, by decide, by decide, by decide⟩

/-- C6: for every member with `capacity > 0` and every sequence of
`tryProcess` calls and completions (`onFailure`, `onResponseReceived`) of
requests admitted before and not yet completed, interleaved at will with
events of the monitor and changes of the `enabled` flag, starting from load
0, the load does not exceed the capacity (which stays what it was); and in
the state reached `tryProcess` admits a request, incrementing the load by
one, only when the load is below the capacity, and leaves the load alone when
it does not admit. -/
theorem load_within_capacity (m : HttpClusterMember) (events : List Event) (t : Tracked)
    (hcap : 0 < m.capacity) (hload : m.load = 0)
    (hrun : Tracked.run { member := m, inFlight := [] } events = some t) :
    t.member.capacity = m.capacity ∧
    t.member.load ≤ t.member.capacity ∧
    ∀ cr : HttpClusterRequest,
      ((t.member.tryProcess cr).status = HttpClusterSchedulerStatus.Success →
        t.member.load < t.member.capacity ∧
        (t.member.tryProcess cr).member.load = t.member.load + 1) ∧
      ((t.member.tryProcess cr).status ≠ HttpClusterSchedulerStatus.Success →
        (t.member.tryProcess cr).member.load = t.member.load) := by
  obtain ⟨hc, hle⟩ := Tracked.run_invariant events { member := m, inFlight := [] } t hrun
    (by simp) (fun _ => by simp [hload])
  have hpos : 0 < t.member.capacity := by rw [hc]; exact hcap
  refine ⟨hc, hle hpos, fun cr => ?_⟩
  rcases tryProcess_cases t.member cr with ⟨hst, hlt, hm⟩ | ⟨hst, hm⟩
  · refine ⟨fun _ => ⟨?_, by rw [hm]⟩, fun hne => absurd hst hne⟩
    rcases hlt with h0 | hlt
    · omega
    · exact hlt
  · exact ⟨fun he => absurd he hst, fun _ => by rw [hm]⟩

/-- C6 on the member of the happy-path scenario: a request is admitted and
answered, a second one is admitted and fails, a third one is offered. -/
theorem load_within_capacity_witness :
    (0 < happy.capacity ∧ happy.load = 0) ∧
    ({ member := { happy with
                     load := 1
                     healthMonitor := { happy.healthMonitor with state := .Offline } }
       inFlight := [] } : Tracked).member.load ≤ 10 :=
  ⟨⟨by decide, by decide⟩,
   (load_within_capacity happy
      [Event.tryProcess (HttpClusterRequest.create 1),
       Event.onResponseReceived (HttpClusterRequest.create 1) HttpResponse.ok,
       Event.tryProcess (HttpClusterRequest.create 2),
       Event.onFailure (HttpClusterRequest.create 2),
       Event.tryProcess (HttpClusterRequest.create 3)]
      { member := { happy with
                      load := 1
                      healthMonitor := { happy.healthMonitor with state := .Offline } }
        inFlight := [] }
      (by decide) (by decide) (by decide)).2.1⟩

end HttpClusterMember

/-! ### The cluster -/

namespace HttpCluster

theorem onlineCapacity_eq (c : HttpCluster) :
    c.onlineCapacity = (c.members.map contrib).sum := by
  unfold onlineCapacity
  induction c.members with
  | nil => rfl
  | cons m rest ih =>
    by_cases h : (m.enabled && m.healthMonitor.isOnline) = true
    · simp [List.filter, h, contrib, ih]
    · simp only [Bool.not_eq_true] at h
      simp [List.filter, h, contrib, ih]

theorem sum_map_set (f : HttpClusterMember → Nat) (l : List HttpClusterMember) :
    ∀ (i : Nat) (b b' : HttpClusterMember), l[i]? = some b →
      ((l.set i b').map f).sum + f b = (l.map f).sum + f b' := by
  induction l with
  | nil => intro i b b' h; simp at h
  | cons a rest ih =>
    intro i b b' h
    cases i with
    | zero =>
      simp at h
      subst h
      simp; omega
    | succ i =>
      simp at h
      have := ih i b b' h
      simp only [List.set_cons_succ, List.map_cons, List.sum_cons]
      omega

theorem dequeueTo_keeps (c : HttpCluster) (i : Nat) :
    (c.dequeueTo i).members = c.members ∧ (c.dequeueTo i).shaper.size = c.shaper.size ∧
    (c.dequeueTo i).stickyOfflineMode = c.stickyOfflineMode := by
  unfold dequeueTo dequeue
  cases c.shaper.rootNode.dequeue with
  | none => simp
  | some p => simp

theorem handle_cases (m : HttpHealthMonitor) (e : HttpHealthMonitor.Event)
    (hcb : m.hasStateChangeCallback = true) :
    ((m.handle e).1.hasStateChangeCallback = true) ∧
    (((m.handle e).1.state = m.state ∧
        ∀ (c : HttpCluster) (i : Nat), c.notifyStateChanges i (m.handle e).2 = c) ∨
      ((m.handle e).1.state ≠ m.state ∧ (m.handle e).1.state ≠ HttpHealthMonitor.State.Undefined ∧
        ∀ (c : HttpCluster) (i : Nat),
          c.notifyStateChanges i (m.handle e).2 = c.onBackendStateChanged i m.state)) := by
  have hset : ∀ (m : HttpHealthMonitor) (v : HttpHealthMonitor.State)
      (hv : v ≠ HttpHealthMonitor.State.Undefined), m.hasStateChangeCallback = true →
      (m.setState v hv).2 = if m.state = v then [] else [Effect.stateChanged m.state] := by
    intro m v hv hm
    unfold HttpHealthMonitor.setState
    split <;> simp [hm]
  have key : ∀ (m0 : HttpHealthMonitor) (v : HttpHealthMonitor.State)
      (hv : v ≠ HttpHealthMonitor.State.Undefined), m0.hasStateChangeCallback = true →
      m0.state = m.state →
      ∀ (tail : List Effect), (∀ (c : HttpCluster) (i : Nat), c.notifyStateChanges i tail = c) →
      ((m0.setState v hv).1.hasStateChangeCallback = true) ∧
      (((m0.setState v hv).1.state = m.state ∧
          ∀ (c : HttpCluster) (i : Nat),
            c.notifyStateChanges i ((m0.setState v hv).2 ++ tail) = c) ∨
        ((m0.setState v hv).1.state ≠ m.state ∧
          (m0.setState v hv).1.state ≠ HttpHealthMonitor.State.Undefined ∧
          ∀ (c : HttpCluster) (i : Nat),
            c.notifyStateChanges i ((m0.setState v hv).2 ++ tail) =
              c.onBackendStateChanged i m.state)) := by
    intro m0 v hv hm0 hst tail htail
    refine ⟨by rw [(HttpHealthMonitor.setState_counters m0 v hv).2.2.2]; exact hm0, ?_⟩
    rw [HttpHealthMonitor.setState_state, hset m0 v hv hm0]
    by_cases h : m0.state = v
    · left
      refine ⟨by rw [← hst, h], fun c i => ?_⟩
      simp [h, htail]
    · right
      refine ⟨by rw [← hst]; exact fun h' => h h'.symm, hv, fun c i => ?_⟩
      have h' : ¬ m.state = v := by rw [← hst]; exact h
      simp [h, h', notifyStateChanges, htail, hst]
  cases e with
  | success =>
    have hrec : ∀ (c : HttpCluster) (i : Nat),
        c.notifyStateChanges i [Effect.recheck] = c := fun c i => rfl
    by_cases hth : m.consecutiveSuccessCount + 1 ≥ m.successThreshold
    · have := key { m with consecutiveSuccessCount := Counter.incr m.consecutiveSuccessCount }
        HttpHealthMonitor.State.Online (by decide) hcb rfl [Effect.recheck] hrec
      have he : m.handle HttpHealthMonitor.Event.success =
          (({ m with consecutiveSuccessCount := Counter.incr m.consecutiveSuccessCount
              }.setState HttpHealthMonitor.State.Online (by decide)).1,
           ({ m with consecutiveSuccessCount := Counter.incr m.consecutiveSuccessCount
              }.setState HttpHealthMonitor.State.Online (by decide)).2 ++ [Effect.recheck]) := by
        simp [HttpHealthMonitor.handle, HttpHealthMonitor.logSuccess, Counter.incr, hth]
      rw [he]
      exact this
    · have he : m.handle HttpHealthMonitor.Event.success =
          ({ m with consecutiveSuccessCount := Counter.incr m.consecutiveSuccessCount },
           [Effect.recheck]) := by
        simp [HttpHealthMonitor.handle, HttpHealthMonitor.logSuccess, Counter.incr, hth]
      rw [he]
      exact ⟨hcb, Or.inl ⟨rfl, hrec⟩⟩
  | failure =>
    have hrec : ∀ (c : HttpCluster) (i : Nat),
        c.notifyStateChanges i [Effect.recheck] = c := fun c i => rfl
    exact key { m with totalFailCount := Counter.incr m.totalFailCount
                       consecutiveSuccessCount := 0 }
      HttpHealthMonitor.State.Offline (by decide) hcb rfl [Effect.recheck] hrec
  | forceOffline =>
    have := key m HttpHealthMonitor.State.Offline (by decide) hcb rfl [] (fun c i => rfl)
    simpa [HttpHealthMonitor.handle] using this

theorem onBackendStateChanged_not_sticky (c : HttpCluster) (i : Nat)
    (b : HttpClusterMember) (old : HttpHealthMonitor.State)
    (hs : c.stickyOfflineMode = false) (hb : c.members[i]? = some b) :
    (c.onBackendStateChanged i old).stickyOfflineMode = false ∧
    (c.onBackendStateChanged i old).members = c.members ∧
    (c.onBackendStateChanged i old).shaper.size =
      if b.healthMonitor.state = HttpHealthMonitor.State.Online then
        (if b.enabled then (c.shaper.size + b.capacity) % 2 ^ 64 else c.shaper.size)
      else if b.enabled = true ∧ old = HttpHealthMonitor.State.Online then
        (c.shaper.size + 2 ^ 64 - b.capacity % 2 ^ 64) % 2 ^ 64
      else c.shaper.size := by
  unfold onBackendStateChanged
  simp only [hb]
  by_cases hon : b.healthMonitor.state = HttpHealthMonitor.State.Online
  · have hio : b.healthMonitor.isOnline = true := by simp [HttpHealthMonitor.isOnline, hon]
    by_cases hen : b.enabled = true
    · have hk := dequeueTo_keeps (c.growShaper b.capacity) i
      simp [hio, hen, hon, growShaper, hs, TokenShaper.resize] at hk ⊢
      exact ⟨hk.2.2, hk.1, hk.2.1⟩
    · simp [hio, hen, hon, hs]
  · have hio : b.healthMonitor.isOnline = false := by simp [HttpHealthMonitor.isOnline, hon]
    by_cases hc : b.enabled = true ∧ old = HttpHealthMonitor.State.Online
    · simp [hio, hc, hon, shrinkShaper, hs, TokenShaper.resize]
    · simp only [hio, hon, if_false, hc]
      simp [hs]

theorem monitorEvent_invariant (c : HttpCluster) (i : Nat) (e : HttpHealthMonitor.Event)
    (hinv : c.sizeInvariant) : (c.monitorEvent i e).sizeInvariant := by
  obtain ⟨hs, hcb, hsize⟩ := hinv
  unfold monitorEvent
  cases hb : c.members[i]? with
  | none => exact ⟨hs, hcb, hsize⟩
  | some b =>
    have hbm : b ∈ c.members := List.getElem?_mem hb
    have hi : i < c.members.length := by
      by_contra hcon
      rw [List.getElem?_eq_none (by omega)] at hb
      exact absurd hb (by simp)
    obtain ⟨hcb', hcases⟩ := handle_cases b.healthMonitor e (hcb b hbm)
    simp only []
    have hb' : (c.members.set i { b with healthMonitor := (b.healthMonitor.handle e).1 })[i]? =
        some { b with healthMonitor := (b.healthMonitor.handle e).1 } := by
      simp [List.getElem?_set, hi]
    have hcbAll : ∀ m ∈ c.members.set i { b with healthMonitor := (b.healthMonitor.handle e).1 },
        m.healthMonitor.hasStateChangeCallback = true := by
      intro m hm
      rcases List.mem_or_eq_of_mem_set hm with h | h
      · exact hcb m h
      · rw [h]; exact hcb'
    have hsum := sum_map_set contrib c.members i b
      { b with healthMonitor := (b.healthMonitor.handle e).1 } hb
    rcases hcases with ⟨hsame, hnote⟩ | ⟨hdiff, hnu, hnote⟩
    · rw [hnote]
      refine ⟨hs, hcbAll, ?_⟩
      have hcontrib : contrib { b with healthMonitor := (b.healthMonitor.handle e).1 } =
          contrib b := by
        simp [contrib, HttpHealthMonitor.isOnline, hsame]
      rw [onlineCapacity_eq] at hsize ⊢
      dsimp only
      rw [hsize]
      rw [hcontrib] at hsum
      congr 1
      omega
    · rw [hnote]
      obtain ⟨h1, h2, h3⟩ := onBackendStateChanged_not_sticky
        { c with members := c.members.set i { b with healthMonitor := (b.healthMonitor.handle e).1 } }
        i { b with healthMonitor := (b.healthMonitor.handle e).1 } b.healthMonitor.state hs hb'
      dsimp only at h1 h2 h3
      refine ⟨h1, by rw [h2]; exact hcbAll, ?_⟩
      rw [h3, onlineCapacity_eq, h2]
      rw [onlineCapacity_eq] at hsize
      rw [hsize]
      by_cases hon : (b.healthMonitor.handle e).1.state = HttpHealthMonitor.State.Online
      · have hold : b.healthMonitor.state ≠ HttpHealthMonitor.State.Online := by
          intro h; exact hdiff (by rw [hon, h])
        have c0 : contrib b = 0 := by simp [contrib, HttpHealthMonitor.isOnline, hold]
        rw [if_pos hon]
        by_cases hen : b.enabled = true
        · have c1 : contrib { b with healthMonitor := (b.healthMonitor.handle e).1 } =
              b.capacity := by simp [contrib, HttpHealthMonitor.isOnline, hon, hen]
          rw [if_pos hen]
          rw [c0, c1] at hsum
          generalize (List.map contrib (c.members.set i
            { b with healthMonitor := (b.healthMonitor.handle e).1 })).sum = S' at hsum ⊢
          generalize (List.map contrib c.members).sum = S at hsum ⊢
          omega
        · have c1 : contrib { b with healthMonitor := (b.healthMonitor.handle e).1 } = 0 := by
            simp [contrib, hen]
          rw [if_neg hen]
          rw [c0, c1] at hsum
          generalize (List.map contrib (c.members.set i
            { b with healthMonitor := (b.healthMonitor.handle e).1 })).sum = S' at hsum ⊢
          generalize (List.map contrib c.members).sum = S at hsum ⊢
          omega
      · have c1 : contrib { b with healthMonitor := (b.healthMonitor.handle e).1 } = 0 := by
          simp [contrib, HttpHealthMonitor.isOnline, hon]
        rw [if_neg hon]
        by_cases hc : b.enabled = true ∧ b.healthMonitor.state = HttpHealthMonitor.State.Online
        · have c0 : contrib b = b.capacity := by
            simp [contrib, HttpHealthMonitor.isOnline, hc.1, hc.2]
          rw [if_pos hc]
          rw [c0, c1] at hsum
          generalize (List.map contrib (c.members.set i
            { b with healthMonitor := (b.healthMonitor.handle e).1 })).sum = S' at hsum ⊢
          generalize (List.map contrib c.members).sum = S at hsum ⊢
          omega
        · have c0 : contrib b = 0 := by
            simp only [contrib, HttpHealthMonitor.isOnline, Bool.and_eq_true, decide_eq_true_eq]
            rw [if_neg hc]
          rw [if_neg hc]
          rw [c0, c1] at hsum
          generalize (List.map contrib (c.members.set i
            { b with healthMonitor := (b.healthMonitor.handle e).1 })).sum = S' at hsum ⊢
          generalize (List.map contrib c.members).sum = S at hsum ⊢
          omega

theorem monitorEvents_invariant (events : List (Nat × HttpHealthMonitor.Event)) :
    ∀ (c : HttpCluster), c.sizeInvariant → (c.monitorEvents events).sizeInvariant := by
  induction events with
  | nil => intro c h; exact h
  | cons e rest ih =>
    intro c h
    exact ih (c.monitorEvent e.1 e.2) (monitorEvent_invariant c e.1 e.2 h)

/-- Without sticky-offline mode the shaper size follows the members: if it is
the sum of the capacities of the enabled and online members before a sequence
of monitor events, it is so after it. -/
theorem shaper_size_when_not_sticky (c : HttpCluster)
    (events : List (Nat × HttpHealthMonitor.Event)) (hinv : c.sizeInvariant) :
    (c.monitorEvents events).shaper.size = (c.monitorEvents events).onlineCapacity % 2 ^ 64 :=
  (monitorEvents_invariant events c hinv).2.2

/-- C2 fails on the code.  A cluster in sticky-offline mode with one enabled
member of capacity 10 starts with shaper size 0; when the monitor of the
member goes `Online` (third probe success), `onBackendStateChanged` adds the
capacity to the shaper and then disables the member: the shaper size is 10,
the capacities of the enabled and online members sum to 0. -/
theorem sticky_online_inflates_shaper :
    sticky.stickyOfflineMode = true ∧
    sticky.shaper.size = 0 ∧
    (sticky.monitorEvents (threeSuccesses 0)).shaper.size = 10 ∧
    (sticky.monitorEvents (threeSuccesses 0)).onlineCapacity = 0 ∧
    (sticky.monitorEvents (threeSuccesses 0)).members.map (fun m => m.enabled) = [false] := by
  decide

/-- C4, as stated, fails: `enqueueOnUnavailable` is not set and a token is
available; when the scheduler answers `Overloaded` the request is put into the
queue of the bucket and no 503 is sent, whereas on `Unavailable` it is
finished with 503 and not queued. -/
theorem overloaded_is_enqueued :
    strict.enqueueOnUnavailable = false ∧
    (Bucket.single.get 1).1 = true ∧
    ((strict.schedule (HttpClusterScheduler.always .Overloaded)
        (HttpClusterRequest.create 1) Bucket.single).bucket.queue.map (fun cr => cr.id) = [1] ∧
      (strict.schedule (HttpClusterScheduler.always .Overloaded)
        (HttpClusterRequest.create 1) Bucket.single).cr.listener = [] ∧
      (strict.schedule (HttpClusterScheduler.always .Overloaded)
        (HttpClusterRequest.create 1) Bucket.single).cluster.dropped = 0) ∧
    ((strict.schedule (HttpClusterScheduler.always .Unavailable)
        (HttpClusterRequest.create 1) Bucket.single).bucket.queue = [] ∧
      (strict.schedule (HttpClusterScheduler.always .Unavailable)
        (HttpClusterRequest.create 1) Bucket.single).cr.listener.head? =
          some (ListenerEvent.messageBegin 503 "Service Unavailable") ∧
      (strict.schedule (HttpClusterScheduler.always .Unavailable)
        (HttpClusterRequest.create 1) Bucket.single).cluster.dropped = 1) := by
  decide

theorem put_get (b : Bucket) (h : (b.get 1).1 = true) : (b.get 1).2.put 1 = b := by
  unfold Bucket.get at h ⊢
  split
  · simp [Bucket.put]
  · rename_i hn; simp [hn] at h

theorem tryEnqueue_keeps (c : HttpCluster) (bucket : Bucket) (cr : HttpClusterRequest) :
    (c.tryEnqueue bucket cr).bucket.actualRate = bucket.actualRate ∧
    (c.tryEnqueue bucket cr).cr.tokens = cr.tokens := by
  unfold tryEnqueue
  split <;> simp [Bucket.enqueue, serviceUnavailable]

/-- C4, amended: in `schedule()`, after a token was obtained and the scheduler
did not return `Success`, the token is returned (the bucket hands out as many
tokens as before the call, `cr.tokens` is 0); then, on `Unavailable` with
`enqueueOnUnavailable` not set the request is finished with 503, and in every
other case, that is on `Overloaded` whatever `enqueueOnUnavailable` is and on
`Unavailable` with `enqueueOnUnavailable` set, the request goes to
`tryEnqueue`.  `Overloaded` is handled like `Unavailable` exactly when
`enqueueOnUnavailable` is set. -/
theorem schedule_without_success (sch : HttpClusterScheduler) (c : HttpCluster)
    (cr : HttpClusterRequest) (bucket : Bucket)
    (hen : c.enabled = true) (hget : (bucket.get 1).1 = true)
    (hst : (c.answer sch cr bucket).status ≠ HttpClusterSchedulerStatus.Success) :
    ((c.schedule sch cr bucket).bucket.actualRate = bucket.actualRate ∧
      (c.schedule sch cr bucket).cr.tokens = 0) ∧
    ((c.answer sch cr bucket).status = HttpClusterSchedulerStatus.Unavailable ∧
        c.enqueueOnUnavailable = false →
      c.schedule sch cr bucket =
        { done := false
          cluster := ((c.tokenReturned sch cr bucket).1.serviceUnavailable
            (c.tokenReturned sch cr bucket).2 ServiceUnavailable).1
          bucket := bucket
          cr := ((c.tokenReturned sch cr bucket).1.serviceUnavailable
            (c.tokenReturned sch cr bucket).2 ServiceUnavailable).2 }) ∧
    ((c.answer sch cr bucket).status = HttpClusterSchedulerStatus.Overloaded ∨
        c.enqueueOnUnavailable = true →
      c.schedule sch cr bucket =
        { (c.tokenReturned sch cr bucket).1.tryEnqueue bucket
            (c.tokenReturned sch cr bucket).2 with done := false }) := by
  have hput := put_get bucket hget
  unfold tokenReturned
  unfold answer at hst ⊢
  have h503 : (sch c.members { cr with bucket := some bucket.name }).status =
        HttpClusterSchedulerStatus.Unavailable ∧ c.enqueueOnUnavailable = false →
      c.schedule sch cr bucket =
        { done := false
          cluster := (serviceUnavailable
            { c with members := (sch c.members { cr with bucket := some bucket.name }).members }
            { (sch c.members { cr with bucket := some bucket.name }).cr with tokens := 0 }
            ServiceUnavailable).1
          bucket := bucket
          cr := (serviceUnavailable
            { c with members := (sch c.members { cr with bucket := some bucket.name }).members }
            { (sch c.members { cr with bucket := some bucket.name }).cr with tokens := 0 }
            ServiceUnavailable).2 } := by
    rintro ⟨hu, he⟩
    unfold schedule
    simp [hen, hget, hst, hu, he, hput]
  have hq : (sch c.members { cr with bucket := some bucket.name }).status =
        HttpClusterSchedulerStatus.Overloaded ∨ c.enqueueOnUnavailable = true →
      c.schedule sch cr bucket =
        { tryEnqueue
            { c with members := (sch c.members { cr with bucket := some bucket.name }).members }
            bucket
            { (sch c.members { cr with bucket := some bucket.name }).cr with tokens := 0 }
          with done := false } := by
    intro h
    unfold schedule
    rcases h with ho | he
    · simp [hen, hget, hst, ho, hput]
    · simp [hen, hget, hst, he, hput]
  refine ⟨?_, h503, hq⟩
  by_cases hcase : (sch c.members { cr with bucket := some bucket.name }).status =
        HttpClusterSchedulerStatus.Unavailable ∧ c.enqueueOnUnavailable = false
  · rw [h503 hcase]
    simp [serviceUnavailable]
  · have hor : (sch c.members { cr with bucket := some bucket.name }).status =
        HttpClusterSchedulerStatus.Overloaded ∨ c.enqueueOnUnavailable = true := by
      by_cases he : c.enqueueOnUnavailable = true
      · exact Or.inr he
      · left
        have he' : c.enqueueOnUnavailable = false := by simpa using he
        cases hs : (sch c.members { cr with bucket := some bucket.name }).status with
        | Unavailable => exact absurd ⟨hs, he'⟩ hcase
        | Success => exact absurd hs hst
        | Overloaded => rfl
    rw [hq hor]
    have hk := tryEnqueue_keeps
      { c with members := (sch c.members { cr with bucket := some bucket.name }).members }
      bucket { (sch c.members { cr with bucket := some bucket.name }).cr with tokens := 0 }
    exact ⟨hk.1, hk.2⟩

/-- The amended C4 on the cluster `strict`, the bucket `b` and a scheduler that
answers `Overloaded`. -/
theorem schedule_without_success_witness :
    (strict.enabled = true ∧ (Bucket.single.get 1).1 = true ∧
      (strict.answer (HttpClusterScheduler.always .Overloaded) (HttpClusterRequest.create 1)
        Bucket.single).status ≠ HttpClusterSchedulerStatus.Success) ∧
    ((strict.schedule (HttpClusterScheduler.always .Overloaded) (HttpClusterRequest.create 1)
        Bucket.single).bucket.actualRate = Bucket.single.actualRate ∧
      (strict.schedule (HttpClusterScheduler.always .Overloaded) (HttpClusterRequest.create 1)
        Bucket.single).cr.tokens = 0) :=
  ⟨⟨by decide, by decide, by decide⟩,
   (schedule_without_success (HttpClusterScheduler.always .Overloaded) strict
      (HttpClusterRequest.create 1) Bucket.single (by decide) (by decide) (by decide)).1⟩

/-- C7 fails on the code: nothing in `tryProcess`, `onFailure`, `reschedule` or
`verifyTryCount` writes `tryCount`, so `verifyTryCount` never sees it grow.
With `maxRetryCount = 2` and four members online, a request whose dispatch
has failed three times is handed to the scheduler a third time and dispatched
to the fourth member: no 503 is sent and the dropped counter stays 0; after a
fourth failure it is put into the queue, still without a 503. -/
theorem retries_not_counted :
    (∀ (m : HttpClusterMember) (cr : HttpClusterRequest),
      (m.tryProcess cr).cr.tryCount = cr.tryCount ∧
      (m.onFailure cr).2.1.tryCount = cr.tryCount) ∧
    (∀ (c : HttpCluster) (cr : HttpClusterRequest),
      cr.tryCount ≤ c.maxRetryCount → c.verifyTryCount cr = (true, c, cr)) ∧
    fourOnline.maxRetryCount = 2 ∧
    ((failedDispatches 3).done = true ∧
      (failedDispatches 3).cr.backend = some "d" ∧
      (failedDispatches 3).cr.tryCount = 0 ∧
      (failedDispatches 3).cr.listener = [] ∧
      (failedDispatches 3).cluster.dropped = 0) ∧
    ((failedDispatches 4).done = true ∧
      (failedDispatches 4).bucket.queue.map (fun cr => cr.id) = [1] ∧
      (failedDispatches 4).cr.listener = [] ∧
      (failedDispatches 4).cluster.dropped = 0) := by
  refine ⟨fun m cr => ⟨?_, by simp [HttpClusterMember.onFailure]⟩, fun c cr h => ?_,
    by decide, by decide, by decide⟩
  · unfold HttpClusterMember.tryProcess
    simp only [HttpClusterMember.process]
    split
    · rfl
    · split
      · rfl
      · split
        · rfl
        · simp
  · simp [verifyTryCount, h]

end HttpCluster

end xzero

namespace FlowVM

/-! ### EXIT -/

theorem step_exit (p : Program) (h : Handler) (s : VM) (i : Instr)
    (hfetch : h.code[s.pc]? = some i) (hop : i.opc = Opcode.EXIT) :
    step p h s = StepResult.ret (decide (i.A ≠ 0)) := by
  simp [step, hfetch, hop]

theorem run_sumThenExit (p : Program) (n : Nat) (hn : 3 ≤ n) (hpool : 20 < p.integers.length) :
    run p { registerCount := n, code := sumThenExit } 4 = Outcome.returned true := by
  have h0 : 0 < n := by omega
  have h1 : 1 < n := by omega
  have h2 : 2 < n := by omega
  have h10 : p.integers[10]? = some (p.integers[10]) := List.getElem?_eq_getElem (by omega)
  have h20 : p.integers[20]? = some (p.integers[20]) := List.getElem?_eq_getElem (by omega)
  simp [run, runFrom, step, execData, sumThenExit, VM.start, Runner.create, Runner.write,
    Runner.read, regRegOp, jump, h0, h1, h2, h10, h20, List.getElem?_set]

theorem run_zeroThenExit (p : Program) (n : Nat) (hn : 1 ≤ n) (hpool : 0 < p.integers.length) :
    run p { registerCount := n, code := zeroThenExit } 2 = Outcome.returned false := by
  have h0 : 0 < n := by omega
  have hp : p.integers[0]? = some (p.integers[0]) := List.getElem?_eq_getElem (by omega)
  simp [run, runFrom, step, execData, zeroThenExit, VM.start, Runner.create, Runner.write,
    Runner.read, jump, h0, hp]

/-- C11: for every program and register file, when execution reaches `EXIT A`
the run ends there, and its result is `true` if and only if the operand `A`
itself is non-zero, whatever `r[A]` holds.  Hence, for every program whose
integer pool has the constants numbered 0, 10 and 20 and every handler with
at least three registers, `NCONST r0, 10; NCONST r1, 20; NADD r2, r0, r1;
EXIT r2` returns `true` (the operand is 2) and `NCONST r0, 0; EXIT r0`
returns `false` (the operand is 0). -/
theorem exit_returns_operand (p : Program) (h : Handler) (s : VM) (i : Instr) (n : Nat)
    (hfetch : h.code[s.pc]? = some i) (hop : i.opc = Opcode.EXIT)
    (hn : 3 ≤ n) (hpool : 20 < p.integers.length) :
    (step p h s = StepResult.ret (decide (i.A ≠ 0)) ∧
      ∀ fuel, runFrom p h (fuel + 1) s = Outcome.returned (decide (i.A ≠ 0))) ∧
    (∀ fuel, runFrom p h (fuel + 1) s = Outcome.returned true ↔ i.A ≠ 0) ∧
    run p { registerCount := n, code := sumThenExit } 4 = Outcome.returned true ∧
    run p { registerCount := n, code := zeroThenExit } 2 = Outcome.returned false := by
  have hs := step_exit p h s i hfetch hop
  have hr : ∀ fuel, runFrom p h (fuel + 1) s = Outcome.returned (decide (i.A ≠ 0)) := by
    intro fuel
    simp [runFrom, hs]
  refine ⟨⟨hs, hr⟩, fun fuel => ?_, run_sumThenExit p n hn hpool,
    run_zeroThenExit p n (by omega) (by omega)⟩
  rw [hr fuel]
  simp

/-- C11 on a program with the integer constants `0 .. 20` and three
registers, at the `EXIT r2` of the first program, reached with `r2 = 30`. -/
theorem exit_returns_operand_witness :
    (runFrom Program.withIntegers { registerCount := 3, code := sumThenExit } 1
        { pc := 3, ticks := 3, runner := { data := [10, 20, 30], stringGarbage := [[]] } } =
      Outcome.returned true) ∧
    run Program.withIntegers { registerCount := 3, code := sumThenExit } 4 =
      Outcome.returned true ∧
    run Program.withIntegers { registerCount := 3, code := zeroThenExit } 2 =
      Outcome.returned false :=
  ⟨(exit_returns_operand Program.withIntegers { registerCount := 3, code := sumThenExit }
      { pc := 3, ticks := 3, runner := { data := [10, 20, 30], stringGarbage := [[]] } }
      ⟨.EXIT, 2, 0, 0⟩ 3 (by decide) rfl (by decide) (by decide)).1.2 0,
   (exit_returns_operand Program.withIntegers { registerCount := 3, code := sumThenExit }
      { pc := 3, ticks := 3, runner := { data := [10, 20, 30], stringGarbage := [[]] } }
      ⟨.EXIT, 2, 0, 0⟩ 3 (by decide) rfl (by decide) (by decide)).2.2⟩

end FlowVM

namespace xzero

/-! ### Failed dispatch -/

namespace HttpClusterMember

theorem tryProcess_success (m : HttpClusterMember) (cr : HttpClusterRequest)
    (h : (m.tryProcess cr).status = HttpClusterSchedulerStatus.Success) :
    m.tryProcess cr =
      { status := HttpClusterSchedulerStatus.Success
        member := { m with load := m.load + 1 }
        cr := { cr with backend := some m.name }
        effects := [Effect.sendAsync cr.id] } := by
  unfold HttpClusterMember.tryProcess at h ⊢
  simp only [HttpClusterMember.process] at h ⊢
  split
  · rename_i h1; simp [h1] at h
  · split
    · rename_i h1 h2; simp [h1, h2] at h
    · split
      · rename_i h1 h2 h3; simp [h1, h2, h3] at h
      · simp [Counter.incr]

/-- C19: on a failed dispatch (`HttpClusterMember::onFailure`) of a member
that has a dispatch under way (`load > 0`) and whose processing-failed
callback is set, the load decreases by exactly one, the state of the health
monitor becomes `Offline` and nothing else in the member changes; the member
assignment of the request is cleared; the processing-failed callback is the
last thing done, after the state-change notification of the monitor if there
is one, and it is invoked exactly once, for this request. -/
theorem onFailure_steps (m : HttpClusterMember) (cr : HttpClusterRequest)
    (hload : 0 < m.load) (hcb : m.hasProcessingFailedCallback = true) :
    ((m.onFailure cr).1.load + 1 = m.load ∧
      (m.onFailure cr).1.healthMonitor.state = HttpHealthMonitor.State.Offline ∧
      (m.onFailure cr).1 =
        { m with load := m.load - 1
                 healthMonitor := { m.healthMonitor with
                                      state := HttpHealthMonitor.State.Offline } }) ∧
    (m.onFailure cr).2.1 = { cr with backend := none } ∧
    ((m.onFailure cr).2.2 =
        (m.healthMonitor.setState HttpHealthMonitor.State.Offline (by decide)).2 ++
          [Effect.processingFailed cr.id] ∧
      (m.onFailure cr).2.2.getLast? = some (Effect.processingFailed cr.id) ∧
      (m.onFailure cr).2.2.filter Effect.isProcessingFailed =
        [Effect.processingFailed cr.id]) := by
  have hne : m.load ≠ 0 := by omega
  have hst : ∀ (x : HttpHealthMonitor),
      (x.setState HttpHealthMonitor.State.Offline (by decide)).1 =
        { x with state := HttpHealthMonitor.State.Offline } :=
    fun x => HttpHealthMonitor.setState_eq_with x _ _
  have heff : (m.onFailure cr).2.2 =
      (m.healthMonitor.setState HttpHealthMonitor.State.Offline (by decide)).2 ++
        [Effect.processingFailed cr.id] := by
    simp [onFailure, hcb]
  have hm : (m.onFailure cr).1 =
      { m with load := m.load - 1
               healthMonitor := { m.healthMonitor with
                                    state := HttpHealthMonitor.State.Offline } } := by
    simp [onFailure, Counter.decr, hne, hst]
  refine ⟨⟨?_, ?_, hm⟩, by simp [onFailure], heff, ?_, ?_⟩
  · rw [hm]; simp; omega
  · rw [hm]
  · rw [heff]; simp
  · rw [heff]
    unfold HttpHealthMonitor.setState
    split
    · simp [Effect.isProcessingFailed]
    · split <;> simp [Effect.isProcessingFailed]

/-- C19 on the member of the happy-path scenario after it has accepted request
1, when the dispatch of that request fails. -/
theorem onFailure_steps_witness :
    (0 < (happy.tryProcess (HttpClusterRequest.create 1)).member.load ∧
      (happy.tryProcess (HttpClusterRequest.create 1)).member.hasProcessingFailedCallback =
        true) ∧
    ((happy.tryProcess (HttpClusterRequest.create 1)).member.onFailure
        (happy.tryProcess (HttpClusterRequest.create 1)).cr).1.load + 1 = 1 ∧
    ((happy.tryProcess (HttpClusterRequest.create 1)).member.onFailure
        (happy.tryProcess (HttpClusterRequest.create 1)).cr).2.2 =
      [Effect.stateChanged HttpHealthMonitor.State.Online, Effect.processingFailed 1] :=
  ⟨⟨by decide, by decide⟩,
   (onFailure_steps (happy.tryProcess (HttpClusterRequest.create 1)).member
      (happy.tryProcess (HttpClusterRequest.create 1)).cr (by decide) (by decide)).1.1,
   (onFailure_steps (happy.tryProcess (HttpClusterRequest.create 1)).member
      (happy.tryProcess (HttpClusterRequest.create 1)).cr (by decide) (by decide)).2.2.1⟩

end HttpClusterMember

/-! ### Rejection, queueing and scheduling -/

namespace HttpCluster

theorem serviceUnavailable_eq (c : HttpCluster) (cr : HttpClusterRequest) (status : Nat) :
    c.serviceUnavailable cr status =
      ({ c with dropped := c.dropped + 1 },
       { cr with listener := cr.listener ++ rejection status cr.bucket c.retryAfter }) := by
  unfold serviceUnavailable rejection
  have hb : (match cr.bucket with
      | some b => [ListenerEvent.messageHeader "Cluster-Bucket" b]
      | none => []) =
      cr.bucket.toList.map (fun b => ListenerEvent.messageHeader "Cluster-Bucket" b) := by
    cases cr.bucket <;> rfl
  have hr : (if c.retryAfter ≠ 0 then
        [ListenerEvent.messageHeader "Retry-After" (toString (c.retryAfter / 1000000))]
      else []) =
      (if 0 < c.retryAfter then
        [ListenerEvent.messageHeader "Retry-After" (toString (c.retryAfter / 1000000))]
      else []) := by
    by_cases h : c.retryAfter = 0
    · simp [h]
    · have : 0 < c.retryAfter := Nat.pos_of_ne_zero h
      simp [h, this]
  simp only [hb, hr, Counter.incr, List.append_assoc]

/-- C18: for every request and every status, `serviceUnavailable` delivers to
the listener exactly the events `rejection status cr.bucket retryAfter`:
message-begin with the given status first, a `Cluster-Bucket` header naming
`cr.bucket` if and only if a bucket is set, a `Retry-After` header, whose
value is `retryAfter` in whole seconds, if and only if `retryAfter > 0`,
header-end, message-end, and nothing else (3 events plus one per header); it
increments the dropped counter by exactly one and changes nothing else in the
cluster or the request. -/
theorem serviceUnavailable_events (c : HttpCluster) (cr : HttpClusterRequest) (status : Nat) :
    (c.serviceUnavailable cr status).2.listener =
        cr.listener ++ rejection status cr.bucket c.retryAfter ∧
    (rejection status cr.bucket c.retryAfter).head? =
        some (ListenerEvent.messageBegin status "Service Unavailable") ∧
    (∀ b, ListenerEvent.messageHeader "Cluster-Bucket" b ∈
        rejection status cr.bucket c.retryAfter ↔ cr.bucket = some b) ∧
    ((∃ v, ListenerEvent.messageHeader "Retry-After" v ∈
        rejection status cr.bucket c.retryAfter) ↔ 0 < c.retryAfter) ∧
    (∀ v, ListenerEvent.messageHeader "Retry-After" v ∈
        rejection status cr.bucket c.retryAfter → v = toString (c.retryAfter / 1000000)) ∧
    (rejection status cr.bucket c.retryAfter).length =
        3 + (if cr.bucket.isSome then 1 else 0) + (if 0 < c.retryAfter then 1 else 0) ∧
    (c.serviceUnavailable cr status).1 = { c with dropped := c.dropped + 1 } ∧
    (c.serviceUnavailable cr status).2 =
        { cr with listener := (c.serviceUnavailable cr status).2.listener } := by
  rw [serviceUnavailable_eq]
  refine ⟨rfl, rfl, ?_, ?_, ?_, ?_, rfl, rfl⟩
  · intro b
    unfold rejection
    cases hb : cr.bucket <;> by_cases hr : 0 < c.retryAfter <;> simp [hr]
    · exact eq_comm
    · exact eq_comm
  · unfold rejection
    cases hb : cr.bucket <;> by_cases hr : 0 < c.retryAfter <;> simp [hr]
  · intro v
    unfold rejection
    cases hb : cr.bucket <;> by_cases hr : 0 < c.retryAfter <;> simp [hr]
  · unfold rejection
    cases hb : cr.bucket <;> by_cases hr : 0 < c.retryAfter <;> simp [hr]


theorem tryEnqueue_accept (c : HttpCluster) (bucket : Bucket) (cr : HttpClusterRequest)
    (h : bucket.queue.length < c.queueLimit) :
    c.tryEnqueue bucket cr =
      { done := true
        cluster := { c with queued := c.queued + 1 }
        bucket := { bucket with queue := bucket.queue ++ [{ cr with backend := none }] }
        cr := { cr with backend := none } } := by
  simp [tryEnqueue, Bucket.queuedCurrent, h, Bucket.enqueue, Counter.incr]

theorem tryEnqueue_reject (c : HttpCluster) (bucket : Bucket) (cr : HttpClusterRequest)
    (h : ¬ bucket.queue.length < c.queueLimit) :
    c.tryEnqueue bucket cr =
      { done := false
        cluster := { c with dropped := c.dropped + 1 }
        bucket := bucket
        cr := { cr with listener := cr.listener ++
                  rejection ServiceUnavailable cr.bucket c.retryAfter } } := by
  simp [tryEnqueue, Bucket.queuedCurrent, h, serviceUnavailable_eq]

/-- C16: `tryEnqueue(cr)` returns `true` if and only if the current queue
length of the bucket is below `queueLimit`; in that case it appends `cr` to
the queue of its bucket, clears `cr.backend` and increments the queued
counter by one (and sends nothing); otherwise it returns `false`, leaves the
queue and the queued counter unchanged, sends a 503 and increments dropped by
one.  With `queueLimit = 0` nothing is queued. -/
theorem tryEnqueue_limit (c : HttpCluster) (bucket : Bucket) (cr : HttpClusterRequest) :
    ((c.tryEnqueue bucket cr).done = true ↔ bucket.queue.length < c.queueLimit) ∧
    (bucket.queue.length < c.queueLimit →
      c.tryEnqueue bucket cr =
        { done := true
          cluster := { c with queued := c.queued + 1 }
          bucket := { bucket with queue := bucket.queue ++ [{ cr with backend := none }] }
          cr := { cr with backend := none } }) ∧
    (¬ bucket.queue.length < c.queueLimit →
      c.tryEnqueue bucket cr =
        { done := false
          cluster := { c with dropped := c.dropped + 1 }
          bucket := bucket
          cr := { cr with listener := cr.listener ++
                    rejection ServiceUnavailable cr.bucket c.retryAfter } }) ∧
    (c.queueLimit = 0 →
      (c.tryEnqueue bucket cr).done = false ∧ (c.tryEnqueue bucket cr).bucket = bucket ∧
      (c.tryEnqueue bucket cr).cluster.queued = c.queued) := by
  refine ⟨?_, tryEnqueue_accept c bucket cr, tryEnqueue_reject c bucket cr, ?_⟩
  · by_cases h : bucket.queue.length < c.queueLimit
    · simp [tryEnqueue_accept c bucket cr h, h]
    · simp [tryEnqueue_reject c bucket cr h, h]
  · intro h0
    have h : ¬ bucket.queue.length < c.queueLimit := by omega
    simp [tryEnqueue_reject c bucket cr h]

/-- C14: when the cluster is disabled, `schedule(cr, bucket)` finishes the
request with 503 and increments the dropped counter by exactly one; the
bucket is left as it is (no token taken, nothing queued), and neither the
members nor the queued counter change, whatever the scheduler is. -/
theorem schedule_disabled (sch : HttpClusterScheduler) (c : HttpCluster)
    (cr : HttpClusterRequest) (bucket : Bucket) (hdis : c.enabled = false) :
    c.schedule sch cr bucket =
      { done := false
        cluster := { c with dropped := c.dropped + 1 }
        bucket := bucket
        cr := { cr with bucket := some bucket.name
                        listener := cr.listener ++
                          rejection ServiceUnavailable (some bucket.name) c.retryAfter } } ∧
    (rejection ServiceUnavailable (some bucket.name) c.retryAfter).head? =
      some (ListenerEvent.messageBegin 503 "Service Unavailable") := by
  refine ⟨?_, rfl⟩
  simp [schedule, hdis, serviceUnavailable_eq]

/-- C14 on the cluster `disabled`, the bucket `b` and a scheduler that would
answer `Success`. -/
theorem schedule_disabled_witness :
    disabled.enabled = false ∧
    (disabled.schedule (HttpClusterScheduler.always .Success) (HttpClusterRequest.create 1)
        Bucket.single).cluster.dropped = 1 ∧
    (disabled.schedule (HttpClusterScheduler.always .Success) (HttpClusterRequest.create 1)
        Bucket.single).bucket = Bucket.single ∧
    (disabled.schedule (HttpClusterScheduler.always .Success) (HttpClusterRequest.create 1)
        Bucket.single).cr.listener =
      [ListenerEvent.messageBegin 503 "Service Unavailable",
       ListenerEvent.messageHeader "Cluster-Bucket" "b",
       ListenerEvent.messageHeader "Retry-After" "30",
       ListenerEvent.messageHeaderEnd, ListenerEvent.messageEnd] :=
  ⟨by decide,
   by rw [(schedule_disabled (HttpClusterScheduler.always .Success) disabled
        (HttpClusterRequest.create 1) Bucket.single (by decide)).1]; decide,
   by rw [(schedule_disabled (HttpClusterScheduler.always .Success) disabled
        (HttpClusterRequest.create 1) Bucket.single (by decide)).1],
   by rw [(schedule_disabled (HttpClusterScheduler.always .Success) disabled
        (HttpClusterRequest.create 1) Bucket.single (by decide)).1]; decide⟩

/-- C15: when the cluster is enabled and `bucket.get(1)` fails, `schedule()`
passes the request to `tryEnqueue` if the `ceil` of the bucket is `> 0` or
`enqueueOnUnavailable` is set; otherwise it finishes the request with 503,
leaving the bucket and its queue as they are. -/
theorem schedule_without_token (sch : HttpClusterScheduler) (c : HttpCluster)
    (cr : HttpClusterRequest) (bucket : Bucket)
    (hen : c.enabled = true) (hget : (bucket.get 1).1 = false) :
    (bucket.ceil > 0 ∨ c.enqueueOnUnavailable = true →
      c.schedule sch cr bucket =
        { c.tryEnqueue bucket { cr with bucket := some bucket.name } with done := false }) ∧
    (¬ (bucket.ceil > 0 ∨ c.enqueueOnUnavailable = true) →
      c.schedule sch cr bucket =
        { done := false
          cluster := { c with dropped := c.dropped + 1 }
          bucket := bucket
          cr := { cr with bucket := some bucket.name
                          listener := cr.listener ++
                            rejection ServiceUnavailable (some bucket.name) c.retryAfter } }) := by
  constructor
  · intro h
    unfold schedule
    simp [hen, hget, h]
  · intro h
    unfold schedule
    simp [hen, hget, h, serviceUnavailable_eq]


/-- C15 on the cluster `strict` (`enqueueOnUnavailable` not set) and the bucket
`busy` (`ceil = 0`, one request waiting): the request is rejected and the
queue still holds the one request. -/
theorem schedule_without_token_witness :
    (strict.enabled = true ∧ (Bucket.busy.get 1).1 = false ∧
      ¬ (Bucket.busy.ceil > 0 ∨ strict.enqueueOnUnavailable = true)) ∧
    strict.schedule HttpClusterScheduler.inOrder (HttpClusterRequest.create 1) Bucket.busy =
      { done := false
        cluster := { strict with dropped := strict.dropped + 1 }
        bucket := Bucket.busy
        cr := { HttpClusterRequest.create 1 with
                  bucket := some Bucket.busy.name
                  listener := (HttpClusterRequest.create 1).listener ++
                    rejection ServiceUnavailable (some Bucket.busy.name) strict.retryAfter } } :=
  ⟨⟨by decide, by decide, by decide⟩,
   (schedule_without_token HttpClusterScheduler.inOrder strict (HttpClusterRequest.create 1)
      Bucket.busy (by decide) (by decide)).2 (by decide)⟩

theorem tryEnqueue_queue (c : HttpCluster) (bucket : Bucket) (cr : HttpClusterRequest) :
    (c.tryEnqueue bucket cr).bucket = bucket ∨
    (c.tryEnqueue bucket cr).bucket =
      { bucket with queue := bucket.queue ++ [{ cr with backend := none }] } := by
  by_cases h : bucket.queue.length < c.queueLimit
  · right; rw [tryEnqueue_accept c bucket cr h]
  · left; rw [tryEnqueue_reject c bucket cr h]

/-- C13: for every `schedule()` call in which a token was obtained but the
scheduler did not return `Success`, the bucket of the result is the bucket
after `get(1)` and exactly one `put(1)`, with the request possibly appended
to its queue: it hands out as many tokens as before the call.  `cr.tokens` is
0 in the request that is enqueued or rejected, in the request as the call
leaves it, and in whatever the call has added to the queue. -/
theorem schedule_returns_token (sch : HttpClusterScheduler) (c : HttpCluster)
    (cr : HttpClusterRequest) (bucket : Bucket)
    (hen : c.enabled = true) (hget : (bucket.get 1).1 = true)
    (hst : (c.answer sch cr bucket).status ≠ HttpClusterSchedulerStatus.Success) :
    (bucket.get 1).2.actualRate = bucket.actualRate + 1 ∧
    ((c.schedule sch cr bucket).bucket = (bucket.get 1).2.put 1 ∨
      (c.schedule sch cr bucket).bucket =
        ((bucket.get 1).2.put 1).enqueue
          { (c.tokenReturned sch cr bucket).2 with backend := none }) ∧
    (c.schedule sch cr bucket).bucket.actualRate = bucket.actualRate ∧
    (c.tokenReturned sch cr bucket).2.tokens = 0 ∧
    (c.schedule sch cr bucket).cr.tokens = 0 ∧
    (∀ q ∈ (c.schedule sch cr bucket).bucket.queue, q ∈ bucket.queue ∨ q.tokens = 0) := by
  have hput := put_get bucket hget
  have hrate : (bucket.get 1).2.actualRate = bucket.actualRate + 1 := by
    unfold Bucket.get at hget ⊢
    split
    · rfl
    · rename_i hn; simp [hn] at hget
  have hcases : c.schedule sch cr bucket =
        { done := false
          cluster := ((c.tokenReturned sch cr bucket).1.serviceUnavailable
            (c.tokenReturned sch cr bucket).2 ServiceUnavailable).1
          bucket := bucket
          cr := ((c.tokenReturned sch cr bucket).1.serviceUnavailable
            (c.tokenReturned sch cr bucket).2 ServiceUnavailable).2 } ∨
      c.schedule sch cr bucket =
        { (c.tokenReturned sch cr bucket).1.tryEnqueue bucket
            (c.tokenReturned sch cr bucket).2 with done := false } := by
    unfold tokenReturned
    unfold answer at hst ⊢
    unfold schedule
    by_cases hcase : (sch c.members { cr with bucket := some bucket.name }).status =
        HttpClusterSchedulerStatus.Unavailable ∧ c.enqueueOnUnavailable = false
    · left; simp [hen, hget, hst, hcase.1, hcase.2, hput]
    · right
      by_cases he : c.enqueueOnUnavailable = true
      · simp [hen, hget, hst, he, hput]
      · have he' : c.enqueueOnUnavailable = false := by simpa using he
        have hu : (sch c.members { cr with bucket := some bucket.name }).status ≠
            HttpClusterSchedulerStatus.Unavailable := fun h => hcase ⟨h, he'⟩
        simp [hen, hget, hst, hu, hput]
  have htok : (c.tokenReturned sch cr bucket).2.tokens = 0 := rfl
  rcases hcases with h | h
  · rw [h, hput]
    refine ⟨hrate, Or.inl rfl, rfl, htok, ?_, fun q hq => Or.inl hq⟩
    simp [serviceUnavailable, tokenReturned]
  · rw [h, hput]
    have hk := tryEnqueue_keeps (c.tokenReturned sch cr bucket).1 bucket
      (c.tokenReturned sch cr bucket).2
    refine ⟨hrate, ?_, hk.1, htok, hk.2.trans htok, ?_⟩
    · rcases tryEnqueue_queue (c.tokenReturned sch cr bucket).1 bucket
        (c.tokenReturned sch cr bucket).2 with hq | hq
      · left; exact hq
      · right; rw [hq]; rfl
    · intro q hq
      rcases tryEnqueue_queue (c.tokenReturned sch cr bucket).1 bucket
        (c.tokenReturned sch cr bucket).2 with hb | hb
      · left
        have : (({ (c.tokenReturned sch cr bucket).1.tryEnqueue bucket
            (c.tokenReturned sch cr bucket).2 with done := false } : Result).bucket) =
            bucket := hb
        rw [this] at hq; exact hq
      · have : (({ (c.tokenReturned sch cr bucket).1.tryEnqueue bucket
            (c.tokenReturned sch cr bucket).2 with done := false } : Result).bucket) =
            { bucket with queue := bucket.queue ++
                [{ (c.tokenReturned sch cr bucket).2 with backend := none }] } := hb
        rw [this] at hq
        simp only [List.mem_append, List.mem_singleton] at hq
        rcases hq with hq | hq
        · exact Or.inl hq
        · right; rw [hq]; rfl


/-- C13 on the cluster `strict`, the bucket `b` and a scheduler that answers
`Unavailable`: the one token of `b` is available again. -/
theorem schedule_returns_token_witness :
    (strict.enabled = true ∧ (Bucket.single.get 1).1 = true ∧
      (strict.answer (HttpClusterScheduler.always .Unavailable) (HttpClusterRequest.create 1)
        Bucket.single).status ≠ HttpClusterSchedulerStatus.Success) ∧
    (Bucket.single.get 1).2.actualRate = 1 ∧
    (strict.schedule (HttpClusterScheduler.always .Unavailable) (HttpClusterRequest.create 1)
        Bucket.single).bucket.actualRate = 0 ∧
    (strict.schedule (HttpClusterScheduler.always .Unavailable) (HttpClusterRequest.create 1)
        Bucket.single).cr.tokens = 0 :=
  ⟨⟨by decide, by decide, by decide⟩,
   (schedule_returns_token (HttpClusterScheduler.always .Unavailable) strict
      (HttpClusterRequest.create 1) Bucket.single (by decide) (by decide) (by decide)).1,
   (schedule_returns_token (HttpClusterScheduler.always .Unavailable) strict
      (HttpClusterRequest.create 1) Bucket.single (by decide) (by decide) (by decide)).2.2.1,
   (schedule_returns_token (HttpClusterScheduler.always .Unavailable) strict
      (HttpClusterRequest.create 1) Bucket.single (by decide) (by decide) (by decide)).2.2.2.2.1⟩

/-- C17: when the deadline of a queued request expires (`onTimeout`, at least
one request being counted as queued), the queued counter decreases by exactly
one and nothing else changes at once; the posted work then finishes the
request with the events of a rejection with status 504, among them a
`Retry-After` header with `retryAfter` in seconds whenever `retryAfter > 0`,
and increments dropped; the members are left as they are and the request is
handed to none of them. -/
theorem timeout_finishes_with_504 (c : HttpCluster) (cr : HttpClusterRequest)
    (hq : 0 < c.queued) :
    ((c.onTimeout cr).queued + 1 = c.queued ∧
      c.onTimeout cr = { c with queued := c.queued - 1 }) ∧
    (((c.onTimeout cr).onTimeoutPosted cr).2 =
        { cr with listener := cr.listener ++ rejection 504 cr.bucket c.retryAfter } ∧
      (rejection 504 cr.bucket c.retryAfter).head? =
        some (ListenerEvent.messageBegin 504 "Service Unavailable") ∧
      (0 < c.retryAfter →
        ListenerEvent.messageHeader "Retry-After" (toString (c.retryAfter / 1000000)) ∈
          rejection 504 cr.bucket c.retryAfter)) ∧
    (((c.onTimeout cr).onTimeoutPosted cr).1 =
        { c with queued := c.queued - 1, dropped := c.dropped + 1 } ∧
      ((c.onTimeout cr).onTimeoutPosted cr).1.members = c.members ∧
      ((c.onTimeout cr).onTimeoutPosted cr).2.backend = cr.backend) := by
  have hne : c.queued ≠ 0 := by omega
  have h1 : c.onTimeout cr = { c with queued := c.queued - 1 } := by
    simp [onTimeout, Counter.decr, hne]
  refine ⟨⟨?_, h1⟩, ⟨?_, rfl, ?_⟩, ?_, ?_, ?_⟩
  · rw [h1]; simp; omega
  · rw [h1]; simp [onTimeoutPosted, serviceUnavailable_eq, GatewayTimeout]
  · intro hr
    simp [rejection, hr]
  · rw [h1]; simp [onTimeoutPosted, serviceUnavailable_eq]
  · rw [h1]; simp [onTimeoutPosted, serviceUnavailable_eq]
  · rw [h1]; simp [onTimeoutPosted, serviceUnavailable_eq]

/-- C17 on the cluster and the request of `queuedTried` (one request queued,
retry-after 30 s). -/
theorem timeout_finishes_with_504_witness :
    0 < queuedTried.1.queued ∧
    (queuedTried.1.onTimeout queuedTried.2).queued + 1 = 1 ∧
    ((queuedTried.1.onTimeout queuedTried.2).onTimeoutPosted queuedTried.2).2.listener =
      [ListenerEvent.messageBegin 504 "Service Unavailable",
       ListenerEvent.messageHeader "Cluster-Bucket" "",
       ListenerEvent.messageHeader "Retry-After" "30",
       ListenerEvent.messageHeaderEnd, ListenerEvent.messageEnd] :=
  ⟨by decide,
   (timeout_finishes_with_504 queuedTried.1 queuedTried.2 (by decide)).1.1,
   by rw [(timeout_finishes_with_504 queuedTried.1 queuedTried.2 (by decide)).2.1.1]; decide⟩

/-- C20: when the monitor of a member has become `Online` and
`onBackendStateChanged` runs.  If the member is enabled and
`stickyOfflineMode` is off: the members stay as they are (the member stays
enabled), and the oldest queued request, if there is one, is removed from the
queue and posted to that member (exactly one; none if the queue is empty).
If the member is enabled and `stickyOfflineMode` is on: the `enabled` flag of
the member becomes false and no request is dequeued.  If the member is
disabled, nothing changes: neither the shaper size, nor the queue, nor the
`enabled` flag. -/
theorem online_member_dequeues (c : HttpCluster) (backend : Nat) (b : HttpClusterMember)
    (old : HttpHealthMonitor.State)
    (hb : c.members[backend]? = some b) (hon : b.healthMonitor.isOnline = true) :
    (b.enabled = true ∧ c.stickyOfflineMode = false →
      (c.onBackendStateChanged backend old).members = c.members ∧
      (c.onBackendStateChanged backend old).shaper.size = (c.shaper.size + b.capacity) % 2 ^ 64 ∧
      (c.shaper.rootNode.queue = [] →
        (c.onBackendStateChanged backend old).posted = c.posted ∧
        (c.onBackendStateChanged backend old).shaper.rootNode.queue = [] ∧
        (c.onBackendStateChanged backend old).queued = c.queued) ∧
      (∀ cr rest, c.shaper.rootNode.queue = cr :: rest →
        (c.onBackendStateChanged backend old).posted = c.posted ++ [(backend, cr)] ∧
        (c.onBackendStateChanged backend old).shaper.rootNode.queue = rest ∧
        (c.onBackendStateChanged backend old).queued = Counter.decr c.queued)) ∧
    (b.enabled = true ∧ c.stickyOfflineMode = true →
      (c.onBackendStateChanged backend old).members =
        c.members.set backend { b with enabled := false } ∧
      (c.onBackendStateChanged backend old).posted = c.posted ∧
      (c.onBackendStateChanged backend old).shaper.rootNode.queue = c.shaper.rootNode.queue ∧
      (c.onBackendStateChanged backend old).queued = c.queued) ∧
    (b.enabled = false → c.onBackendStateChanged backend old = c) := by
  refine ⟨?_, ?_, ?_⟩
  · rintro ⟨hen, hs⟩
    have hres : c.onBackendStateChanged backend old = (c.growShaper b.capacity).dequeueTo backend := by
      simp [onBackendStateChanged, hb, hon, hen, growShaper, hs]
    rw [hres]
    refine ⟨?_, ?_, ?_, ?_⟩
    · exact (dequeueTo_keeps _ _).1
    · rw [(dequeueTo_keeps _ _).2.1]; rfl
    · intro hq
      simp [dequeueTo, dequeue, growShaper, TokenShaper.resize, Bucket.dequeue, hq]
    · intro cr rest hq
      simp [dequeueTo, dequeue, growShaper, TokenShaper.resize, Bucket.dequeue, hq]
  · rintro ⟨hen, hs⟩
    simp [onBackendStateChanged, hb, hon, hen, growShaper, hs, TokenShaper.resize,
      HttpClusterMember.setEnabled]
  · intro hen
    simp [onBackendStateChanged, hb, hon, hen]


/-- C20 on the cluster of `queuedTried` when its member, enabled, has come
online: the queued request 1 is posted to the member at position 0 and the
queue is empty. -/
theorem online_member_dequeues_witness :
    (({ queuedTried.1 with members := [HttpClusterMember.happy] } : HttpCluster).members[0]? =
        some HttpClusterMember.happy ∧
      HttpClusterMember.happy.healthMonitor.isOnline = true) ∧
    ((({ queuedTried.1 with members := [HttpClusterMember.happy] } :
        HttpCluster).onBackendStateChanged 0 HttpHealthMonitor.State.Undefined).posted =
      [(0, queuedTried.2)] ∧
     (({ queuedTried.1 with members := [HttpClusterMember.happy] } :
        HttpCluster).onBackendStateChanged 0
          HttpHealthMonitor.State.Undefined).shaper.rootNode.queue = [] ∧
     (({ queuedTried.1 with members := [HttpClusterMember.happy] } :
        HttpCluster).onBackendStateChanged 0 HttpHealthMonitor.State.Undefined).queued =
      Counter.decr 1) :=
  ⟨⟨by decide, by decide⟩,
   ((online_member_dequeues { queuedTried.1 with members := [HttpClusterMember.happy] } 0
      HttpClusterMember.happy HttpHealthMonitor.State.Undefined (by decide) (by decide)).1
      ⟨by decide, by decide⟩).2.2.2 queuedTried.2 [] (by decide)⟩

/-- C12 fails on the code.  When the member accepts the request taken from the
queue (`tryProcess` returns `Success`), the lambda of `dequeueTo` goes on to
`verifyTryCount`, which finishes the request with 503 if its `tryCount`
exceeds `maxRetryCount`: the request is dispatched to the member and rejected
at once.  With `maxRetryCount = 2`: a request with `tryCount = 3`, queued
while the member was not online and posted to it when it came online, leaves
the member with load 1 and is assigned to it, and its listener receives a
503, dropped becoming 1. -/
theorem accepted_request_also_rejected :
    (∀ (sch : HttpClusterScheduler) (c : HttpCluster) (backend : Nat) (b : HttpClusterMember)
        (cr : HttpClusterRequest) (bucket : Bucket),
      c.members[backend]? = some b →
      (b.tryProcess { cr with tokens := 1 }).status = HttpClusterSchedulerStatus.Success →
      c.maxRetryCount < cr.tryCount →
      (c.dequeueToPosted sch backend cr bucket).cluster.members =
          c.members.set backend { b with load := b.load + 1 } ∧
        (c.dequeueToPosted sch backend cr bucket).cr.backend = some b.name ∧
        (c.dequeueToPosted sch backend cr bucket).cr.listener =
          cr.listener ++ rejection 503 cr.bucket c.retryAfter ∧
        (c.dequeueToPosted sch backend cr bucket).cluster.dropped = c.dropped + 1) ∧
    (oneMember.maxRetryCount = 2 ∧
      postedTried.posted.map (fun w => (w.1, w.2.id, w.2.tryCount)) = [(0, 1, 3)] ∧
      (postedTried.runPosted HttpClusterScheduler.inOrder).map
          (fun r => (r.1.members.map (fun m => m.load), r.2.backend, r.2.listener.head?,
                     r.1.dropped)) =
        some ([1], some "a", some (ListenerEvent.messageBegin 503 "Service Unavailable"), 1)) := by
  refine ⟨?_, by decide, by decide, by decide⟩
  intro sch c backend b cr bucket hb hst hgt
  have htp := HttpClusterMember.tryProcess_success b { cr with tokens := 1 } hst
  have hv : ¬ cr.tryCount ≤ c.maxRetryCount := by omega
  unfold dequeueToPosted
  simp only [hb]
  rw [htp]
  simp [notifyStateChanges, verifyTryCount, hv, serviceUnavailable_eq, ServiceUnavailable]


end HttpCluster

end xzero

namespace FlowVM

/-! ### HANDLER and CALL -/

theorem step_handler (p : Program) (h : Handler) (s : VM) (i : Instr) (r : Runner) (v : Nat)
    (hfetch : h.code[s.pc]? = some i) (hop : i.opc = Opcode.HANDLER)
    (hn : p.nativeHandler i.A i.B i.C s.runner = some r) (hv : r.read i.C = some v) :
    step p h s =
      if v ≠ 0 then StepResult.ret true
      else StepResult.next { pc := s.pc + 1, ticks := (s.ticks + 1) % wordSize, runner := r } := by
  simp [step, hfetch, hop, hn, hv, jump]

theorem step_call (p : Program) (h : Handler) (s : VM) (i : Instr)
    (hfetch : h.code[s.pc]? = some i) (hop : i.opc = Opcode.CALL) :
    step p h s =
      match p.nativeFunction i.A i.B i.C s.runner with
      | some r =>
        StepResult.next { pc := s.pc + 1, ticks := (s.ticks + 1) % wordSize, runner := r }
      | none => StepResult.undefined := by
  simp only [step, hfetch, hop, execData, jump]

/-- C24: `HANDLER A, B, C` calls the native handler `A` with `B` arguments
that start at `r[C]`; if `r[C]` is non-zero after the call the run ends at
once with `true`, if it is zero execution goes on with the next instruction
in the registers the handler left.  `CALL A, B, C` calls the native function
`A` the same way and never ends the run: it goes on with the next
instruction, whatever the function stored in `r[C]`. -/
theorem handler_ends_call_continues (p : Program) (h : Handler) (s : VM) (i : Instr)
    (hfetch : h.code[s.pc]? = some i) :
    (i.opc = Opcode.HANDLER →
      ∀ r v, p.nativeHandler i.A i.B i.C s.runner = some r → r.read i.C = some v →
        (v ≠ 0 → step p h s = StepResult.ret true ∧
          ∀ fuel, runFrom p h (fuel + 1) s = Outcome.returned true) ∧
        (v = 0 → step p h s =
          StepResult.next { pc := s.pc + 1, ticks := (s.ticks + 1) % wordSize, runner := r })) ∧
    (i.opc = Opcode.CALL →
      (∀ b, step p h s ≠ StepResult.ret b) ∧
      ∀ r, p.nativeFunction i.A i.B i.C s.runner = some r →
        step p h s =
          StepResult.next { pc := s.pc + 1, ticks := (s.ticks + 1) % wordSize, runner := r }) := by
  refine ⟨fun hop r v hn hv => ⟨fun hne => ?_, fun hz => ?_⟩, fun hop => ⟨fun b => ?_, fun r hn => ?_⟩⟩
  · have hs : step p h s = StepResult.ret true := by
      rw [step_handler p h s i r v hfetch hop hn hv, if_pos hne]
    exact ⟨hs, fun fuel => by simp [runFrom, hs]⟩
  · rw [step_handler p h s i r v hfetch hop hn hv, if_neg (by simpa using hz)]
  · rw [step_call p h s i hfetch hop]
    cases p.nativeFunction i.A i.B i.C s.runner <;> simp
  · rw [step_call p h s i hfetch hop, hn]

/-- C24 on `callThenHandler` with the callbacks of `Program.natives`, at its
first instruction `CALL 0, 1, r0`: the function stores 1 in `r0` and the run
goes on; the whole run returns `true` from `HANDLER 1, 1, r0`, after
`HANDLER 0, 1, r0` has stored 0 and let it go on. -/
theorem handler_ends_call_continues_witness :
    (step Program.natives callThenHandler (VM.start (Runner.create 1)) =
      StepResult.next { pc := 1, ticks := 1, runner := { data := [1], stringGarbage := [[]] } }) ∧
    run Program.natives callThenHandler 3 = Outcome.returned true :=
  ⟨(handler_ends_call_continues Program.natives callThenHandler (VM.start (Runner.create 1))
      ⟨.CALL, 0, 1, 0⟩ rfl).2 rfl |>.2 { data := [1], stringGarbage := [[]] } rfl,
   by decide⟩

end FlowVM

namespace FlowVM

/-! ### Registers an instruction leaves alone -/

theorem write_read_ne (r r1 : Runner) (a v k : Nat) (h : r.write a v = some r1) (hk : k ≠ a) :
    r1.read k = r.read k := by
  unfold Runner.write at h
  split at h
  · simp only [Option.some.injEq] at h
    subst h
    simp only [Runner.read]
    rw [List.getElem?_set_ne (fun e => hk e.symm)]
  · exact absurd h (by simp)

theorem write_read_same (r r1 : Runner) (a v : Nat) (h : r.write a v = some r1) :
    r1.read a = some (v % wordSize) := by
  unfold Runner.write at h
  split at h
  · rename_i ha
    simp only [Option.some.injEq] at h
    subst h
    simp only [Runner.read]
    rw [List.getElem?_set_self ha]
  · exact absurd h (by simp)

theorem write_stringGarbage (r r1 : Runner) (a v : Nat) (h : r.write a v = some r1) :
    r1.stringGarbage = r.stringGarbage := by
  unfold Runner.write at h
  split at h
  · simp only [Option.some.injEq] at h
    subst h
    rfl
  · exact absurd h (by simp)

theorem regRegOp_keeps (r r1 : Runner) (i : Instr) (f : Int → Int → Option Int) (k : Nat)
    (h : regRegOp r i f = some r1) (hk : k ≠ i.A) : r1.read k = r.read k := by
  unfold regRegOp at h
  split at h
  · split at h
    · exact write_read_ne r r1 _ _ k h hk
    · exact absurd h (by simp)
  · exact absurd h (by simp)

theorem regImmOp_keeps (r r1 : Runner) (i : Instr) (f : Int → Int → Option Int) (k : Nat)
    (h : regImmOp r i f = some r1) (hk : k ≠ i.A) : r1.read k = r.read k := by
  unfold regImmOp at h
  split at h
  · split at h
    · exact write_read_ne r r1 _ _ k h hk
    · exact absurd h (by simp)
  · exact absurd h (by simp)

theorem rawRegOp_keeps (r r1 : Runner) (i : Instr) (f : Nat → Nat → Nat) (k : Nat)
    (h : rawRegOp r i f = some r1) (hk : k ≠ i.A) : r1.read k = r.read k := by
  unfold rawRegOp at h
  split at h
  · exact write_read_ne r r1 _ _ k h hk
  · exact absurd h (by simp)

theorem rawImmOp_keeps (r r1 : Runner) (i : Instr) (f : Nat → Nat → Nat) (k : Nat)
    (h : rawImmOp r i f = some r1) (hk : k ≠ i.A) : r1.read k = r.read k := by
  unfold rawImmOp at h
  split at h
  · exact write_read_ne r r1 _ _ k h hk
  · exact absurd h (by simp)

theorem dumpRegisters_keeps (r r1 : Runner) (a n k : Nat)
    (h : dumpRegisters r a n = some r1) : r1.read k = r.read k := by
  unfold dumpRegisters at h
  split at h
  · rw [← Option.some.inj h]
  · exact absurd h (by simp)

theorem jump_runner (t target : Nat) (r : Runner) (s' : VM)
    (hs : jump t target r = StepResult.next s') : s'.runner = r := by
  simp only [jump, StepResult.next.injEq] at hs
  rw [← hs]

set_option maxHeartbeats 4000000 in
theorem step_keeps (p : Program) (h : Handler) (s s' : VM) (i : Instr) (k : Nat)
    (hfetch : h.code[s.pc]? = some i) (hop : i.opc.assignsOnlyA = true) (hk : k ≠ i.A)
    (hs : step p h s = StepResult.next s') : s'.runner.read k = s.runner.read k := by
  unfold step at hs
  simp only [hfetch] at hs
  cases hopc : i.opc <;> simp only [hopc, Opcode.assignsOnlyA] at hop <;>
    simp only [hopc] at hs <;> (repeat' split at hs) <;>
    first
    | exact Bool.noConfusion hop
    | exact StepResult.noConfusion hs
    | (rw [jump_runner _ _ _ _ hs]; done)
    | (rename_i r1 heq
       rw [jump_runner _ _ _ _ hs]
       simp only [execData, hopc] at heq
       (repeat' split at heq) <;>
       first
       | (simp at heq; done)
       | rw [← Option.some.inj heq]
       | exact write_read_ne _ _ _ _ k heq hk
       | exact regRegOp_keeps _ _ i _ k heq hk
       | exact regImmOp_keeps _ _ i _ k heq hk
       | exact rawRegOp_keeps _ _ i _ k heq hk
       | exact rawImmOp_keeps _ _ i _ k heq hk
       | exact dumpRegisters_keeps _ _ _ _ k heq)

theorem read_lt_wordSize (r : Runner) (k b : Nat) (hw : r.wordsOnly = true)
    (hb : r.read k = some b) : b < wordSize := by
  have hmem : b ∈ r.data := List.getElem?_mem hb
  simp only [Runner.wordsOnly, List.all_eq_true, decide_eq_true_eq] at hw
  exact hw b hmem

theorem step_mov (p : Program) (h : Handler) (s : VM) (i : Instr) (b : Nat)
    (hfetch : h.code[s.pc]? = some i) (hop : i.opc = Opcode.MOV)
    (hA : i.A < s.runner.data.length) (hb : s.runner.read i.B = some b) :
    ∃ r1, s.runner.write i.A b = some r1 ∧
      step p h s =
        StepResult.next { pc := s.pc + 1, ticks := (s.ticks + 1) % wordSize, runner := r1 } := by
  refine ⟨{ s.runner with data := s.runner.data.set i.A (b % wordSize) }, ?_, ?_⟩
  · simp [Runner.write, hA]
  · simp [step, hfetch, hop, execData, hb, Runner.write, hA, jump]

/-- C25: `MOV A, B` on registers that exist goes on with the next
instruction; after it `r[A]` holds what `r[B]` held, `r[A]` equals `r[B]`,
every other register and the string arena are as before.  `r[A] = r[B]`
still holds after any further instruction that the interpreter carries out
itself (an opcode that assigns to no register but its `data_[A]` and calls no
native code) and whose operand `A` is neither of the two registers. -/
theorem mov_copies (p : Program) (h : Handler) (s : VM) (i : Instr)
    (hw : s.runner.wordsOnly = true)
    (hfetch : h.code[s.pc]? = some i) (hop : i.opc = Opcode.MOV)
    (hA : i.A < s.runner.data.length) (hB : i.B < s.runner.data.length) :
    ∃ s1, step p h s = StepResult.next s1 ∧ s1.pc = s.pc + 1 ∧
      s1.runner.read i.A = s.runner.read i.B ∧
      s1.runner.read i.A = s1.runner.read i.B ∧
      (∀ k, k ≠ i.A → s1.runner.read k = s.runner.read k) ∧
      s1.runner.stringGarbage = s.runner.stringGarbage ∧
      ∀ (j : Instr) (s2 : VM), h.code[s1.pc]? = some j → j.opc.assignsOnlyA = true →
        j.A ≠ i.A → j.A ≠ i.B → step p h s1 = StepResult.next s2 →
        s2.runner.read i.A = s2.runner.read i.B := by
  have hb : s.runner.read i.B = some (s.runner.data[i.B]) := List.getElem?_eq_getElem hB
  obtain ⟨r1, hwr, hs⟩ := step_mov p h s i _ hfetch hop hA hb
  have hlt := read_lt_wordSize s.runner i.B _ hw hb
  have hAB : r1.read i.A = s.runner.read i.B := by
    rw [write_read_same _ _ _ _ hwr, hb, Nat.mod_eq_of_lt hlt]
  have hAB1 : r1.read i.A = r1.read i.B := by
    by_cases e : i.B = i.A
    · rw [e]
    · rw [hAB, write_read_ne _ _ _ _ i.B hwr e]
  refine ⟨_, hs, rfl, hAB, hAB1, fun k hk => write_read_ne _ _ _ _ k hwr hk,
    write_stringGarbage _ _ _ _ hwr, fun j s2 hj hop2 h1 h2 hs2 => ?_⟩
  rw [step_keeps p h _ s2 j i.A hj hop2 (fun e => h1 e.symm) hs2,
    step_keeps p h _ s2 j i.B hj hop2 (fun e => h2 e.symm) hs2]
  exact hAB1

/-- C25 on `copyThenAdd`, at its `MOV r0, r1` reached with `r1 = 7`: the run
goes on, `r0` and `r1` are equal, and they still are after the `NADD r2, r0,
r1` that follows. -/
theorem mov_copies_witness :
    ∃ s1, step Program.bare copyThenAdd
        { pc := 1, ticks := 1, runner := { data := [0, 7, 0], stringGarbage := [[]] } } =
        StepResult.next s1 ∧
      s1.runner.read 0 = s1.runner.read 1 ∧
      ∀ s2, step Program.bare copyThenAdd s1 = StepResult.next s2 →
        s2.runner.read 0 = s2.runner.read 1 :=
  let ⟨s1, h1, hpc, _, h2, _, _, h3⟩ :=
    mov_copies Program.bare copyThenAdd
      { pc := 1, ticks := 1, runner := { data := [0, 7, 0], stringGarbage := [[]] } }
      ⟨.MOV, 0, 1, 0⟩ (by decide) rfl rfl (by decide) (by decide)
  ⟨s1, h1, h2, fun s2 hs2 =>
    h3 ⟨.NADD, 2, 0, 1⟩ s2 (by rw [hpc]; rfl) rfl (by decide) (by decide) hs2⟩

/-! ### Boolean instructions -/

theorem boolWord_lt (z : Bool) : boolWord z < wordSize := by
  cases z <;> simp [boolWord, wordSize]

theorem toNumber_boolWord (z : Bool) : toNumber (boolWord z) = if z then 1 else 0 := by
  cases z <;> simp [boolWord, toNumber, wordSize]

theorem toRegister_boolWord (z : Bool) : toRegister (boolWord z : Nat) = boolWord z := by
  cases z <;> simp [boolWord, toRegister, wordSize]

theorem xor_boolWord (x y : Bool) :
    Nat.xor (boolWord x) (boolWord y) = boolWord (xor x y) := by
  cases x <;> cases y <;> decide

theorem boolWord_zero_or_one (z : Bool) : boolWord z = 0 ∨ boolWord z = 1 := by
  cases z <;> simp [boolWord]

/-- C27: on registers that hold 0 or 1 (the words of two truth values `x`
and `y`), `BNOT` stores in `r[A]` the word of `not x`, `BAND` that of `x and
y`, `BOR` that of `x or y`, `BXOR` that of `x xor y`; the word of a truth
value is 0 or 1. -/
theorem boolean_ops (p : Program) (i : Instr) (ticks : Nat) (r : Runner) (x y : Bool)
    (hA : i.A < r.data.length) (hB : r.read i.B = some (boolWord x)) :
    (i.opc = Opcode.BNOT →
      ∃ r1, execData p i ticks r = some r1 ∧ r1.read i.A = some (boolWord (!x))) ∧
    (r.read i.C = some (boolWord y) →
      (i.opc = Opcode.BAND →
        ∃ r1, execData p i ticks r = some r1 ∧ r1.read i.A = some (boolWord (x && y))) ∧
      (i.opc = Opcode.BOR →
        ∃ r1, execData p i ticks r = some r1 ∧ r1.read i.A = some (boolWord (x || y))) ∧
      (i.opc = Opcode.BXOR →
        ∃ r1, execData p i ticks r = some r1 ∧ r1.read i.A = some (boolWord (xor x y)))) ∧
    (∀ z, boolWord z = 0 ∨ boolWord z = 1) := by
  have key : ∀ z, ∃ r1, r.write i.A (boolWord z) = some r1 ∧
      r1.read i.A = some (boolWord z) := by
    intro z
    obtain ⟨r1, h1⟩ : ∃ r1, r.write i.A (boolWord z) = some r1 := by
      simp [Runner.write, hA]
    refine ⟨r1, h1, ?_⟩
    rw [write_read_same _ _ _ _ h1, Nat.mod_eq_of_lt (boolWord_lt z)]
  refine ⟨fun hop => ?_, fun hC => ⟨fun hop => ?_, fun hop => ?_, fun hop => ?_⟩,
    boolWord_zero_or_one⟩
  · simp only [execData, hop, hB, toNumber_boolWord]
    cases x <;> exact key _
  · simp only [execData, hop, hB, hC, regRegOp, toNumber_boolWord, toRegister_boolWord]
    cases x <;> cases y <;> exact key _
  · simp only [execData, hop, hB, hC, regRegOp, toNumber_boolWord, toRegister_boolWord]
    cases x <;> cases y <;> exact key _
  · simp only [execData, hop, hB, hC, rawRegOp, xor_boolWord]
    exact key _

/-- C27 on the registers `r0 = 0`, `r1 = 1`, `r2 = 1`: `BXOR r0, r1, r2`
stores 0, the word of `true xor true`. -/
theorem boolean_ops_witness :
    ∃ r1, execData Program.bare ⟨.BXOR, 0, 1, 2⟩ 1 { data := [0, 1, 1], stringGarbage := [[]] } =
        some r1 ∧ r1.read 0 = some (boolWord (xor true true)) :=
  (boolean_ops Program.bare ⟨.BXOR, 0, 1, 2⟩ 1 { data := [0, 1, 1], stringGarbage := [[]] }
    true true (by decide) rfl).2.1 rfl |>.2.2 rfl

end FlowVM

namespace FlowVM

/-! ### SADD -/

theorem deref_append (sp : StringSpace) (r : Runner) (x s : FlowString) (a : Nat)
    (h : r.deref sp a = some s) :
    Runner.deref sp { r with stringGarbage := r.stringGarbage ++ [x] } a = some s := by
  unfold Runner.deref at h ⊢
  cases hk : sp.arenaIndex a with
  | none => simpa [hk] using h
  | some k =>
    simp only [hk] at h ⊢
    have hlt : k < r.stringGarbage.length := by
      by_contra hge
      rw [List.getElem?_eq_none (by omega)] at h
      exact absurd h (by simp)
    rw [List.getElem?_append_left hlt]
    exact h

theorem execSADD_result (sp : StringSpace) (i : Instr) (r : Runner) (a b : FlowString)
    (hA : i.A < r.data.length)
    (ha : r.toString sp i.B = some a) (hb : r.toString sp i.C = some b)
    (hv : sp.valid r.stringGarbage.length) :
    ∃ r1, execSADD sp i r = some r1 ∧
      r1.stringGarbage = r.stringGarbage ++ [a ++ b] ∧
      r1.read i.A = some (sp.arenaAddr r.stringGarbage.length) ∧
      (∀ k, k ≠ i.A → r1.read k = r.read k) ∧
      r1.toString sp i.A = some (a ++ b) := by
  obtain ⟨r1, h1⟩ : ∃ r1, (r.catString sp a b).1.write i.A (r.catString sp a b).2 = some r1 := by
    simp [Runner.write, Runner.catString, hA]
  have hg : r1.stringGarbage = r.stringGarbage ++ [a ++ b] := by
    rw [write_stringGarbage _ _ _ _ h1]
    rfl
  have hr : r1.read i.A = some (sp.arenaAddr r.stringGarbage.length) := by
    rw [write_read_same _ _ _ _ h1]
    simp only [Runner.catString]
    rw [Nat.mod_eq_of_lt hv.1]
  refine ⟨r1, ?_, hg, hr, fun k hk => ?_, ?_⟩
  · simp only [execSADD, ha, hb]
    exact h1
  · rw [write_read_ne _ _ _ _ k h1 hk]
    rfl
  · simp only [Runner.toString, hr, Runner.deref, hv.2, hg]
    simp

/-- C26: for all strings `a` and `b` that the registers `r[B]` and `r[C]`
point to, `SADD A, B, C` stores in `r[A]` the address of a string whose bytes
are those of `a` followed by those of `b`, of length `len a + len b`; every
string that was there before, `a` and `b` among them, is still at its address
and unchanged; and an evaluation of `SADD` in any other runner whose operands
are `a` and `b` yields an equal string.  This is what the interpreter does at
the opcode `SADD` in every program whose string instructions are those of
`execSADD`. -/
theorem sadd_concatenates (sp : StringSpace) (i : Instr) (r : Runner) (a b : FlowString)
    (hA : i.A < r.data.length)
    (ha : r.toString sp i.B = some a) (hb : r.toString sp i.C = some b)
    (hv : sp.valid r.stringGarbage.length) :
    ∃ r1, execSADD sp i r = some r1 ∧
      r1.toString sp i.A = some (a ++ b) ∧
      (a ++ b).length = a.length + b.length ∧
      (∀ ptr s, r.deref sp ptr = some s → r1.deref sp ptr = some s) ∧
      (∀ k, k ≠ i.A → r1.read k = r.read k) ∧
      (∀ (j : Instr) (r2 : Runner), j.A < r2.data.length →
        r2.toString sp j.B = some a → r2.toString sp j.C = some b →
        sp.valid r2.stringGarbage.length →
        ∃ r3, execSADD sp j r2 = some r3 ∧ r3.toString sp j.A = r1.toString sp i.A) ∧
      ∀ (p : Program) (ticks : Nat), i.opc = Opcode.SADD →
        p.foreignOp i r = execSADD sp i r → execData p i ticks r = some r1 := by
  obtain ⟨r1, h1, hg, _, hk, hs⟩ := execSADD_result sp i r a b hA ha hb hv
  refine ⟨r1, h1, hs, List.length_append a b, fun ptr s hp => ?_, hk,
    fun j r2 hA2 ha2 hb2 hv2 => ?_, fun p ticks hop hf => by
      simp only [execData, hop, hf, h1]⟩
  · have := deref_append sp r (a ++ b) s ptr hp
    unfold Runner.deref at this ⊢
    rw [hg]
    exact this
  · obtain ⟨r3, h3, _, _, _, hs3⟩ := execSADD_result sp j r2 a b hA2 ha2 hb2 hv2
    exact ⟨r3, h3, by rw [hs3, hs]⟩

/-- C26 on `Runner.abcd`: `SADD r0, r1, r2` makes `r0` point to `abcd`. -/
theorem sadd_concatenates_witness :
    ∃ r1, execSADD StringSpace.spaced ⟨.SADD, 0, 1, 2⟩ Runner.abcd = some r1 ∧
      r1.toString StringSpace.spaced 0 = some [97, 98, 99, 100] :=
  let ⟨r1, h1, h2, _⟩ :=
    sadd_concatenates StringSpace.spaced ⟨.SADD, 0, 1, 2⟩ Runner.abcd [97, 98] [99, 100]
      (by decide) (by decide) (by decide) ⟨by decide, by decide⟩
  ⟨r1, h1, h2⟩

end FlowVM

namespace xzero

namespace HttpClusterMember

/-! ### Relaying a response -/

theorem isConnectionHeader_eq (name : String) :
    isConnectionHeader name = connectionLevelHeaders.any (fun n => iequals name n) := by
  simp only [isConnectionHeader, connectionHeaderFields, connectionLevelHeaders, List.any_cons,
    List.any_nil, Bool.or_false]
  cases iequals name "Connection" <;> cases iequals name "Content-Length" <;>
    cases iequals name "Close" <;> cases iequals name "Keep-Alive" <;>
    cases iequals name "TE" <;> cases iequals name "Trailer" <;>
    cases iequals name "Transfer-Encoding" <;> cases iequals name "Upgrade" <;> rfl

/-- C21: for every response, what `onResponseReceived` tells the listener is
message-begin, then one header event for each header of the response whose
name is not equal, ignoring case, to any of `Connection`, `Content-Length`,
`Transfer-Encoding`, `Keep-Alive`, `TE`, `Trailer`, `Upgrade`, `Close` (these
headers in their original order, each with its name and value), then
header-end, the body and message-end. -/
theorem response_headers_relayed (m : HttpClusterMember) (cr : HttpClusterRequest)
    (client : HttpResponse) :
    (m.onResponseReceived cr client).2.listener =
      cr.listener ++
      [ListenerEvent.messageBegin client.status client.reason] ++
      ((client.headers.filter
          (fun f => decide (∀ n ∈ connectionLevelHeaders, iequals f.1 n = false))).map
        (fun f => ListenerEvent.messageHeader f.1 f.2)) ++
      [ListenerEvent.messageHeaderEnd, ListenerEvent.messageContent client.body,
       ListenerEvent.messageEnd] := by
  have hf : (fun f : String × String => !isConnectionHeader f.1) =
      (fun f => decide (∀ n ∈ connectionLevelHeaders, iequals f.1 n = false)) := by
    funext f
    rw [isConnectionHeader_eq]
    cases h : connectionLevelHeaders.any (fun n => iequals f.1 n)
    · symm
      simpa [List.any_eq_false] using h
    · symm
      have h2 := List.any_eq_true.1 h
      simpa using h2
  simp only [onResponseReceived, hf]

end HttpClusterMember

namespace HttpHealthMonitor

/-! ### The state-change callback -/

theorem handle_callback (m : HttpHealthMonitor) (e : Event) :
    (m.handle e).1.hasStateChangeCallback = m.hasStateChangeCallback := by
  cases e <;> simp only [handle, logSuccess, logFailure, setState] <;>
    (repeat' split) <;> rfl

theorem handle_stateChange (m : HttpHealthMonitor) (e : Event)
    (hc : m.hasStateChangeCallback = true) :
    (m.handle e).2.filterMap stateChange =
      if (m.handle e).1.state = m.state then [] else [m.state] := by
  cases e <;> simp only [handle, logSuccess, logFailure, setState, Counter.incr] <;>
    (repeat' split) <;> simp_all [stateChange]

/-- C29: `setState(v)` with `v` different from the current state makes `v` the
state and, the callback being set, calls it exactly once, with the previous
state (without a callback it calls nothing); with `v` equal to the current
state it changes nothing and calls nothing.  Hence over every sequence of
probe results and forced changes the calls of the callback are, in order,
exactly the state transitions, each with the state before it. -/
theorem setState_callback (m : HttpHealthMonitor) (v : State) (h : v ≠ State.Undefined) :
    (m.state ≠ v →
      (m.setState v h).1 = { m with state := v } ∧
      (m.hasStateChangeCallback = true →
        (m.setState v h).2 = [Effect.stateChanged m.state]) ∧
      (m.hasStateChangeCallback = false → (m.setState v h).2 = [])) ∧
    (m.state = v → m.setState v h = (m, [])) ∧
    (m.hasStateChangeCallback = true →
      ∀ events, (m.effectsOf events).filterMap stateChange = m.transitions events) := by
  refine ⟨fun hne => ?_, fun heq => ?_, fun hc events => ?_⟩
  · simp [setState, hne]
  · simp [setState, heq]
  · induction events generalizing m with
    | nil => rfl
    | cons e rest ih =>
      simp only [effectsOf, transitions, List.filterMap_append]
      rw [handle_stateChange m e hc, ih (m.apply e) (by rw [apply, handle_callback]; exact hc)]
      rfl

/-- C29 on a fresh monitor with a callback: `setState(Offline)` calls it once
with `Undefined`; and over three failed or forced events followed by three
successful probes the callback is called twice, with `Undefined` and with
`Offline`. -/
theorem setState_callback_witness :
    ((create 3 true).setState State.Offline (by decide)).2 =
      [Effect.stateChanged State.Undefined] ∧
    ((create 3 true).effectsOf
        [Event.failure, Event.forceOffline, Event.failure, Event.success, Event.success,
         Event.success]).filterMap stateChange = [State.Undefined, State.Offline] :=
  ⟨((setState_callback (create 3 true) State.Offline (by decide)).1 (by decide)).2.1 rfl,
   by decide⟩

end HttpHealthMonitor

end xzero

namespace xzero

namespace HttpCluster

/-! ### Member names -/

theorem memberNames_addMember (c : HttpCluster) (name : String) (capacity : Nat)
    (enabled : Bool) : (c.addMember name capacity enabled).memberNames = c.memberNames ++ [name] := by
  simp [memberNames, addMember]

theorem findMember_isNone (c : HttpCluster) (name : String)
    (h : (c.findMember name).isNone = true) : name ∉ c.memberNames := by
  simp only [findMember, Option.isNone_iff_eq_none, List.find?_eq_none] at h
  simp only [memberNames, List.mem_map, not_exists, not_and]
  intro m hm hn
  exact h m hm (by simp [hn])

theorem memberNames_removeMember_sublist (c : HttpCluster) (name : String) :
    (c.removeMember name).memberNames.Sublist c.memberNames := by
  simp only [memberNames, removeMember]
  exact (List.eraseP_sublist _).map _

theorem memberNames_nodup_call (c : HttpCluster) (op : MemberCall) (rest : List MemberCall)
    (hn : c.memberNames.Nodup) (hf : addsFresh c (op :: rest) = true) :
    (c.call op).memberNames.Nodup ∧ addsFresh (c.call op) rest = true := by
  cases op with
  | addMember name capacity enabled =>
    simp only [addsFresh, Bool.and_eq_true] at hf
    refine ⟨?_, hf.2⟩
    simp only [call, memberNames_addMember]
    have hnot := findMember_isNone c name hf.1
    rw [List.nodup_append]
    exact ⟨hn, List.nodup_singleton _, by
      intro a ha hb
      rw [List.mem_singleton.1 hb] at ha
      exact hnot ha⟩
  | removeMember name =>
    simp only [addsFresh] at hf
    exact ⟨hn.sublist (memberNames_removeMember_sublist c name), hf⟩

theorem memberNames_nodup_calls (c : HttpCluster) (ops : List MemberCall)
    (hn : c.memberNames.Nodup) (hf : addsFresh c ops = true) :
    (c.calls ops).memberNames.Nodup := by
  induction ops generalizing c with
  | nil => exact hn
  | cons op rest ih =>
    obtain ⟨h1, h2⟩ := memberNames_nodup_call c op rest hn hf
    exact ih (c.call op) h1 h2

theorem find_by_name (l : List HttpClusterMember)
    (hn : (l.map (fun m => m.name)).Nodup) (name : String)
    (m : HttpClusterMember) (hm : m ∈ l) (hname : m.name = name) :
    l.find? (fun m => m.name == name) = some m := by
  induction l with
  | nil => simp at hm
  | cons a rest ih =>
    rw [List.map_cons, List.nodup_cons] at hn
    rcases List.mem_cons.1 hm with h | h
    · subst h
      simp [List.find?_cons, hname]
    · have hne : a.name ≠ name := by
        intro e
        apply hn.1
        rw [e, ← hname]
        exact List.mem_map_of_mem _ h
      have hb : (a.name == name) = false := by simpa using hne
      rw [List.find?_cons, hb]
      exact ih hn.2 h

theorem eraseP_by_name (l : List HttpClusterMember)
    (hn : (l.map (fun m => m.name)).Nodup) (name : String) :
    name ∉ (l.eraseP (fun m => m.name == name)).map (fun m => m.name) := by
  induction l with
  | nil => simp
  | cons a rest ih =>
    rw [List.map_cons, List.nodup_cons] at hn
    by_cases e : a.name = name
    · have : (a :: rest).eraseP (fun m => m.name == name) = rest := by
        simp [List.eraseP_cons, e]
      rw [this, ← e]
      exact hn.1
    · have : (a :: rest).eraseP (fun m => m.name == name) =
          a :: rest.eraseP (fun m => m.name == name) := by
        simp [List.eraseP_cons, e]
      rw [this, List.map_cons, List.mem_cons, not_or]
      exact ⟨fun h => e h.symm, ih hn.2⟩

theorem findMember_unique (c : HttpCluster) (hn : c.memberNames.Nodup) (name : String)
    (m : HttpClusterMember) (hm : m ∈ c.members) (hname : m.name = name) :
    c.findMember name = some m :=
  find_by_name c.members hn name m hm hname

theorem removeMember_none_left (c : HttpCluster) (hn : c.memberNames.Nodup) (name : String) :
    name ∉ (c.removeMember name).memberNames :=
  eraseP_by_name c.members hn name

/-- C28 fails on the code: `addMember` appends the member without looking at
the names there are.  After two `addMember` with the name `a` the cluster has
two members named `a`, and after `removeMember("a")`, which erases the first
of them, a member named `a` remains. -/
theorem same_name_added_twice :
    (empty.calls [MemberCall.addMember "a" 1 true, MemberCall.addMember "a" 2 true]).memberNames =
      ["a", "a"] ∧
    (empty.calls [MemberCall.addMember "a" 1 true, MemberCall.addMember "a" 2 true,
       MemberCall.removeMember "a"]).memberNames = ["a"] := by
  decide

/-- C28, amended: after any sequence of `addMember` and `removeMember` calls
in which every `addMember` is given a name that no member has at the time, on
a cluster whose members have different names (one without members, for
instance), no two members have the same name; `findMember(n)` then returns
the one member named `n` if there is one, and after `removeMember(n)` no
member named `n` remains. -/
theorem member_names_unique (c : HttpCluster) (ops : List MemberCall)
    (hn : c.memberNames.Nodup) (hf : addsFresh c ops = true) :
    (c.calls ops).memberNames.Nodup ∧
    (∀ n m, m ∈ (c.calls ops).members → m.name = n → (c.calls ops).findMember n = some m) ∧
    (∀ n, ∀ m ∈ ((c.calls ops).removeMember n).members, m.name ≠ n) := by
  have h := memberNames_nodup_calls c ops hn hf
  refine ⟨h, fun n m hm hname => findMember_unique _ h n m hm hname, fun n m hm e => ?_⟩
  subst e
  exact removeMember_none_left _ h m.name (List.mem_map_of_mem _ hm)

/-- C28, amended, on a cluster without members: `a` and `b` are added, `a` is
removed and added again. -/
theorem member_names_unique_witness :
    (empty.calls [MemberCall.addMember "a" 1 true, MemberCall.addMember "b" 2 true,
       MemberCall.removeMember "a", MemberCall.addMember "a" 3 true]).memberNames.Nodup :=
  (member_names_unique empty
    [MemberCall.addMember "a" 1 true, MemberCall.addMember "b" 2 true,
     MemberCall.removeMember "a", MemberCall.addMember "a" 3 true]
    (by decide) (by decide)).1

end HttpCluster

namespace http2

/-! ### Frame lengths -/

theorem bigEndian_length (width value : Nat) : (bigEndian width value).length = width := by
  induction width with
  | zero => rfl
  | succ n ih => simp [bigEndian, ih]

theorem written_generateFrameHeader (g : Generator) (frameType : FrameType)
    (frameFlags streamID payloadSize : Nat) :
    (g.generateFrameHeader frameType frameFlags streamID payloadSize).sink =
      g.sink ++ (bigEndian 3 (payloadSize % 2 ^ 32) ++
        bigEndian 1 (g.frameTypeCode frameType % 2 ^ 32) ++
        bigEndian 1 (frameFlags % 2 ^ 32) ++
        bigEndian 4 ((streamID % 2 ^ 32 &&& 0x7fffffff) % 2 ^ 32)) := by
  simp [Generator.generateFrameHeader, Generator.write24, Generator.write8, Generator.write32,
    Generator.write, List.append_assoc]

/-- C30 fails on the code for PING and PING ack: `generatePing(payload)` and
`generatePingAck(payload)` assert a payload of 4 bytes and write a frame
header whose length field is 8, followed by the 4 bytes.  For every generator
and every payload the assertion admits, the frame written has the length
field 8 and a payload of 4 bytes; on a generator with an empty sink and the
payload `1, 2, 3, 4` the sink holds 13 bytes. -/
theorem ping_length_field_is_eight :
    (∀ (g : Generator) (payload : List Nat) (h : payload.length = 4),
      lengthField (Generator.written g (g.generatePing payload h)) = 8 ∧
      payloadOf (Generator.written g (g.generatePing payload h)) = payload ∧
      (payloadOf (Generator.written g (g.generatePing payload h))).length = 4 ∧
      lengthField (Generator.written g (g.generatePingAck payload h)) = 8 ∧
      payloadOf (Generator.written g (g.generatePingAck payload h)) = payload) ∧
    (Generator.fresh.generatePing [1, 2, 3, 4] rfl).sink =
      [0, 0, 8, 6, 0, 0, 0, 0, 0, 1, 2, 3, 4] ∧
    (Generator.fresh.generatePingAck [1, 2, 3, 4] rfl).sink =
      [0, 0, 8, 6, 1, 0, 0, 0, 0, 1, 2, 3, 4] := by
  refine ⟨fun g payload h => ?_, by decide, by decide⟩
  have e1 : Generator.written g (g.generatePing payload h) =
      [0, 0, 8, g.frameTypeCode FrameType.Ping % 2 ^ 32 % 256, 0, 0, 0, 0, 0] ++ payload := by
    simp [Generator.written, Generator.generatePing, Generator.write,
      written_generateFrameHeader, bigEndian]
  have e2 : Generator.written g (g.generatePingAck payload h) =
      [0, 0, 8, g.frameTypeCode FrameType.Ping % 2 ^ 32 % 256, 1, 0, 0, 0, 0] ++ payload := by
    simp [Generator.written, Generator.generatePingAck, Generator.write,
      written_generateFrameHeader, bigEndian, Generator.ACK]
  rw [e1, e2]
  simp [lengthField, payloadOf, FrameHeaderSize, h]

end http2

end xzero

namespace base

namespace SuffixTree

variable {α : Type}

/-! ### Suffix tree -/

theorem Node.value_mk (v : Nat) (c : α → Option (Node α)) : (Node.mk v c).value = v := rfl

theorem Node.children_mk (v : Nat) (c : α → Option (Node α)) : (Node.mk v c).children = c := rfl

theorem ascend_descend (key : List α) (n : Node α) (path : List (Node α)) :
    ascend (descend key n path) =
      match look key n with
      | some v => some v
      | none => ascend path := by
  induction key generalizing n path with
  | nil => simp [descend, look]
  | cons e rest ih =>
    simp only [descend, look]
    cases hc : n.children e with
    | none => simp
    | some c =>
      simp only [ih]
      cases hl : look rest c with
      | some v => simp
      | none => simp only [ascend]; split <;> simp_all

theorem lookup_eq (t : Node α) (key : List α) (value : Nat) :
    lookup t key value =
      match look key.reverse t with
      | some v => (true, v)
      | none => (false, value) := by
  simp only [lookup, ascend_descend, ascend]
  cases look key.reverse t <;> rfl

theorem valueAt_leaf (w : List α) : valueAt (Node.leaf : Node α) w = 0 := by
  cases w <;> simp [valueAt, Node.leaf, Node.value_mk, Node.children_mk]

theorem valueAt_acquire (e : α) (n : Node α) (w : List α) :
    valueAt (acquire e n) w = valueAt n (e :: w) := by
  simp only [acquire, valueAt]
  cases n.children e with
  | none => simp [valueAt_leaf]
  | some c => simp

theorem valueAt_insertFrom [DecidableEq α] (p : List α) (v : Nat) (n : Node α) (w : List α) :
    valueAt (insertFrom p v n) w = if w = p then v else valueAt n w := by
  induction p generalizing n w with
  | nil =>
    cases w with
    | nil => simp [insertFrom, valueAt, Node.value_mk]
    | cons e w => simp [insertFrom, valueAt, Node.children_mk]
  | cons e rest ih =>
    cases w with
    | nil => simp [insertFrom, valueAt, Node.value_mk]
    | cons e1 w =>
      simp only [insertFrom, valueAt, Node.children_mk]
      by_cases he : e1 = e
      · subst he
        simp only [Function.update_same, ih, valueAt_acquire, valueAt, List.cons.injEq, true_and]
      · simp only [Function.update_noteq he, List.cons.injEq, he, false_and, if_false]

theorem look_none (key : List α) (n : Node α) (h : look key n = none) :
    ∀ u, u ≠ [] → u <+: key → valueAt n u = 0 := by
  induction key generalizing n with
  | nil => intro u hu hpre; exact absurd (List.prefix_nil.1 hpre) hu
  | cons e rest ih =>
    intro u hu hpre
    cases u with
    | nil => exact absurd rfl hu
    | cons a u =>
      obtain ⟨rfl, hu2⟩ := List.cons_prefix_cons.1 hpre
      simp only [look] at h
      simp only [valueAt]
      cases hc : n.children a with
      | none => rfl
      | some c =>
        simp only [hc] at h
        cases hl : look rest c with
        | some x => simp [hl] at h
        | none =>
          simp only [hl, ne_eq, ite_not] at h
          have hv : c.value = 0 := by
            by_contra hne
            simp [hne] at h
          cases u with
          | nil => simpa [valueAt] using hv
          | cons b u => exact ih c hl (b :: u) (by simp) hu2

theorem look_some (key : List α) (n : Node α) (v : Nat) (h : look key n = some v) :
    v ≠ 0 ∧ ∃ w, w ≠ [] ∧ w <+: key ∧ valueAt n w = v ∧
      ∀ u, u <+: key → w.length < u.length → valueAt n u = 0 := by
  induction key generalizing n v with
  | nil => simp [look] at h
  | cons e rest ih =>
    simp only [look] at h
    cases hc : n.children e with
    | none => simp [hc] at h
    | some c =>
      simp only [hc] at h
      cases hl : look rest c with
      | some x =>
        simp only [hl, Option.some.injEq] at h
        subst h
        obtain ⟨hx, w, hw, hpre, hval, hmax⟩ := ih c x hl
        refine ⟨hx, e :: w, by simp, ?_, by simp [valueAt, hc, hval], ?_⟩
        · exact (List.prefix_cons_inj e).2 hpre
        · intro u hu hlen
          cases u with
          | nil => simp at hlen
          | cons a u =>
            obtain ⟨rfl, hu2⟩ := List.cons_prefix_cons.1 hu
            simp only [valueAt, hc]
            exact hmax u hu2 (by simpa using hlen)
      | none =>
        simp only [hl] at h
        split at h
        · rename_i hv
          simp only [Option.some.injEq] at h
          subst h
          refine ⟨hv, [e], by simp, by simp [List.prefix_cons_inj], by simp [valueAt, hc], ?_⟩
          intro u hu hlen
          cases u with
          | nil => simp at hlen
          | cons a u =>
            obtain ⟨rfl, hu2⟩ := List.cons_prefix_cons.1 hu
            simp only [valueAt, hc]
            refine look_none rest c hl u ?_ hu2
            intro hnil
            subst hnil
            simp at hlen
        · simp at h

theorem valueAt_build_snoc [DecidableEq α] (l : List (List α × Nat)) (i : List α × Nat) (w : List α) :
    valueAt (build (l ++ [i])) w = if w = i.1.reverse then i.2 else valueAt (build l) w := by
  simp only [build, List.foldl_append, List.foldl_cons, List.foldl_nil, insert, valueAt_insertFrom]

theorem valueAt_build_ne_zero [DecidableEq α] (l : List (List α × Nat)) (w : List α)
    (h : valueAt (build l) w ≠ 0) : ∃ i ∈ l, i.1.reverse = w ∧ i.2 = valueAt (build l) w := by
  induction l using List.reverseRecOn with
  | nil => simp [build, valueAt_leaf] at h
  | append_singleton l i ih =>
    rw [valueAt_build_snoc] at h ⊢
    by_cases hw : w = i.1.reverse
    · simp only [hw, if_true]
      exact ⟨i, by simp, rfl, rfl⟩
    · simp only [hw, if_false] at h ⊢
      obtain ⟨j, hj, hjw, hjv⟩ := ih h
      exact ⟨j, by simp [hj], hjw, hjv⟩

theorem valueAt_build_mem [DecidableEq α] (l : List (List α × Nat))
    (hv : ∀ i ∈ l, i.2 ≠ 0) (i : List α × Nat) (hi : i ∈ l) :
    valueAt (build l) i.1.reverse ≠ 0 := by
  induction l using List.reverseRecOn with
  | nil => simp at hi
  | append_singleton l j ih =>
    rw [valueAt_build_snoc]
    by_cases hw : i.1.reverse = j.1.reverse
    · simp only [hw, if_true]
      exact hv j (by simp)
    · simp only [hw, if_false]
      have hij : i ≠ j := fun h => hw (by rw [h])
      have hil : i ∈ l := by
        rcases List.mem_append.1 hi with h | h
        · exact h
        · exact absurd (List.mem_singleton.1 h) hij
      exact ih (fun k hk => hv k (by simp [hk])) hil

theorem valueAt_build_distinct [DecidableEq α] (l : List (List α × Nat))
    (hd : (l.map Prod.fst).Nodup) (i : List α × Nat) (hi : i ∈ l) :
    valueAt (build l) i.1.reverse = i.2 := by
  induction l using List.reverseRecOn with
  | nil => simp at hi
  | append_singleton l j ih =>
    rw [valueAt_build_snoc]
    rw [List.map_append, List.nodup_append] at hd
    obtain ⟨hdl, _, hdisj⟩ := hd
    rcases List.mem_append.1 hi with h | h
    · have hne : i.1 ≠ j.1 := by
        intro heq
        exact hdisj (List.mem_map_of_mem Prod.fst h) (by simp [heq])
      have hw : ¬ i.1.reverse = j.1.reverse := fun hr => hne (List.reverse_injective hr)
      simp only [hw, if_false]
      exact ih hdl h
    · rw [List.mem_singleton.1 h]
      simp

theorem look_of_suffix [DecidableEq α] (inserts : List (List α × Nat)) (key : List α)
    (hp : ∀ i ∈ inserts, i.1 ≠ []) (hv : ∀ i ∈ inserts, i.2 ≠ 0)
    (i : List α × Nat) (hi : i ∈ inserts) (hs : i.1 <:+ key) :
    look key.reverse (build inserts) ≠ none := by
  intro hnone
  have h0 := look_none key.reverse (build inserts) hnone i.1.reverse
    (by simpa using hp i hi) (List.reverse_prefix.2 hs)
  exact valueAt_build_mem inserts hv i hi h0

theorem look_build [DecidableEq α] (inserts : List (List α × Nat)) (key : List α) (v : Nat)
    (h : look key.reverse (build inserts) = some v) :
    ∃ i ∈ inserts, i.1 <:+ key ∧ i.2 = v ∧
      ∀ u, u <+: key.reverse → i.1.length < u.length → valueAt (build inserts) u = 0 := by
  obtain ⟨hv, w, _, hpre, hval, hmax⟩ := look_some key.reverse (build inserts) v h
  obtain ⟨i, hi, hiw, hiv⟩ := valueAt_build_ne_zero inserts w (by rw [hval]; exact hv)
  refine ⟨i, hi, ?_, by rw [hiv, hval], fun u hu hlen => hmax u hu ?_⟩
  · rw [← List.reverse_prefix, hiw]
    exact hpre
  · rw [← hiw, List.length_reverse]
    exact hlen

/-- C22 fails on the code: `lookup` goes up from the deepest node it has
reached and returns the first value it meets, that of the longest pattern
that is a suffix of the input, whenever that pattern was inserted.  With `b`
(target 1) inserted before `ab` (target 2), the input `ab` yields 2, while the
first pattern inserted that is a suffix of `ab` is `b`, with target 1. -/
theorem lookup_prefers_longer_pattern :
    lookup (build bThenAb) "ab".toList 0 = (true, 2) ∧
    firstInserted bThenAb "ab".toList = some 1 := by
  decide

/-- C22, amended: for every sequence of inserts of distinct non-empty patterns
with non-zero targets and every input, `lookup` returns `true` and the target
of the longest pattern that is a suffix of the input, if some pattern is. -/
theorem lookup_longest_suffix [DecidableEq α] (inserts : List (List α × Nat)) (key : List α)
    (value : Nat) (hd : (inserts.map Prod.fst).Nodup)
    (hp : ∀ i ∈ inserts, i.1 ≠ []) (hv : ∀ i ∈ inserts, i.2 ≠ 0)
    (i : List α × Nat) (hi : i ∈ inserts) (hs : i.1 <:+ key)
    (hmax : ∀ j ∈ inserts, j.1 <:+ key → j.1.length ≤ i.1.length) :
    lookup (build inserts) key value = (true, i.2) := by
  rw [lookup_eq]
  cases hl : look key.reverse (build inserts) with
  | none => exact absurd hl (look_of_suffix inserts key hp hv i hi hs)
  | some v =>
    obtain ⟨j, hj, hjs, hjv, hjmax⟩ := look_build inserts key v hl
    have hle := hmax j hj hjs
    have hge : i.1.length ≤ j.1.length := by
      by_contra hlt
      have h0 := hjmax i.1.reverse (List.reverse_prefix.2 hs)
        (by rw [List.length_reverse]; omega)
      exact valueAt_build_mem inserts hv i hi h0
    have heq : j.1 = i.1 := by
      have h1 : j.1 <:+ i.1 := List.suffix_of_suffix_length_le hjs hs hle
      exact h1.eq_of_length (by omega)
    have h2 := valueAt_build_distinct inserts hd j hj
    have h3 := valueAt_build_distinct inserts hd i hi
    rw [heq] at h2
    simp only
    rw [← hjv, ← h2, h3]

/-- C22, amended, on `b` then `ab`: the input `ab` yields the target of
`ab`. -/
theorem lookup_longest_suffix_witness :
    lookup (build bThenAb) "ab".toList 0 = (true, 2) :=
  lookup_longest_suffix bThenAb "ab".toList 0 (by decide) (by decide) (by decide)
    ("ab".toList, 2) (by decide) (by decide) (by decide)

/-- C23: for every sequence of inserts of non-empty patterns with non-zero
targets and every input, `lookup` returns `true` if and only if some inserted
pattern is a suffix of the input; when it returns `false` the value it was
given is still there, and it returns `false` for every input on the empty
tree. -/
theorem lookup_true_iff_suffix [DecidableEq α] (inserts : List (List α × Nat))
    (key : List α) (value : Nat)
    (hp : ∀ i ∈ inserts, i.1 ≠ []) (hv : ∀ i ∈ inserts, i.2 ≠ 0) :
    ((lookup (build inserts) key value).1 = true ↔ ∃ i ∈ inserts, i.1 <:+ key) ∧
    ((lookup (build inserts) key value).1 = false →
      (lookup (build inserts) key value).2 = value) ∧
    lookup (build ([] : List (List α × Nat))) key value = (false, value) := by
  have hempty : lookup (build ([] : List (List α × Nat))) key value = (false, value) := by
    rw [lookup_eq]
    cases hl : look key.reverse (build ([] : List (List α × Nat))) with
    | none => rfl
    | some v =>
      obtain ⟨i, hi, _⟩ := look_build [] key v hl
      simp at hi
  refine ⟨?_, ?_, hempty⟩
  · rw [lookup_eq]
    cases hl : look key.reverse (build inserts) with
    | none =>
      simp only [Bool.false_eq_true, false_iff, not_exists, not_and]
      intro i hi hs
      exact look_of_suffix inserts key hp hv i hi hs hl
    | some v =>
      obtain ⟨i, hi, his, _⟩ := look_build inserts key v hl
      simp only [true_iff]
      exact ⟨i, hi, his⟩
  · rw [lookup_eq]
    cases hl : look key.reverse (build inserts) with
    | none => intro _; rfl
    | some v => intro h; simp at h

/-- C23 on `b` then `ab`: the input `cb` is found (`b` is a suffix of it);
the input `c` is not, and the value given, 7, stays. -/
theorem lookup_true_iff_suffix_witness :
    (lookup (build bThenAb) "cb".toList 7).1 = true ∧
    lookup (build bThenAb) "c".toList 7 = (false, 7) :=
  ⟨(lookup_true_iff_suffix bThenAb "cb".toList 7 (by decide) (by decide)).1.2
      ⟨("b".toList, 1), by decide, by decide⟩,
   by decide⟩

end SuffixTree

end base

namespace FlowVM

/-! ### Instructions without effect -/

/-- C39: `NOP`, `SADDMULTI`, `SURLENC` and `SURLDEC` go on with the next
instruction and leave the runner as it is: every register, `r[A]` included,
and the string arena are unchanged. -/
theorem nop_like_keeps_runner (p : Program) (h : Handler) (s : VM) (i : Instr)
    (hfetch : h.code[s.pc]? = some i)
    (hop : i.opc = Opcode.NOP ∨ i.opc = Opcode.SADDMULTI ∨ i.opc = Opcode.SURLENC ∨
      i.opc = Opcode.SURLDEC) :
    step p h s =
      StepResult.next { pc := s.pc + 1, ticks := (s.ticks + 1) % wordSize, runner := s.runner } ∧
    ∀ s1, step p h s = StepResult.next s1 →
      s1.pc = s.pc + 1 ∧ s1.runner.data = s.runner.data ∧
      s1.runner.read i.A = s.runner.read i.A ∧
      s1.runner.stringGarbage = s.runner.stringGarbage := by
  have hs : step p h s =
      StepResult.next { pc := s.pc + 1, ticks := (s.ticks + 1) % wordSize, runner := s.runner } := by
    rcases hop with e | e | e | e <;> simp [step, hfetch, e, execData, jump]
  refine ⟨hs, fun s1 h1 => ?_⟩
  rw [hs] at h1
  cases h1
  exact ⟨rfl, rfl, rfl, rfl⟩

/-- C39 on `urlencThenExit` with `r0 = 5` and `r1 = 6`: after `SURLENC r0, r1`
the registers are still 5 and 6. -/
theorem nop_like_keeps_runner_witness :
    step Program.bare urlencThenExit
        { pc := 0, ticks := 0, runner := { data := [5, 6], stringGarbage := [[]] } } =
      StepResult.next
        { pc := 1, ticks := 1, runner := { data := [5, 6], stringGarbage := [[]] } } :=
  (nop_like_keeps_runner Program.bare urlencThenExit
    { pc := 0, ticks := 0, runner := { data := [5, 6], stringGarbage := [[]] } }
    ⟨.SURLENC, 0, 1, 0⟩ rfl (Or.inr (Or.inr (Or.inl rfl)))).1

end FlowVM

namespace base

namespace SuffixTree

variable {α : Type}

/-! ### Lookup of the key just inserted -/

theorem look_insertFrom [DecidableEq α] (t : Node α) (w : List α) (v : Nat)
    (hw : w ≠ []) (hv : v ≠ 0) : look w (insertFrom w v t) = some v := by
  have hval : valueAt (insertFrom w v t) w = v := by
    rw [valueAt_insertFrom]
    simp
  cases hl : look w (insertFrom w v t) with
  | none =>
    have h0 := look_none w _ hl w hw (List.prefix_refl w)
    rw [hval] at h0
    exact absurd h0 hv
  | some x =>
    obtain ⟨_, u, _, hpre, hu, hmax⟩ := look_some w _ x hl
    have hlen : u.length = w.length := by
      have hle := hpre.length_le
      by_contra hne
      have h0 := hmax w (List.prefix_refl w) (by omega)
      rw [hval] at h0
      exact hv h0
    have huw : u = w := hpre.eq_of_length hlen
    rw [huw, hval] at hu
    rw [hu]

/-- C38 fails on the code for the empty key and for the value 0: `lookup`
never looks at the value of the root, where `insert` puts the value of the
empty key, and a node whose value is 0 counts as a node without a value.
After `insert("", 5)` on an empty tree `lookup("")` returns `false`, and so
does `lookup("a")` after `insert("a", 0)`; the value given stays. -/
theorem lookup_misses_empty_key_and_zero :
    lookup (insert (Node.leaf : Node Char) [] 5) [] 7 = (false, 7) ∧
    lookup (insert (Node.leaf : Node Char) "a".toList 0) "a".toList 7 = (false, 7) := by
  decide

/-- C38, amended: for every tree, every non-empty key `k` and every value `v`
other than 0, after `insert(k, v)` the call `lookup(k)` returns `true` and
yields `v`. -/
theorem lookup_after_insert [DecidableEq α] (t : Node α) (key : List α) (v value : Nat)
    (hk : key ≠ []) (hv : v ≠ 0) :
    lookup (insert t key v) key value = (true, v) := by
  rw [lookup_eq, insert, look_insertFrom t key.reverse v (by simpa using hk) hv]

/-- C38, amended, on the tree that holds `b` and `ab`: after `insert("cab",
9)` the key `cab` yields 9. -/
theorem lookup_after_insert_witness :
    lookup (insert (build bThenAb) "cab".toList 9) "cab".toList 0 = (true, 9) :=
  lookup_after_insert (build bThenAb) "cab".toList 9 0 (by decide) (by decide)

end SuffixTree

end base

namespace xzero

namespace http2

/-! ### Frame header and DATA frames -/

theorem clear_bit31 (streamID : Nat) :
    (streamID % 2 ^ 32 &&& 0x7fffffff) = streamID % 2 ^ 31 := by
  have h : (0x7fffffff : Nat) = 2 ^ 31 - 1 := by norm_num
  rw [h, Nat.and_pow_two_sub_one_eq_mod]
  exact Nat.mod_mod_of_dvd streamID (by norm_num)

theorem bigEndian_mod (width value k : Nat) (h : width ≤ k) :
    bigEndian width (value % 256 ^ k) = bigEndian width value := by
  induction width with
  | zero => rfl
  | succ n ih =>
    simp only [bigEndian]
    rw [ih (by omega)]
    congr 1
    obtain ⟨d, rfl⟩ : ∃ d, k = n + 1 + d := ⟨k - (n + 1), by omega⟩
    have e : 256 ^ (n + 1 + d) = 256 ^ n * (256 * 256 ^ d) := by ring
    rw [e, Nat.mod_mul_right_div_self, Nat.mod_mul_right_mod]

theorem sink_generateFrameHeader (g : Generator) (frameType : FrameType)
    (frameFlags streamID payloadSize : Nat) :
    (g.generateFrameHeader frameType frameFlags streamID payloadSize).sink =
      g.sink ++ frameHeaderBytes (g.frameTypeCode frameType) frameFlags streamID payloadSize := by
  rw [written_generateFrameHeader, clear_bit31]
  have e4 : (2 : Nat) ^ 32 = 256 ^ 4 := by norm_num
  have h1 : bigEndian 3 (payloadSize % 2 ^ 32) = bigEndian 3 payloadSize := by
    rw [e4]; exact bigEndian_mod 3 payloadSize 4 (by omega)
  have h2 : bigEndian 4 (streamID % 2 ^ 31 % 2 ^ 32) = bigEndian 4 (streamID % 2 ^ 31) := by
    rw [e4]; exact bigEndian_mod 4 _ 4 (by omega)
  have h3 : ∀ v, bigEndian 1 (v % 2 ^ 32) = [v % 256] := by
    intro v
    rw [e4, bigEndian_mod 1 v 4 (by omega)]
    simp [bigEndian]
  rw [h1, h2, h3, h3]
  simp [frameHeaderBytes]

theorem frameHeaderBytes_length (typeCode flags streamID payloadSize : Nat) :
    (frameHeaderBytes typeCode flags streamID payloadSize).length = 9 := by
  simp [frameHeaderBytes, bigEndian_length]

theorem generateFrameHeader_maxFrameSize (g : Generator) (frameType : FrameType)
    (frameFlags streamID payloadSize : Nat) :
    (g.generateFrameHeader frameType frameFlags streamID payloadSize).maxFrameSize =
      g.maxFrameSize ∧
    (g.generateFrameHeader frameType frameFlags streamID payloadSize).frameTypeCode =
      g.frameTypeCode :=
  ⟨rfl, rfl⟩

/-- C31: `generateFrameHeader` appends nine bytes to the sink and leaves what
was there: the three bytes of the payload size, the byte of the frame type,
the byte of the flags and the four bytes of the stream identifier without its
bit 31.  For a payload size below `2^24` the three bytes read back as the
payload size; the four bytes read back as the stream identifier modulo
`2^31`, a number below `2^31`. -/
theorem frame_header_layout (g : Generator) (frameType : FrameType)
    (frameFlags streamID payloadSize : Nat) (hp : payloadSize < 2 ^ 24) :
    (g.generateFrameHeader frameType frameFlags streamID payloadSize).sink =
      g.sink ++
        [payloadSize / 65536 % 256, payloadSize / 256 % 256, payloadSize % 256,
         g.frameTypeCode frameType % 256, frameFlags % 256,
         streamID % 2 ^ 31 / 16777216 % 256, streamID % 2 ^ 31 / 65536 % 256,
         streamID % 2 ^ 31 / 256 % 256, streamID % 2 ^ 31 % 256] ∧
    (Generator.written g
      (g.generateFrameHeader frameType frameFlags streamID payloadSize)).length =
        FrameHeaderSize ∧
    lengthField (Generator.written g
      (g.generateFrameHeader frameType frameFlags streamID payloadSize)) = payloadSize ∧
    streamField (Generator.written g
      (g.generateFrameHeader frameType frameFlags streamID payloadSize)) = streamID % 2 ^ 31 ∧
    streamID % 2 ^ 31 < 2 ^ 31 := by
  have hs := sink_generateFrameHeader g frameType frameFlags streamID payloadSize
  have hb : frameHeaderBytes (g.frameTypeCode frameType) frameFlags streamID payloadSize =
      [payloadSize / 65536 % 256, payloadSize / 256 % 256, payloadSize % 256,
         g.frameTypeCode frameType % 256, frameFlags % 256,
         streamID % 2 ^ 31 / 16777216 % 256, streamID % 2 ^ 31 / 65536 % 256,
         streamID % 2 ^ 31 / 256 % 256, streamID % 2 ^ 31 % 256] := by
    simp [frameHeaderBytes, bigEndian]
  have hw : Generator.written g
      (g.generateFrameHeader frameType frameFlags streamID payloadSize) =
      frameHeaderBytes (g.frameTypeCode frameType) frameFlags streamID payloadSize := by
    simp [Generator.written, hs]
  have hlt : streamID % 2 ^ 31 < 2 ^ 31 := Nat.mod_lt _ (by norm_num)
  refine ⟨by rw [hs, hb], by rw [hw, frameHeaderBytes_length]; rfl, ?_, ?_, hlt⟩
  · rw [hw, hb]
    simp only [lengthField]
    omega
  · rw [hw, hb]
    simp only [streamField, word32, List.drop_succ_cons, List.drop_zero, List.take_succ_cons,
      List.take_zero]
    generalize streamID % 2 ^ 31 = s at hlt
    omega

/-- C31 on a fresh generator: the header of a `HEADERS` frame with the flags
4, the stream identifier `2^31 + 3` and a payload of 258 bytes. -/
theorem frame_header_layout_witness :
    (Generator.fresh.generateFrameHeader FrameType.Headers 4 (2 ^ 31 + 3) 258).sink =
      [0, 1, 2, 1, 4, 0, 0, 0, 3] :=
  (frame_header_layout Generator.fresh FrameType.Headers 4 (2 ^ 31 + 3) 258 (by decide)).1

end http2

end xzero

namespace xzero

namespace http2

theorem dataFrames_cons (typeCode sid : Nat) (last : Bool) (p : List Nat)
    (rest : List (List Nat)) (hr : rest ≠ []) :
    dataFrames typeCode sid last (p :: rest) =
      frameHeaderBytes typeCode (if last then Generator.END_STREAM else 0) sid p.length ++ p ++
        dataFrames typeCode sid last rest := by
  cases rest with
  | nil => exact absurd rfl hr
  | cons q rest => rfl

theorem sink_dataFrame (g : Generator) (flags sid : Nat) (payload : List Nat) :
    ((g.generateFrameHeader FrameType.Data flags sid payload.length).write payload).sink =
      g.sink ++ (frameHeaderBytes (g.frameTypeCode FrameType.Data) flags sid payload.length ++
        payload) := by
  simp only [Generator.write, sink_generateFrameHeader, List.append_assoc]

theorem generateDataFrom_frames (sid : Nat) (data : List Nat) (last : Bool) (m : Nat)
    (code : FrameType → Nat) (hm : 1 ≤ m) :
    ∀ (fuel : Nat) (g : Generator) (offset : Nat), g.maxFrameSize = m →
      g.frameTypeCode = code →
      offset ≤ data.length → 1 ≤ fuel → data.length - offset ≤ fuel * m →
      ∃ (g1 : Generator) (payloads : List (List Nat)),
        Generator.generateDataFrom sid data last fuel g offset = some g1 ∧
        payloads ≠ [] ∧
        payloads.flatten = data.drop offset ∧
        payloads.length = max 1 ((data.length - offset + m - 1) / m) ∧
        (∀ p ∈ payloads, p.length ≤ m) ∧
        g1.sink = g.sink ++ dataFrames (code FrameType.Data) sid last payloads ∧
        g1.maxFrameSize = m ∧ g1.frameTypeCode = code := by
  intro fuel
  induction fuel with
  | zero => intro g offset _ _ _ h1; omega
  | succ fuel ih =>
    intro g offset hgm hgc hoff _ hfuel
    by_cases hfin : data.length - offset ≤ m
    · -- the frame written is the final one
      have hmin : min (data.length - offset) m = data.length - offset :=
        Nat.min_eq_left hfin
      have hlen : (data.drop offset).length = data.length - offset := List.length_drop _ _
      have htake : (data.drop offset).take (data.length - offset) = data.drop offset := by
        rw [← hlen]; exact List.take_length _
      refine ⟨(g.generateFrameHeader FrameType.Data Generator.END_STREAM sid
          (data.length - offset)).write (data.drop offset), [data.drop offset], ?_, by simp,
        by simp, ?_, ?_, ?_, hgm, hgc⟩
      · have hlt : ¬ (data.length - offset < data.length - offset) := Nat.lt_irrefl _
        have heq : offset + (data.length - offset) = data.length := by omega
        simp only [Generator.generateDataFrom, hgm, hmin, htake, hlt, decide_False,
          Bool.and_false, Bool.false_eq_true, if_false, heq, if_true]
      · simp only [List.length_singleton]
        have : (data.length - offset + m - 1) / m ≤ 1 := by
          rw [Nat.div_le_iff_le_mul_add_pred (by omega)]
          omega
        omega
      · intro p hp
        rw [List.mem_singleton.1 hp, hlen]
        exact hfin
      · have := sink_dataFrame g Generator.END_STREAM sid (data.drop offset)
        rw [hlen] at this
        rw [this, hgc]
        simp [dataFrames, hlen]
    · -- another frame follows
      have hgt : m < data.length - offset := by omega
      have hmin : min (data.length - offset) m = m := Nat.min_eq_right (by omega)
      have hne : ¬ (offset + m = data.length) := by omega
      have hplen : ((data.drop offset).take m).length = m := by
        rw [List.length_take, List.length_drop]
        omega
      have hfuel1 : 1 ≤ fuel := by
        by_contra hz
        have : fuel = 0 := by omega
        subst this
        simp at hfuel
        omega
      have hfuel2 : data.length - (offset + m) ≤ fuel * m := by
        have : (fuel + 1) * m = fuel * m + m := by ring
        omega
      obtain ⟨g1, payloads, hrun, hpne, hjoin, hcount, hsize, hsink, hmax, hcode⟩ :=
        ih ((g.generateFrameHeader FrameType.Data (if last then Generator.END_STREAM else 0) sid
          m).write ((data.drop offset).take m))
          (offset + m) hgm hgc (by omega) hfuel1 hfuel2
      refine ⟨g1, (data.drop offset).take m :: payloads, ?_, by simp, ?_, ?_, ?_,
        ?_, hmax, hcode⟩
      · have hflags : (if (!last && decide (m < data.length - offset)) = true
            then 0 else Generator.END_STREAM) =
            (if last = true then Generator.END_STREAM else 0) := by
          cases last <;> simp [hgt]
        simp only [Generator.generateDataFrom, hgm, hmin, hne, if_false, hflags]
        exact hrun
      · rw [List.flatten_cons, hjoin, ← List.drop_drop, List.take_append_drop]
      · simp only [List.length_cons, hcount]
        have e : data.length - offset + m - 1 = (data.length - (offset + m) + m - 1) + m := by
          omega
        rw [e, Nat.add_div_right _ (by omega)]
        have hpos : 1 ≤ (data.length - (offset + m) + m - 1) / m := by
          rw [Nat.le_div_iff_mul_le (by omega)]
          omega
        omega
      · intro p hp
        rcases List.mem_cons.1 hp with h | h
        · rw [h, hplen]
        · exact hsize p h
      · rw [hsink, dataFrames_cons _ _ _ _ _ hpne]
        have := sink_dataFrame g (if last then Generator.END_STREAM else 0) sid
          ((data.drop offset).take m)
        rw [hplen] at this
        rw [this, hplen, hgc]
        simp only [List.append_assoc]

/-- C37: for every data buffer of `n` bytes and every maximum frame size `m`
of at least 1, `generateData` ends (within `n + 1` rounds of its loop, and
with the same result however many more it is allowed) and writes
`max(1, ceil(n / m))` DATA frames behind what the sink held, each with a
payload of at most `m` bytes; the payloads, in order, make up the data. -/
theorem generateData_frames (g : Generator) (sid : Nat) (data : List Nat) (last : Bool)
    (hs : sid ≠ 0) (hm : 1 ≤ g.maxFrameSize) (fuel : Nat) (hfuel : data.length < fuel) :
    ∃ (g1 : Generator) (payloads : List (List Nat)),
      g.generateData sid data last hs fuel = some g1 ∧
      payloads.flatten = data ∧
      payloads.length = max 1 ((data.length + g.maxFrameSize - 1) / g.maxFrameSize) ∧
      (∀ p ∈ payloads, p.length ≤ g.maxFrameSize) ∧
      g1.sink = g.sink ++ dataFrames (g.frameTypeCode FrameType.Data) sid last payloads := by
  have hle : data.length - 0 ≤ fuel * g.maxFrameSize := by
    have : fuel * 1 ≤ fuel * g.maxFrameSize := Nat.mul_le_mul_left fuel hm
    omega
  obtain ⟨g1, payloads, hrun, _, hjoin, hcount, hsize, hsink, _, _⟩ :=
    generateDataFrom_frames sid data last g.maxFrameSize g.frameTypeCode hm fuel g 0 rfl rfl
      (Nat.zero_le _) (by omega) hle
  exact ⟨g1, payloads, hrun, by simpa using hjoin, by simpa using hcount, hsize, hsink⟩

/-- C37 on a generator with the maximum frame size 11 and the 12 bytes
`0, ..., 11`: two frames, with payloads of 11 bytes and of 1 byte. -/
theorem generateData_frames_witness :
    ∃ (g1 : Generator) (payloads : List (List Nat)),
      Generator.narrow.generateData 1 (List.range 12) true (by decide) 13 = some g1 ∧
      payloads.flatten = List.range 12 ∧
      payloads.length = 2 ∧
      (∀ p ∈ payloads, p.length ≤ 11) ∧
      g1.sink = dataFrames 0 1 true payloads :=
  generateData_frames Generator.narrow 1 (List.range 12) true (by decide) (by decide) 13
    (by decide)

/-- C36 fails on the code: the flags of a DATA frame are 0 only if `last` is
not set and the frame is not the final one, and `END_STREAM` in every other
case.  With `last = false` the one frame written for the data `7` has the
flags byte 1 (`END_STREAM`); with `last = true`, a maximum frame size of 11
and 12 bytes of data, the first of the two frames written has the flags byte
1 although a frame follows it. -/
theorem end_stream_on_other_frames :
    (Generator.fresh.generateData 1 [7] false (by decide) 1).map (fun g => g.sink) =
      some [0, 0, 1, 0, 1, 0, 0, 0, 1, 7] ∧
    (Generator.narrow.generateData 1 (List.range 12) true (by decide) 2).map (fun g => g.sink) =
      some ([0, 0, 11, 0, 1, 0, 0, 0, 1] ++ [0, 1, 2, 3, 4, 5, 6, 7, 8, 9, 10] ++
            [0, 0, 1, 0, 1, 0, 0, 0, 1] ++ [11]) := by
  decide

end http2

end xzero

namespace xzero

namespace hpack

namespace StaticTable

/-! ### The static table -/

/-- C33 fails on the code: a name of the table is not found when the binary
search meets its entry with a value that differs, because the search then goes
on to one side of that entry and leaves it out.  `find("accept-encoding",
"gzip")` returns `false` and writes neither output, whatever they held, while
entry 15 of the table has the name `accept-encoding`; `find("accept-charset",
"utf-8")`, whose entry the search does not meet before its end, returns `true`
with the index 14. -/
theorem find_misses_name :
    (∀ index nameValueMatch, find "accept-encoding" "gzip" index nameValueMatch =
      some { result := false, index := index, nameValueMatch := nameValueMatch }) ∧
    hasName "accept-encoding" = true ∧
    entries_[15]? = some ("accept-encoding", "gzip, deflate") ∧
    (∀ index nameValueMatch, find "accept-charset" "utf-8" index nameValueMatch =
      some { result := true, index := 14, nameValueMatch := nameValueMatch }) := by
  refine ⟨fun index nameValueMatch => rfl, by decide, rfl, fun index nameValueMatch => rfl⟩

/-- C34: for every `i` from 0 to 60, `find(entries_[i].name, entries_[i].value)`
returns `true`, sets `nameValueMatch` to `true` and `index` to `i`, whatever
the two outputs held; `at(i)` is the entry searched for. -/
theorem find_each_entry (i : Fin length) (index : Nat) (nameValueMatch : Bool) :
    find («at» i.1 i.2).1 («at» i.1 i.2).2 index nameValueMatch =
      some { result := true, index := i.1, nameValueMatch := true } := by
  revert index nameValueMatch
  fin_cases i <;> intro index nameValueMatch <;> rfl

/-- C35: consecutive entries of `sortedEntries_` are strictly increasing in
`(name, value)`, every index from 0 to 60 occurs in it exactly once, and every
sorted entry has the name and the value of the entry of `entries_` at its
index. -/
theorem sortedEntries_sorted :
    increasing sortedEntries_ = true ∧
    (sortedEntries_.map (fun e => e.index)).Perm (List.range 61) ∧
    sortedEntries_.length = 61 ∧ entries_.length = 61 ∧
    ∀ e ∈ sortedEntries_, entries_[e.index]? = some (e.name, e.value) := by
  refine ⟨by decide, by decide, rfl, rfl, by decide⟩

end StaticTable

end hpack

end xzero

namespace director

namespace HealthMonitor

/-! ### The two health monitors -/

theorem plugin_setState_eq_with (m : HealthMonitor) (v : State) (h : v ≠ State.Undefined) :
    (m.setState v h).1 = { m with state_ := v } := by
  unfold setState
  split
  · rename_i he
    cases m
    simp only at he
    simp [he]
  · rfl

theorem probe_agrees (a : HealthMonitor) (b : xzero.HttpHealthMonitor) (success : Bool)
    (h : a.agrees b) : (a.probe success).agrees (b.probe success) := by
  obtain ⟨hs, hc, hf, ht⟩ := h
  cases success
  · simp only [probe, xzero.HttpHealthMonitor.probe, Bool.false_eq_true, if_false, logFailure,
      xzero.HttpHealthMonitor.logFailure_eq, plugin_setState_eq_with,
      xzero.HttpHealthMonitor.setState_eq_with]
    exact ⟨rfl, rfl, by simp [hf], ht⟩
  · simp only [probe, xzero.HttpHealthMonitor.probe, if_true, logSuccess,
      xzero.HttpHealthMonitor.logSuccess_eq]
    rw [← hc, ← ht]
    by_cases hge : a.successCount_ + 1 ≥ a.successThreshold
    · simp only [hge, if_true, plugin_setState_eq_with, xzero.HttpHealthMonitor.setState_eq_with]
      exact ⟨rfl, rfl, hf, rfl⟩
    · simp only [hge, if_false]
      exact ⟨hs, rfl, hf, rfl⟩

theorem probes_agrees (results : List Bool) :
    ∀ (a : HealthMonitor) (b : xzero.HttpHealthMonitor), a.agrees b →
      (a.probes results).agrees (b.probes results) := by
  induction results with
  | nil => intro a b h; exact h
  | cons r rest ih =>
    intro a b h
    exact ih (a.probe r) (b.probe r) (probe_agrees a b r h)

/-- C40: for every sequence of probe successes and failures, the director
plugin's `HealthMonitor` and an `HttpHealthMonitor`, both started in the state
`Undefined` with the same success threshold, end in the same state, with the
same count of consecutive successes and the same count of failures (whether
or not either has a state-change callback). -/
theorem monitors_agree (threshold : Nat) (callback callback2 : Bool) (results : List Bool) :
    ((create threshold callback).probes results).state_.toHttp =
      ((xzero.HttpHealthMonitor.create threshold callback2).probes results).state ∧
    ((create threshold callback).probes results).successCount_ =
      ((xzero.HttpHealthMonitor.create threshold callback2).probes results).consecutiveSuccessCount ∧
    ((create threshold callback).probes results).failCount_ =
      ((xzero.HttpHealthMonitor.create threshold callback2).probes results).totalFailCount := by
  have h := probes_agrees results (create threshold callback)
    (xzero.HttpHealthMonitor.create threshold callback2) ⟨rfl, rfl, rfl, rfl⟩
  exact ⟨h.1, h.2.1, h.2.2.1⟩

end HealthMonitor

end director

namespace x0

namespace ResponseParser

/-! ### The response parser -/

/-- C32 fails on the code for a response with a header line whose value is
empty: in the state `parsing_header_value_ws_left` the line end counts as
white space before the value, so the parser takes what follows the line end
as the value of that header.  On the response `HTTP/1.1 200 OK`, `X:`,
`Content-Length: 3`, blank line, `abc`, passed as one chunk, the header `X`
is given the value `Content-Length: 3`, the content length stays unset (-1),
`abc` is handed to `on_content` and `on_complete` is never called.  With the
empty header behind `Content-Length: 3` the blank line and the body become the
value of `X`, and neither `on_content` nor `on_complete` is called.  The same
response without the header `X` is delivered and completed, in one chunk and
in chunks of 20, 19 and twice 1 bytes. -/
theorem empty_header_value_breaks_content_length :
    parseChunks emptyHeaderResponse [45] 0 create [] =
      some ({ create with
                state_ := .processing_content
                protocol_offset_ := 0, protocol_size_ := 8
                name_offset_ := 17, name_size_ := 1
                value_offset_ := 21, value_size_ := 17 },
            [Callback.on_status (bytes "HTTP/1.1") (bytes "200") (bytes "OK"),
             Callback.on_header (bytes "X") (bytes "Content-Length: 3"),
             Callback.on_content (bytes "abc")]) ∧
    (parseChunks emptyLastHeaderResponse [45] 0 create []).map (fun r => (r.1.state_, r.2)) =
      some (.parsing_header_value,
            [Callback.on_status (bytes "HTTP/1.1") (bytes "200") (bytes "OK"),
             Callback.on_header (bytes "Content-Length") (bytes "3")]) ∧
    (parseChunks plainResponse [41] 0 create []).map (fun r => (r.1.state_, r.2)) =
      some (.parsing_status_line_begin,
            [Callback.on_status (bytes "HTTP/1.1") (bytes "200") (bytes "OK"),
             Callback.on_header (bytes "Content-Length") (bytes "3"),
             Callback.on_content (bytes "abc"), Callback.on_complete]) ∧
    (parseChunks plainResponse [20, 19, 1, 1] 0 create []).map (fun r => (r.1.state_, r.2)) =
      some (.parsing_status_line_begin,
            [Callback.on_status (bytes "HTTP/1.1") (bytes "200") (bytes "OK"),
             Callback.on_header (bytes "Content-Length") (bytes "3"),
             Callback.on_content (bytes "a"), Callback.on_content (bytes "b"),
             Callback.on_content (bytes "c"), Callback.on_complete]) := by
  decide

end ResponseParser

end x0
